import Mathlib

/-! Fragment executor (`be/src/runtime/plan_fragment_executor.cpp`).

A shallow embedding of the per-instance fragment executor.  The executor object is a
record of its member variables; every member function is a function on that record.
The plan tree, the sink, the stream managers and the report callback are collaborators
whose code is outside the executor: every call to one of them is recorded, in order, as
an `Event` in the `trace` field, and the value a collaborator returns is drawn from a
`Collab` record of functions of the history of calls made so far (and of the call's
arguments), so a theorem quantified over `Collab` covers every behaviour of the
collaborators.

The two `while` loops of the source (`get_next_internal` and the drive loop of
`open_internal`) need not terminate when the plan keeps returning empty batches, so they
take a fuel argument and return `none` when it runs out.  Profile timers
(`SCOPED_TIMER`, `SCOPED_CPU_TIMER`), logging and tracing spans have no effect on the
modelled state and are left out.  The report thread is modelled by interleaving: one
pass of its loop is one action between two operations of the executor.

After the executor come four smaller embeddings: the tablet state of
`be/src/olap/base_tablet.cpp`, the statistics accumulator that
`_collect_query_statistics` rebuilds, the date value checked by
`be/test/vec/runtime/vdatetime_value_test.cpp` and the bloom-filter column predicate of
`be/src/olap/bloom_filter_predicate.h`.
-/

namespace doris

/-! ## Status -/

/-- Modelled from the spec: the status codes of `common/status.h`, which is not among
the sources; the codes are those the executor constructs or tests. -/
inductive TStatusCode
  | OK
  | CANCELLED
  | MEM_LIMIT_EXCEEDED
  | RUNTIME_ERROR
  | INTERNAL_ERROR
  | END_OF_FILE
  | INVALID_ARGUMENT
  | ABORTED
  | RPC_ERROR
  deriving DecidableEq, Repr

/-- Modelled from the spec: the tagged result type `Status` of `common/status.h`
(a code and an error message). -/
structure Status where
  code : TStatusCode
  msg : String
  deriving DecidableEq, Repr

namespace Status

/-- The value of `Status::OK()` and of a default-constructed `Status`. -/
def OK : Status := ⟨TStatusCode.OK, ""⟩

def RuntimeError (msg : String) : Status := ⟨TStatusCode.RUNTIME_ERROR, msg⟩

def MemoryLimitExceeded (msg : String) : Status := ⟨TStatusCode.MEM_LIMIT_EXCEEDED, msg⟩

def InternalError (msg : String) : Status := ⟨TStatusCode.INTERNAL_ERROR, msg⟩

def Aborted (msg : String) : Status := ⟨TStatusCode.ABORTED, msg⟩

def Cancelled (msg : String) : Status := ⟨TStatusCode.CANCELLED, msg⟩

def EndOfFile (msg : String) : Status := ⟨TStatusCode.END_OF_FILE, msg⟩

def ok (s : Status) : Bool := decide (s.code = TStatusCode.OK)

def is_cancelled (s : Status) : Bool := decide (s.code = TStatusCode.CANCELLED)

def is_mem_limit_exceeded (s : Status) : Bool :=
  decide (s.code = TStatusCode.MEM_LIMIT_EXCEEDED)

def is_end_of_file (s : Status) : Bool := decide (s.code = TStatusCode.END_OF_FILE)

def get_error_msg (s : Status) : String := s.msg

end Status

instance : Inhabited Status := ⟨Status.OK⟩

/-- Modelled from the spec: the cancel reasons of `PPlanFragmentCancelReason`
(declared in the protocol files, not among the sources).  The executor names three of
them; every other enumerator is `OTHER`. -/
inductive PPlanFragmentCancelReason
  | INTERNAL_ERROR
  | CALL_RPC_ERROR
  | MEMORY_LIMIT_EXCEED
  | OTHER (tag : Nat)
  deriving DecidableEq, Repr

/-- Modelled from the spec: the query types of `TQueryType`; the executor only tests
for `EXTERNAL`. -/
inductive TQueryType
  | SELECT
  | LOAD
  | EXTERNAL
  deriving DecidableEq, Repr

/-! ## Collaborators -/

/-- One call from the executor to a collaborator, with the arguments the executor passed
and the value the collaborator returned. -/
inductive Event
  /-- A call `_plan->open(state)` and its result. -/
  | plan_open (ret : Status)
  /-- A call `_sink->open(state)` and its result. -/
  | sink_open (ret : Status)
  /-- A call `_plan->get_next(state, batch, &_done)`: its result, the number of rows
  in the batch (block) afterwards and the value of `_done` afterwards. -/
  | plan_get_next (ret : Status) (rows : Nat) (eos : Bool)
  /-- A call of `_collect_query_statistics()`. -/
  | collect_query_statistics
  /-- A call `_sink->send(state, batch)`: the rows of the batch and the result. -/
  | sink_send (rows : Nat) (ret : Status)
  /-- The deferred `_sink->end_send_span()` of the vectorized drive loop. -/
  | end_send_span
  /-- A call `_sink->close(state, exec_status)` and its result. -/
  | sink_close (exec_status : Status) (ret : Status)
  /-- A call `_plan->close(state)`. -/
  | plan_close
  /-- A call `_report_status_cb(status, profile, done)`; `profile` is `true` for the
  live profile and `false` for `nullptr`. -/
  | report_status_cb (status : Status) (profile : Bool) (done : Bool)
  /-- The report thread is created and has signalled that it started. -/
  | report_thread_start
  /-- The report thread is notified and joined (`_report_thread.join()`). -/
  | report_thread_join
  /-- A call `_runtime_state->set_mem_limit_exceeded(msg)`. -/
  | set_mem_limit_exceeded (msg : String)
  /-- A call `result_queue_mgr()->update_queue_status(id, status)`. -/
  | update_queue_status (status : Status)
  /-- A call `_runtime_state->log_error(msg)`. -/
  | log_error (msg : String)
  /-- A call `env->stream_mgr()->cancel(id)`. -/
  | stream_mgr_cancel
  /-- A call `env->vstream_mgr()->cancel(id)`. -/
  | vstream_mgr_cancel
  /-- A call `env->result_mgr()->cancel(id)`. -/
  | result_mgr_cancel
  /-- The final profile is computed and printed in `close()`. -/
  | pretty_print_profile
  /-- A call `_runtime_state->init_mem_trackers(query_id)` and its result. -/
  | init_mem_trackers (ret : Status)
  /-- A call `_runtime_state->create_block_mgr()` and its result. -/
  | create_block_mgr (ret : Status)
  /-- A call `DescriptorTbl::create(pool, request.desc_tbl, &desc_tbl)` and its result. -/
  | create_desc_tbl (ret : Status)
  /-- A call `ExecNode::create_tree(state, pool, plan, desc_tbl, &_plan)` and its
  result. -/
  | create_tree (ret : Status)
  /-- A call `set_num_senders(num_senders)` on the exchange node `node_id`. -/
  | set_num_senders (node_id : Nat) (num_senders : Int)
  /-- A call `_plan->prepare(state)` and its result. -/
  | plan_prepare (ret : Status)
  /-- A call `_plan->try_do_aggregate_serde_improve()`. -/
  | try_do_aggregate_serde_improve
  /-- A call `set_scan_ranges(scan_ranges)` on the scan node `node_id` with
  `num_ranges` ranges. -/
  | set_scan_ranges (node_id : Nat) (num_ranges : Nat)
  /-- A call `DataSink::create_data_sink(..., &_sink, ...)` and its result. -/
  | create_data_sink (ret : Status)
  /-- A call `_sink->prepare(state)` and its result. -/
  | sink_prepare (ret : Status)
  /-- A call `_sink->set_query_statistics(_query_statistics)`. -/
  | set_query_statistics
  deriving DecidableEq, Repr

/-- What one call of `_plan->get_next(state, batch, &_done)` does: the status it
returns, the number of rows it leaves in the batch, and the value it leaves in `_done`. -/
structure PlanResp where
  status : Status
  rows : Nat
  eos : Bool
  deriving DecidableEq, Repr

/-- The behaviour of the collaborators of one executor.  Every answer may depend on the
whole history of calls (the trace) and on the arguments of the call. -/
structure Collab where
  /-- The result of `_plan->open`. -/
  plan_open : List Event → Status
  /-- The result of `_sink->open`. -/
  sink_open : List Event → Status
  /-- The outcome of `_plan->get_next`. -/
  plan_get_next : List Event → PlanResp
  /-- The result of `_sink->send` on a batch with the given number of rows. -/
  sink_send : List Event → Nat → Status
  /-- The result of `_sink->close` called with the given status. -/
  sink_close : List Event → Status → Status
  /-- The value of `_runtime_state->log_has_space()`. -/
  log_has_space : List Event → Bool
  /-- The value of `config::status_report_interval`. -/
  status_report_interval : Int

/-! ## Executor state -/

/-- The part of `RuntimeState` the executor reads and writes. -/
structure RuntimeState where
  is_cancelled : Bool
  query_type : TQueryType
  enable_vectorized_exec : Bool
  backend_id : Int
  deriving DecidableEq, Repr

/-- The member variables of `PlanFragmentExecutor`.  Owning pointers are modelled by
their nullness (`plan`, `sink`, `row_batch`) or as an `Option` (`runtime_state`);
`report_status_cb` is `true` when a callback is installed; `rows_produced` is the value
of the `RowsProduced` counter; `trace` is the history of collaborator calls. -/
structure PlanFragmentExecutor where
  runtime_state : Option RuntimeState
  plan : Bool
  sink : Bool
  row_batch : Bool
  report_status_cb : Bool
  report_thread_active : Bool
  done : Bool
  prepared : Bool
  closed : Bool
  is_report_success : Bool
  is_report_on_cancel : Bool
  collect_query_statistics_with_every_batch : Bool
  cancel_reason : PPlanFragmentCancelReason
  cancel_msg : String
  status : Status
  rows_produced : Nat
  trace : List Event
  deriving DecidableEq, Repr

namespace PlanFragmentExecutor

/-- The constructor: the initial values of the member initialiser list. -/
def construct (report_status_cb : Bool) : PlanFragmentExecutor where
  runtime_state := none
  plan := false
  sink := false
  row_batch := false
  report_status_cb := report_status_cb
  report_thread_active := false
  done := false
  prepared := false
  closed := false
  is_report_success := true
  is_report_on_cancel := true
  collect_query_statistics_with_every_batch := false
  cancel_reason := PPlanFragmentCancelReason.INTERNAL_ERROR
  cancel_msg := ""
  status := Status.OK
  rows_produced := 0
  trace := []

/-- Record a collaborator call at the end of the trace. -/
def emit (s : PlanFragmentExecutor) (e : Event) : PlanFragmentExecutor :=
  { s with trace := s.trace ++ [e] }

/-- The value of `_runtime_state->enable_vectorized_exec()`. -/
def enable_vectorized_exec (s : PlanFragmentExecutor) : Bool :=
  match s.runtime_state with
  | some r => r.enable_vectorized_exec
  | none => false

/-- The test `_runtime_state->query_type() == TQueryType::EXTERNAL`. -/
def query_type_is_external (s : PlanFragmentExecutor) : Bool :=
  match s.runtime_state with
  | some r => decide (r.query_type = TQueryType.EXTERNAL)
  | none => false

/-- The function `stop_report_thread()`. -/
def stop_report_thread (s : PlanFragmentExecutor) : PlanFragmentExecutor :=
  if s.report_thread_active then
    ({ s with report_thread_active := false }).emit Event.report_thread_join
  else s

/-- The function `send_report(done)`. -/
def send_report (s : PlanFragmentExecutor) (done : Bool) : PlanFragmentExecutor :=
  if !s.report_status_cb then s
  else
    let status := s.status
    if !s.is_report_success && done && status.ok then s
    else if !s.is_report_success && !s.is_report_on_cancel then s
    else if s.is_report_success then
      s.emit (Event.report_status_cb status true (done || !status.ok))
    else
      s.emit (Event.report_status_cb status false (done || !status.ok))

/-- The function `update_status(new_status)`. -/
def update_status (s : PlanFragmentExecutor) (new_status : Status) : PlanFragmentExecutor :=
  if new_status.ok then s
  else
    let s1 :=
      if s.status.ok then
        let s2 :=
          if new_status.is_mem_limit_exceeded then
            s.emit (Event.set_mem_limit_exceeded new_status.get_error_msg)
          else s
        let s3 := { s2 with status := new_status }
        if s3.query_type_is_external then s3.emit (Event.update_queue_status new_status)
        else s3
      else s
    (s1.stop_report_thread).send_report true

/-- The function `set_abort()`. -/
def set_abort (s : PlanFragmentExecutor) : PlanFragmentExecutor :=
  s.update_status (Status.Aborted "Execution aborted before start")

/-- The function `cancel(reason, msg)`. -/
def cancel (s : PlanFragmentExecutor) (reason : PPlanFragmentCancelReason) (msg : String) :
    PlanFragmentExecutor :=
  let s1 : PlanFragmentExecutor :=
    { s with cancel_reason := reason, cancel_msg := msg,
             runtime_state := s.runtime_state.map
               (fun (r : RuntimeState) => { r with is_cancelled := true }) }
  if s1.enable_vectorized_exec then s1.emit Event.vstream_mgr_cancel
  else (s1.emit Event.stream_mgr_cancel).emit Event.result_mgr_cancel

/-- The function `_collect_query_statistics()`, as one collaborator call. -/
def collect_query_statistics (s : PlanFragmentExecutor) : PlanFragmentExecutor :=
  s.emit Event.collect_query_statistics

/-- The loop `while (!_done)` of `get_next_internal`, with the caller's `batch`
variable threaded through: `none` for `nullptr`, `some n` for the executor's row batch
holding `n` rows. -/
def get_next_internal_loop (env : Collab) :
    Nat → PlanFragmentExecutor → Option Nat → Option (PlanFragmentExecutor × Status × Option Nat)
  | fuel, s, batch =>
    if s.done then some (s, Status.OK, batch)
    else
      match fuel with
      | 0 => none
      | fuel + 1 =>
        let r := env.plan_get_next s.trace
        let s1 : PlanFragmentExecutor :=
          ({ s with done := r.eos }).emit (Event.plan_get_next r.status r.rows r.eos)
        if !r.status.ok then some (s1, r.status, batch)
        else if 0 < r.rows then
          some ({ s1 with rows_produced := s1.rows_produced + r.rows }, Status.OK, some r.rows)
        else get_next_internal_loop env fuel s1 none

/-- The function `get_next_internal(batch)`.  The third component of the result is the
caller's `batch` variable afterwards; `batch` is its value before the call. -/
def get_next_internal (env : Collab) (fuel : Nat) (s : PlanFragmentExecutor)
    (batch : Option Nat) : Option (PlanFragmentExecutor × Status × Option Nat) :=
  if s.done then some (s, Status.OK, none)
  else get_next_internal_loop env fuel s batch

/-- The loop `while (!_done)` of `get_vectorized_internal`; `block` is the caller's
block pointer: `none` for `nullptr`, `some n` for the executor's block with `n` rows. -/
def get_vectorized_internal_loop (env : Collab) :
    Nat → PlanFragmentExecutor → Option Nat → Option (PlanFragmentExecutor × Status × Option Nat)
  | fuel, s, block =>
    if s.done then some (s, Status.OK, block)
    else
      match fuel with
      | 0 => none
      | fuel + 1 =>
        let r := env.plan_get_next s.trace
        let s1 : PlanFragmentExecutor :=
          ({ s with done := r.eos }).emit (Event.plan_get_next r.status r.rows r.eos)
        if !r.status.ok then some (s1, r.status, block)
        else if 0 < r.rows then
          some ({ s1 with rows_produced := s1.rows_produced + r.rows }, Status.OK, some r.rows)
        else get_vectorized_internal_loop env fuel s1 none

/-- The function `get_vectorized_internal(block)`. -/
def get_vectorized_internal (env : Collab) (fuel : Nat) (s : PlanFragmentExecutor)
    (block : Option Nat) : Option (PlanFragmentExecutor × Status × Option Nat) :=
  if s.done then some (s, Status.OK, none)
  else get_vectorized_internal_loop env fuel s block

/-- The drive loop `while (true)` of `open_internal`.  `inner` is the fuel handed to
each `get_next_internal`.  The result is the state at loop exit with `none` when the
loop was left by `break` and `some st` when `RETURN_IF_ERROR` returned `st`. -/
def open_internal_loop (env : Collab) (inner : Nat) :
    Nat → PlanFragmentExecutor → Option Nat → Option (PlanFragmentExecutor × Option Status)
  | 0, _, _ => none
  | fuel + 1, s, batch =>
    match get_next_internal env inner s batch with
    | none => none
    | some (s1, st, batch1) =>
      if !st.ok then some (s1, some st)
      else
        match batch1 with
        | none => some (s1, none)
        | some rows =>
          let s2 : PlanFragmentExecutor :=
            if s1.collect_query_statistics_with_every_batch then s1.collect_query_statistics
            else s1
          let st := env.sink_send s2.trace rows
          let s3 := s2.emit (Event.sink_send rows st)
          if st.is_end_of_file then some (s3, none)
          else if !st.ok then some (s3, some st)
          else open_internal_loop env inner fuel s3 batch1

/-- The function `open_internal()`. -/
def open_internal (env : Collab) (fuel : Nat) (s : PlanFragmentExecutor) :
    Option (PlanFragmentExecutor × Status) :=
  let st := env.plan_open s.trace
  let s1 := s.emit (Event.plan_open st)
  if !st.ok then some (s1, st)
  else if !s1.sink then some (s1, Status.OK)
  else
    let st := env.sink_open s1.trace
    let s2 := s1.emit (Event.sink_open st)
    if !st.ok then some (s2, st)
    else
      match open_internal_loop env fuel fuel s2 none with
      | none => none
      | some (s3, some st) => some (s3, st)
      | some (s3, none) =>
        let s4 := s3.collect_query_statistics
        let status := s4.status
        let status := env.sink_close s4.trace status
        let s5 := s4.emit (Event.sink_close s4.status status)
        if !status.ok then some (s5, status)
        else
          let s6 : PlanFragmentExecutor := { s5 with sink := false, done := true }
          some ((s6.stop_report_thread).send_report true, Status.OK)

/-- The drive loop `while (true)` of `open_vectorized_internal`, without the deferred
`end_send_span` that runs when its block is left. -/
def open_vectorized_internal_loop (env : Collab) (inner : Nat) :
    Nat → PlanFragmentExecutor → Option (PlanFragmentExecutor × Option Status)
  | 0, _ => none
  | fuel + 1, s =>
    match get_vectorized_internal env inner s none with
    | none => none
    | some (s1, st, block) =>
      if !st.ok then some (s1, some st)
      else
        match block with
        | none => some (s1, none)
        | some rows =>
          let s2 : PlanFragmentExecutor :=
            if s1.collect_query_statistics_with_every_batch then s1.collect_query_statistics
            else s1
          let st := env.sink_send s2.trace rows
          let s3 := s2.emit (Event.sink_send rows st)
          if st.is_end_of_file then some (s3, none)
          else if !st.ok then some (s3, some st)
          else open_vectorized_internal_loop env inner fuel s3

/-- The function `open_vectorized_internal()`. -/
def open_vectorized_internal (env : Collab) (fuel : Nat) (s : PlanFragmentExecutor) :
    Option (PlanFragmentExecutor × Status) :=
  let st := env.plan_open s.trace
  let s1 := s.emit (Event.plan_open st)
  if !st.ok then some (s1, st)
  else if !s1.sink then some (s1, Status.OK)
  else
    let st := env.sink_open s1.trace
    let s2 := s1.emit (Event.sink_open st)
    if !st.ok then some (s2, st)
    else
      match open_vectorized_internal_loop env fuel fuel s2 with
      | none => none
      | some (s3, some st) => some (s3.emit Event.end_send_span, st)
      | some (s3, none) =>
        let s4 := (s3.emit Event.end_send_span).collect_query_statistics
        let status := s4.status
        let status := env.sink_close s4.trace status
        let s5 := s4.emit (Event.sink_close s4.status status)
        if !status.ok then some (s5, status)
        else
          let s6 : PlanFragmentExecutor := { s5 with sink := false, done := true }
          some ((s6.stop_report_thread).send_report true, Status.OK)

end PlanFragmentExecutor

/-- The function `open()`. -/
def PlanFragmentExecutor.open (env : Collab) (fuel : Nat) (s : PlanFragmentExecutor) :
    Option (PlanFragmentExecutor × Status) :=
  let s1 : PlanFragmentExecutor :=
    if s.is_report_success && s.report_status_cb && decide (0 < env.status_report_interval) then
      ({ s with report_thread_active := true }).emit Event.report_thread_start
    else s
  match (if s1.enable_vectorized_exec then s1.open_vectorized_internal env fuel
         else s1.open_internal env fuel) with
  | none => none
  | some (s2, status) =>
    let s3 : PlanFragmentExecutor :=
      if !status.ok && !status.is_cancelled && env.log_has_space s2.trace then
        s2.emit (Event.log_error status.get_error_msg)
      else s2
    let status : Status :=
      if status.is_cancelled then
        if s3.cancel_reason = PPlanFragmentCancelReason.CALL_RPC_ERROR then
          Status.RuntimeError s3.cancel_msg
        else if s3.cancel_reason = PPlanFragmentCancelReason.MEMORY_LIMIT_EXCEED then
          Status.MemoryLimitExceeded s3.cancel_msg
        else status
      else status
    some (s3.update_status status, status)

namespace PlanFragmentExecutor

/-- The function `get_next(batch)`, called with the caller's `batch` variable null. -/
def get_next (env : Collab) (fuel : Nat) (s : PlanFragmentExecutor) :
    Option (PlanFragmentExecutor × Status × Option Nat) :=
  match get_next_internal env fuel s none with
  | none => none
  | some (s1, status, batch) =>
    let s2 := s1.update_status status
    let s3 := if s2.done then (s2.stop_report_thread).send_report true else s2
    some (s3, status, batch)

/-- The function `close()` (also the body of the destructor). -/
def close (env : Collab) (s : PlanFragmentExecutor) : PlanFragmentExecutor :=
  if s.closed then s
  else
    let s1 : PlanFragmentExecutor := { s with row_batch := false }
    let s2 : PlanFragmentExecutor :=
      match s1.runtime_state with
      | none => s1
      | some _ =>
        let s3 := if s1.plan then s1.emit Event.plan_close else s1
        let s4 : PlanFragmentExecutor :=
          if s3.sink then
            if s3.prepared then
              s3.emit (Event.sink_close s3.status (env.sink_close s3.trace s3.status))
            else
              s3.emit (Event.sink_close (Status.InternalError "prepare failed")
                (env.sink_close s3.trace (Status.InternalError "prepare failed")))
          else s3
        if s4.is_report_success then s4.emit Event.pretty_print_profile else s4
    { s2 with closed := true }

end PlanFragmentExecutor

/-! ## Preparation -/

/-- The part of the request `TExecPlanFragmentParams` that `prepare` reads.  Optional
thrift fields (`__isset`) are `Option`s.  `exchange_node_ids` and `scan_node_ids` are the
ids of the exchange and scan nodes of `fragment.plan`, in the order in which
`collect_nodes` and `collect_scan_nodes` return them; `per_node_scan_ranges` maps a scan
node id to the number of its scan ranges. -/
structure TExecPlanFragmentParams where
  query_type : TQueryType
  enable_vectorized_engine : Bool
  is_report_success : Option Bool
  backend_id : Option Int
  exchange_node_ids : List Nat
  scan_node_ids : List Nat
  per_exch_num_senders : List (Nat × Int)
  per_node_scan_ranges : List (Nat × Nat)
  output_sink : Bool
  send_query_statistics_with_every_batch : Option Bool

/-- The behaviour of the collaborators `prepare` calls.  When `create_tree` or
`create_data_sink` fails, whether it has already stored a plan or a sink through its
output parameter is up to it. -/
structure PrepareCollab where
  init_mem_trackers : Status
  create_block_mgr : Status
  create_desc_tbl : Status
  create_tree : Status
  plan_after_failed_create : Bool
  plan_prepare : List Event → Status
  create_data_sink : Status
  sink_after_failed_create : Bool
  sink_prepare : List Event → Status

/-- Modelled from the spec: `find_with_default(map, key, default)` of
`util/container_util.hpp`, which is not among the sources: the value stored for `key`, or
`default` when the map has no entry for it. -/
def find_with_default {β : Type} (m : List (Nat × β)) (key : Nat) (default_value : β) : β :=
  match m.lookup key with
  | some v => v
  | none => default_value

namespace PlanFragmentExecutor

/-- The loop of `prepare` that sets the number of senders of every exchange node.  The
assertion `DCHECK_GT(num_senders, 0)` of the loop exists in debug builds only and returns
nothing: it has no part in the status `prepare` returns. -/
def set_exchange_senders (request : TExecPlanFragmentParams) :
    List Nat → PlanFragmentExecutor → PlanFragmentExecutor
  | [], s => s
  | id :: ids, s =>
    set_exchange_senders request ids
      (s.emit (Event.set_num_senders id (find_with_default request.per_exch_num_senders id 0)))

/-- The loop of `prepare` that binds the scan ranges of every scan node. -/
def set_node_scan_ranges (request : TExecPlanFragmentParams) :
    List Nat → PlanFragmentExecutor → PlanFragmentExecutor
  | [], s => s
  | id :: ids, s =>
    set_node_scan_ranges request ids
      (s.emit (Event.set_scan_ranges id (find_with_default request.per_node_scan_ranges id 0)))

/-- The end of `prepare`, from the set-up of the sink on. -/
def prepare_sink (penv : PrepareCollab) (request : TExecPlanFragmentParams)
    (s : PlanFragmentExecutor) : PlanFragmentExecutor × Status :=
  let sink_result : PlanFragmentExecutor × Status :=
    if request.output_sink then
      let st := penv.create_data_sink
      let s1 : PlanFragmentExecutor :=
        ({ s with sink := if st.ok then true else penv.sink_after_failed_create }).emit
          (Event.create_data_sink st)
      if !st.ok then (s1, st)
      else
        let st := penv.sink_prepare s1.trace
        let s2 := s1.emit (Event.sink_prepare st)
        if !st.ok then (s2, st)
        else
          ({ s2 with
              collect_query_statistics_with_every_batch :=
                request.send_query_statistics_with_every_batch.getD false }, Status.OK)
    else ({ s with sink := false }, Status.OK)
  if !sink_result.2.ok then sink_result
  else
    let s3 : PlanFragmentExecutor := { sink_result.1 with row_batch := true, prepared := true }
    let s4 := if s3.sink then s3.emit Event.set_query_statistics else s3
    (s4, Status.OK)

/-- The middle of `prepare`: the plan tree is created and prepared, with the number of
senders of its exchange nodes set before and the scan ranges of its scan nodes after;
then the sink is set up. -/
def prepare_plan (penv : PrepareCollab) (request : TExecPlanFragmentParams)
    (s : PlanFragmentExecutor) : PlanFragmentExecutor × Status :=
  let st := penv.create_tree
  let s6 : PlanFragmentExecutor :=
    ({ s with plan := if st.ok then true else penv.plan_after_failed_create }).emit
      (Event.create_tree st)
  if !st.ok then (s6, st)
  else
    let s7 := set_exchange_senders request request.exchange_node_ids s6
    let st := penv.plan_prepare s7.trace
    let s8 := s7.emit (Event.plan_prepare st)
    if !st.ok then (s8, st)
    else
      let s9 := s8.emit Event.try_do_aggregate_serde_improve
      let s10 := set_node_scan_ranges request request.scan_node_ids s9
      prepare_sink penv request s10

/-- The function `prepare(request, fragments_ctx)`; `fragments_ctx` is `true` when the
pointer is not null.  A new `RuntimeState` has no backend id (`-1`) and is not
cancelled. -/
def prepare (penv : PrepareCollab) (request : TExecPlanFragmentParams) (fragments_ctx : Bool)
    (s : PlanFragmentExecutor) : PlanFragmentExecutor × Status :=
  let s1 : PlanFragmentExecutor :=
    { s with
      runtime_state := some ⟨false, request.query_type, request.enable_vectorized_engine, -1⟩ }
  let st := penv.init_mem_trackers
  let s2 := s1.emit (Event.init_mem_trackers st)
  if !st.ok then (s2, st)
  else
    let s3 : PlanFragmentExecutor :=
      match request.backend_id with
      | some id =>
        { s2 with
          runtime_state := s2.runtime_state.map
            (fun (r : RuntimeState) => { r with backend_id := id }) }
      | none => s2
    let s4 : PlanFragmentExecutor :=
      match request.is_report_success with
      | some v => { s3 with is_report_success := v }
      | none => s3
    let st := penv.create_block_mgr
    let s5 := s4.emit (Event.create_block_mgr st)
    if !st.ok then (s5, st)
    else if fragments_ctx then prepare_plan penv request s5
    else
      let st := penv.create_desc_tbl
      let s6 := s5.emit (Event.create_desc_tbl st)
      if !st.ok then (s6, st)
      else prepare_plan penv request s6

/-! ## Sequences of Driver operations -/

end PlanFragmentExecutor

/-- One call of a public operation of the executor. -/
inductive Op
  | update_status (new_status : Status)
  | set_abort
  | open
  | get_next
  | cancel (reason : PPlanFragmentCancelReason) (msg : String)
  | send_report (done : Bool)
  | close
  deriving DecidableEq, Repr

namespace PlanFragmentExecutor

/-- The executor after one operation; `none` when a loop of the operation runs out of
fuel. -/
def step (env : Collab) (fuel : Nat) (s : PlanFragmentExecutor) : Op → Option PlanFragmentExecutor
  | Op.update_status st => some (s.update_status st)
  | Op.set_abort => some s.set_abort
  | Op.open => (s.open env fuel).map Prod.fst
  | Op.get_next => (s.get_next env fuel).map Prod.fst
  | Op.cancel reason msg => some (s.cancel reason msg)
  | Op.send_report done => some (s.send_report done)
  | Op.close => some (s.close env)

/-- The executor after a sequence of operations, run from left to right. -/
def run (env : Collab) (fuel : Nat) : PlanFragmentExecutor → List Op → Option PlanFragmentExecutor
  | s, [] => some s
  | s, op :: ops =>
    match s.step env fuel op with
    | none => none
    | some s1 => run env fuel s1 ops

end PlanFragmentExecutor

/-! ## Observations on traces and concrete collaborators -/

namespace Event

/-- A call of `_sink->close`. -/
def is_sink_close : Event → Bool
  | sink_close _ _ => true
  | _ => false

/-- A call of `_sink->send`. -/
def is_sink_send : Event → Bool
  | sink_send _ _ => true
  | _ => false

/-- A call of `_plan->get_next`. -/
def is_plan_get_next : Event → Bool
  | plan_get_next _ _ _ => true
  | _ => false

/-- A call of the report callback. -/
def is_report : Event → Bool
  | report_status_cb _ _ _ => true
  | _ => false

/-- A call of the report callback with `done = true`. -/
def is_final_report : Event → Bool
  | report_status_cb _ _ done => done
  | _ => false

/-- A call of `_sink->send` that returned END_OF_FILE. -/
def is_eof_send : Event → Bool
  | sink_send _ ret => ret.is_end_of_file
  | _ => false

/-- A call of `_plan->open`, `_sink->open`, `_plan->get_next` or `_sink->send` on which
the `RETURN_IF_ERROR` of the drive path returns: a non-OK result, END_OF_FILE from
`send` excepted. -/
def is_failed_call : Event → Bool
  | plan_open ret => !ret.ok
  | sink_open ret => !ret.ok
  | plan_get_next ret _ _ => !ret.ok
  | sink_send _ ret => !ret.ok && !ret.is_end_of_file
  | _ => false

/-- A call made by the drive loop itself: `_plan->get_next`, the statistics refresh or
`_sink->send`. -/
def is_drive_call : Event → Bool
  | plan_get_next _ _ _ => true
  | collect_query_statistics => true
  | sink_send _ _ => true
  | _ => false

/-- A call made on the way through `open_internal` or `open_vectorized_internal` up to
the end of the drive loop. -/
def is_open_call : Event → Bool
  | plan_open _ => true
  | sink_open _ => true
  | end_send_span => true
  | e => e.is_drive_call

/-- A call that belongs to status bookkeeping and reporting: the report callback, the
start and join of the report thread, the notifications of `update_status` and the error
log. -/
def is_bookkeeping : Event → Bool
  | report_status_cb _ _ _ => true
  | report_thread_start => true
  | report_thread_join => true
  | set_mem_limit_exceeded _ => true
  | update_queue_status _ => true
  | log_error _ => true
  | _ => false

/-- A call of `_plan->open`. -/
def is_plan_open : Event → Bool
  | plan_open _ => true
  | _ => false

/-- A call to the sink: `open`, `send`, `close` or `end_send_span`. -/
def is_sink_call : Event → Bool
  | sink_open _ => true
  | sink_send _ _ => true
  | sink_close _ _ => true
  | end_send_span => true
  | _ => false

/-- The start of the report thread. -/
def is_report_thread_start : Event → Bool
  | report_thread_start => true
  | _ => false

/-- A call of the report callback with `done = false`: a periodic, non-final report. -/
def is_periodic_report : Event → Bool
  | report_status_cb _ _ done => !done
  | _ => false

/-- An event of the periodic reporter: the start of its thread or a non-final report. -/
def is_reporter_event (e : Event) : Bool :=
  e.is_report_thread_start || e.is_periodic_report

/-- The deferred `_sink->end_send_span()`. -/
def is_end_send_span : Event → Bool
  | end_send_span => true
  | _ => false

/-- The rows of the batch a call of `_plan->get_next` produced: those it left in the
batch when it returned OK. -/
def pulled_rows : Event → Nat
  | plan_get_next ret rows _ => if ret.ok then rows else 0
  | _ => 0

/-- The rows of the batch handed to the sink by a call of `_sink->send`. -/
def sent_rows : Event → Nat
  | sink_send rows _ => rows
  | _ => 0

/-- A call that moves data or refreshes the statistics: `_plan->open`, `_sink->open`,
`_plan->get_next`, `_collect_query_statistics`, `_sink->send` or `_sink->close`. -/
def is_data_call : Event → Bool
  | plan_open _ => true
  | sink_open _ => true
  | plan_get_next _ _ _ => true
  | collect_query_statistics => true
  | sink_send _ _ => true
  | sink_close _ _ => true
  | _ => false

/-- The status a call of `_plan->open`, `_sink->open`, `_plan->get_next`, `_sink->send`
or `_sink->close` returned; OK for every other event. -/
def call_status : Event → Status
  | plan_open ret => ret
  | sink_open ret => ret
  | plan_get_next ret _ _ => ret
  | sink_send _ ret => ret
  | sink_close _ ret => ret
  | _ => Status.OK

end Event

/-- Collaborators that follow a script: `_plan->get_next` answers with the entries of
`plan` in turn and with an empty batch at eos afterwards, `_sink->send` with the entries
of `send` in turn and OK afterwards; `plan_open_ret`, `sink_open_ret` and
`sink_close_ret` are the results of the other calls. -/
def Collab.scripted (plan_open_ret sink_open_ret : Status) (plan : List PlanResp)
    (send : List Status) (sink_close_ret : Status) (interval : Int) : Collab where
  plan_open := fun _ => plan_open_ret
  sink_open := fun _ => sink_open_ret
  plan_get_next := fun tr =>
    (plan.get? (tr.countP Event.is_plan_get_next)).getD ⟨Status.OK, 0, true⟩
  sink_send := fun tr _ => (send.get? (tr.countP Event.is_sink_send)).getD Status.OK
  sink_close := fun _ _ => sink_close_ret
  log_has_space := fun _ => true
  status_report_interval := interval

/-- An executor in the state a successful `prepare` leaves: runtime state, plan and row
batch created, `_prepared` set, the sink present when the fragment has an output sink. -/
def PlanFragmentExecutor.prepared_executor (report_status_cb sink vectorized : Bool) :
    PlanFragmentExecutor :=
  { PlanFragmentExecutor.construct report_status_cb with
    runtime_state := some ⟨false, TQueryType.SELECT, vectorized, -1⟩
    plan := true
    sink := sink
    row_batch := true
    prepared := true }

/-- A sink-driven fragment whose plan yields one batch of 10 rows and then eos; every
collaborator call succeeds and periodic reporting is off. -/
def Collab.one_batch : Collab :=
  Collab.scripted Status.OK Status.OK [⟨Status.OK, 10, false⟩, ⟨Status.OK, 0, true⟩] []
    Status.OK 0

/-- A sink-driven fragment whose scan is cancelled: the first `_plan->get_next` returns
CANCELLED. -/
def Collab.cancelled_scan : Collab :=
  Collab.scripted Status.OK Status.OK [⟨Status.Cancelled "cancelled", 0, false⟩] []
    Status.OK 0

/-- A prepared sink-driven executor on which `cancel(MEMORY_LIMIT_EXCEED, "oom")` has
been called. -/
def PlanFragmentExecutor.oom_cancelled_executor : PlanFragmentExecutor :=
  (PlanFragmentExecutor.prepared_executor true true false).cancel
    PPlanFragmentCancelReason.MEMORY_LIMIT_EXCEED "oom"

/-- The status `open()` returns when its internal open function returned `status`: a
CANCELLED status is replaced by `RuntimeError(_cancel_msg)` when the recorded cancel
reason is CALL_RPC_ERROR and by `MemoryLimitExceeded(_cancel_msg)` when it is
MEMORY_LIMIT_EXCEED; every other status is returned as it is. -/
def PlanFragmentExecutor.rewrite_cancelled (s : PlanFragmentExecutor) (status : Status) : Status :=
  if status.is_cancelled then
    if s.cancel_reason = PPlanFragmentCancelReason.CALL_RPC_ERROR then
      Status.RuntimeError s.cancel_msg
    else if s.cancel_reason = PPlanFragmentCancelReason.MEMORY_LIMIT_EXCEED then
      Status.MemoryLimitExceeded s.cancel_msg
    else status
  else status

/-- A sink-driven fragment whose `_plan->open` fails. -/
def Collab.failing_plan_open : Collab :=
  Collab.scripted (Status.InternalError "open failed") Status.OK [] [] Status.OK 0

/-- A sink-driven fragment with an empty plan whose `_sink->close` fails. -/
def Collab.failing_sink_close : Collab :=
  Collab.scripted Status.OK Status.OK [] [] (Status.InternalError "close failed") 0

/-- A sink-driven fragment whose plan keeps yielding batches of 10 rows and whose sink
answers OK to the first `k` sends and END_OF_FILE to the next one. -/
def Collab.eof_sink (k : Nat) : Collab where
  plan_open := fun _ => Status.OK
  sink_open := fun _ => Status.OK
  plan_get_next := fun _ => ⟨Status.OK, 10, false⟩
  sink_send := fun tr _ =>
    if tr.countP Event.is_sink_send = k then Status.EndOfFile "" else Status.OK
  sink_close := fun _ _ => Status.OK
  log_has_space := fun _ => true
  status_report_interval := 0

/-- A sink-less fragment whose scan fails: the first `_plan->get_next` returns an
error. -/
def Collab.failing_scan : Collab :=
  Collab.scripted Status.OK Status.OK [⟨Status.InternalError "scan failed", 0, false⟩] []
    Status.OK 0

/-- A prepared pull-mode executor on which `set_abort()` has been called. -/
def PlanFragmentExecutor.aborted_executor : PlanFragmentExecutor :=
  (PlanFragmentExecutor.prepared_executor true false false).set_abort

/-- A sink-less fragment with one batch of 10 rows whose periodic reporting is on
(`status_report_interval` = 5 seconds). -/
def Collab.reporting : Collab :=
  Collab.scripted Status.OK Status.OK [⟨Status.OK, 10, false⟩, ⟨Status.OK, 0, true⟩] []
    Status.OK 5

/-- An executor whose `prepare` failed after the sink was created: runtime state, plan
and sink exist, `_prepared` is still false. -/
def PlanFragmentExecutor.unprepared_executor : PlanFragmentExecutor :=
  { PlanFragmentExecutor.construct true with
    runtime_state := some ⟨false, TQueryType.SELECT, false, -1⟩
    plan := true
    sink := true }

/-- A sequence of `cancel(reason, msg)` calls, made from left to right. -/
def PlanFragmentExecutor.cancel_calls (s : PlanFragmentExecutor)
    (calls : List (PPlanFragmentCancelReason × String)) : PlanFragmentExecutor :=
  calls.foldl (fun x c => x.cancel c.1 c.2) s

/-- The member variables alone: the state with the trace of collaborator calls
forgotten. -/
def PlanFragmentExecutor.members (s : PlanFragmentExecutor) : PlanFragmentExecutor :=
  { s with trace := [] }

/-- A sink-less fragment whose plan yields a batch of 5 rows, a batch of 3 rows and
then eos. -/
def Collab.five_three : Collab :=
  Collab.scripted Status.OK Status.OK
    [⟨Status.OK, 5, false⟩, ⟨Status.OK, 3, false⟩, ⟨Status.OK, 0, true⟩] [] Status.OK 0

/-- The results (status and batch) of `n` successive `get_next` calls. -/
def PlanFragmentExecutor.poll (env : Collab) (fuel : Nat) :
    Nat → PlanFragmentExecutor → Option (List (Status × Option Nat))
  | 0, _ => some []
  | n + 1, s =>
    match s.get_next env fuel with
    | none => none
    | some (s1, st, b) =>
      match poll env fuel n s1 with
      | none => none
      | some rest => some ((st, b) :: rest)

/-- The plan answers the next `n` calls of `get_next`, made from the history `tr`, with
an empty batch, OK and no eos. -/
def consecutive_empty (env : Collab) : Nat → List Event → Bool
  | 0, _ => true
  | n + 1, tr =>
    (env.plan_get_next tr).status.ok && decide ((env.plan_get_next tr).rows = 0) &&
      !(env.plan_get_next tr).eos &&
      consecutive_empty env n
        (tr ++ [Event.plan_get_next (env.plan_get_next tr).status (env.plan_get_next tr).rows
          (env.plan_get_next tr).eos])

/-- What one run of the pull loop from `s` (with `_done` false) to `s1` does: it skips
empty batches of a plan not at eos, and ends at the first call `last` that fails, yields
rows or signals eos. -/
def PullDetail (env : Collab) (s s1 : PlanFragmentExecutor) (st : Status)
    (b1 : Option Nat) : Prop :=
  ∃ (skipped : List Event) (r : Status) (rows : Nat) (eos : Bool),
    s1.trace = s.trace ++ skipped ++ [Event.plan_get_next r rows eos] ∧
    (r = (env.plan_get_next (s.trace ++ skipped)).status ∧
      rows = (env.plan_get_next (s.trace ++ skipped)).rows ∧
      eos = (env.plan_get_next (s.trace ++ skipped)).eos) ∧
    (∀ e ∈ skipped, ∃ r0 : Status, r0.ok = true ∧ e = Event.plan_get_next r0 0 false) ∧
    s1.done = eos ∧
    ((r.ok = false ∧ st = r ∧ s1.rows_produced = s.rows_produced) ∨
     (r.ok = true ∧ 0 < rows ∧ st = Status.OK ∧ b1 = some rows ∧
        s1.rows_produced = s.rows_produced + rows) ∨
     (r.ok = true ∧ rows = 0 ∧ eos = true ∧ st = Status.OK ∧ b1 = none ∧
        s1.rows_produced = s.rows_produced))

/-- Preparation collaborators that all succeed. -/
def PrepareCollab.all_ok : PrepareCollab where
  init_mem_trackers := Status.OK
  create_block_mgr := Status.OK
  create_desc_tbl := Status.OK
  create_tree := Status.OK
  plan_after_failed_create := false
  plan_prepare := fun _ => Status.OK
  create_data_sink := Status.OK
  sink_after_failed_create := false
  sink_prepare := fun _ => Status.OK

/-- Preparation collaborators whose sink fails in `prepare`, the last failing step. -/
def PrepareCollab.failing_sink_prepare : PrepareCollab :=
  { PrepareCollab.all_ok with
    sink_prepare := fun _ => Status.InternalError "sink prepare failed" }

/-- A request with an output sink, one exchange node (id 2, three senders) and one scan
node (id 0, four scan ranges). -/
def TExecPlanFragmentParams.with_sink : TExecPlanFragmentParams where
  query_type := TQueryType.SELECT
  enable_vectorized_engine := false
  is_report_success := some true
  backend_id := some 7
  exchange_node_ids := [2]
  scan_node_ids := [0]
  per_exch_num_senders := [(2, 3)]
  per_node_scan_ranges := [(0, 4)]
  output_sink := true
  send_query_statistics_with_every_batch := none

/-- A request whose plan has an exchange node (id 2) for which the coordinator's
per-exchange map has no entry. -/
def TExecPlanFragmentParams.missing_sender_count : TExecPlanFragmentParams :=
  { TExecPlanFragmentParams.with_sink with per_exch_num_senders := [] }

/-- The rows of all batches the plan produced in the calls of a trace. -/
def rows_pulled (tr : List Event) : Nat := (tr.map Event.pulled_rows).sum

/-- The rows of all batches handed to the sink in the calls of a trace. -/
def rows_sent (tr : List Event) : Nat := (tr.map Event.sent_rows).sum

/-- The trace without the `end_send_span` calls. -/
def without_end_send_span (tr : List Event) : List Event :=
  tr.filter (fun e => !e.is_end_send_span)

/-- The body of the loop `while (_report_thread_active)` of `report_profile()`, which
the report thread runs each time its `wait_for` returns (the other threads run while it
waits): the loop is left when the flag is down; it is left with a warning when
`config::status_report_interval` is not positive; else `send_report(false)` is called. -/
def PlanFragmentExecutor.report_profile_pass (env : Collab) (s : PlanFragmentExecutor) :
    PlanFragmentExecutor :=
  if !s.report_thread_active then s
  else if 0 < env.status_report_interval then
    if !s.report_thread_active then s else s.send_report false
  else s

/-- One step of the executor and its report thread: a call of an operation, or one pass
of the report thread through its loop. -/
inductive Action
  | call (op : Op)
  | report_profile_pass
  deriving DecidableEq, Repr

/-- The executor after one action. -/
def PlanFragmentExecutor.act (env : Collab) (fuel : Nat) (s : PlanFragmentExecutor) :
    Action → Option PlanFragmentExecutor
  | Action.call op => s.step env fuel op
  | Action.report_profile_pass => some (s.report_profile_pass env)

/-- The executor after one operation, with the rows of the batch the operation handed to
its caller: those of the batch `get_next` returned, none for every other operation. -/
def PlanFragmentExecutor.step_handed (env : Collab) (fuel : Nat) (s : PlanFragmentExecutor) :
    Op → Option (PlanFragmentExecutor × Nat)
  | Op.get_next => (s.get_next env fuel).map (fun r => (r.1, r.2.2.getD 0))
  | op => (s.step env fuel op).map (fun x => (x, 0))

/-- The executor after a sequence of operations, with the rows of all batches handed to
the caller. -/
def PlanFragmentExecutor.run_handed (env : Collab) (fuel : Nat) :
    PlanFragmentExecutor → List Op → Option (PlanFragmentExecutor × Nat)
  | s, [] => some (s, 0)
  | s, op :: ops =>
    match s.step_handed env fuel op with
    | none => none
    | some (s1, k) =>
      match PlanFragmentExecutor.run_handed env fuel s1 ops with
      | none => none
      | some (s2, k2) => some (s2, k + k2)

/-- What a piece of execution from `s` to `s1` adds: the new calls `new` are all of the
kind `q`, the `RowsProduced` counter grows by the rows the plan produced in them, and
these rows are those handed to the sink plus the `h` rows handed to the caller. -/
def Account (q : Event → Bool) (h : Nat) (s s1 : PlanFragmentExecutor) : Prop :=
  ∃ new, s1.trace = s.trace ++ new ∧ s1.rows_produced = s.rows_produced + rows_pulled new ∧
    rows_pulled new = rows_sent new + h ∧ ∀ e ∈ new, q e = true

/-- The fields that neither `get_next_internal` nor the drive loops write: everything
but `_done`, the `RowsProduced` counter and the trace. -/
def PlanFragmentExecutor.drive_core (s : PlanFragmentExecutor) : PlanFragmentExecutor :=
  { s with done := false, rows_produced := 0, trace := [] }

/-- What a run of `get_next_internal` from `s` to `s1` with result `st` leaves behind:
only `_done`, `RowsProduced` and the trace change, every new event is a call of
`_plan->get_next`, and a call failed exactly when the result is not OK. -/
def GetNextSpec (s s1 : PlanFragmentExecutor) (st : Status) : Prop :=
  s1.drive_core = s.drive_core ∧ ∃ new, s1.trace = s.trace ++ new ∧
    (∀ e ∈ new, e.is_plan_get_next = true) ∧
    (st.ok = true → ∀ e ∈ new, e.is_failed_call = false) ∧
    (st.ok = false → ∃ e ∈ new, e.is_failed_call = true)

/-- What a run of the drive loop from `s` to `s1` leaves behind; `res` is `none` when
the loop was left by `break` and `some st` when it returned the error `st`. -/
def DriveSpec (s s1 : PlanFragmentExecutor) (res : Option Status) : Prop :=
  s1.drive_core = s.drive_core ∧ ∃ new, s1.trace = s.trace ++ new ∧
    (∀ e ∈ new, e.is_drive_call = true) ∧
    (res = none → ∀ e ∈ new, e.is_failed_call = false) ∧
    (∀ st, res = some st →
      st.ok = false ∧ (∃ e ∈ new, e.is_failed_call = true) ∧
        ∀ e ∈ new, e.is_eof_send = false) ∧
    ((∃ e ∈ new, e.is_eof_send = true) →
      ∃ pre rows ret, new = pre ++ [Event.sink_send rows ret] ∧
        ret.is_end_of_file = true ∧ ∀ x ∈ pre, x.is_eof_send = false)

/-- What a run of `open_internal` or `open_vectorized_internal` from `s` to `s1` with
result `st` leaves behind.  `pre` are the calls up to the end of the drive loop.  Either
(a) one of them failed: that error is returned and the sink is neither closed nor
released; or no call failed and (b) there is no sink and OK is returned after
`_plan->open`, or the sink is closed with the status slot and (c) its close fails and
that error is returned, or (d) it succeeds, the sink is released, `_done` is set, the
report thread is stopped, `send_report(true)` is called and OK is returned. -/
def OpenSpec (env : Collab) (s s1 : PlanFragmentExecutor) (st : Status) : Prop :=
  ∃ pre : List Event,
    (∀ e ∈ pre, e.is_open_call = true) ∧
    ((∃ e ∈ pre, e.is_eof_send = true) →
      ∃ p rows ret q, pre = p ++ [Event.sink_send rows ret] ++ q ∧
        ret.is_end_of_file = true ∧ (∀ x ∈ p, x.is_eof_send = false) ∧
        (q = [] ∨ q = [Event.end_send_span])) ∧
    ((st.ok = false ∧ (∃ e ∈ pre, e.is_failed_call = true) ∧
        (∀ e ∈ pre, e.is_eof_send = false) ∧
        s1.drive_core = s.drive_core ∧ s1.trace = s.trace ++ pre) ∨
     ((∀ e ∈ pre, e.is_failed_call = false) ∧
      ((s.sink = false ∧ st = Status.OK ∧ (∀ e ∈ pre, e.is_eof_send = false) ∧
          s1.drive_core = s.drive_core ∧ s1.trace = s.trace ++ pre) ∨
       (s.sink = true ∧ ∃ (ret : Status) (sc : PlanFragmentExecutor),
          (∃ tr, ret = env.sink_close tr s.status) ∧
          sc.drive_core = s.drive_core ∧
          sc.trace = s.trace ++ pre ++
            [Event.collect_query_statistics, Event.sink_close s.status ret] ∧
          ((ret.ok = false ∧ st = ret ∧ s1 = sc) ∨
           (ret.ok = true ∧ st = Status.OK ∧
            s1 = (({ sc with sink := false, done := true }).stop_report_thread).send_report
              true))))))

/-- What a run of `open()` from `s` to `s1` with result `st` adds to the trace: `t0` the
start of the report thread, `pre` the calls up to the end of the drive loop, `mid` the
closing of the sink, `bk` the error log, the status notifications and the reports. -/
def OpenShape (env : Collab) (s s1 : PlanFragmentExecutor) (st : Status) : Prop :=
  ∃ t0 pre mid bk : List Event,
    s1.trace = s.trace ++ (t0 ++ pre ++ mid ++ bk) ∧
    (∀ e ∈ t0, e.is_bookkeeping = true ∧ e.is_report = false) ∧
    (∀ e ∈ pre, e.is_open_call = true) ∧
    ((∃ e ∈ pre, e.is_eof_send = true) →
      ∃ p rows ret q, pre = p ++ [Event.sink_send rows ret] ++ q ∧
        ret.is_end_of_file = true ∧ (∀ x ∈ p, x.is_eof_send = false) ∧
        (q = [] ∨ q = [Event.end_send_span])) ∧
    (∀ e ∈ bk, e.is_bookkeeping = true) ∧
    (s.report_status_cb = true → s.is_report_success = true →
      (s.sink = true ∨ st.ok = false) → bk.countP Event.is_final_report = 1) ∧
    ((st.ok = false ∧ (∃ e ∈ pre, e.is_failed_call = true) ∧
        (∀ e ∈ pre, e.is_eof_send = false) ∧ mid = [] ∧ s1.sink = s.sink) ∨
     ((∀ e ∈ pre, e.is_failed_call = false) ∧
      ((s.sink = false ∧ st = Status.OK ∧ mid = [] ∧ ∀ e ∈ pre, e.is_eof_send = false) ∨
       (s.sink = true ∧ ∃ ret : Status,
          (∃ tr, ret = env.sink_close tr s.status) ∧
          mid = [Event.collect_query_statistics, Event.sink_close s.status ret] ∧
          ((ret.ok = false ∧ st.ok = false ∧ s1.sink = true) ∨
           (ret.ok = true ∧ st = Status.OK ∧ s1.sink = false ∧ s1.done = true ∧
            s1.report_thread_active = false))))))

/-! ## Tablet state (`be/src/olap/base_tablet.cpp`) -/

/-- Modelled from the spec: the enumeration `TabletState` of `olap/olap_define.h`, which
is not among the sources.  The tablet code names one state, `TABLET_SHUTDOWN`; every
other enumerator is `OTHER`. -/
inductive TabletState
  | TABLET_SHUTDOWN
  | OTHER (tag : Nat)
  deriving DecidableEq, Repr

/-- Modelled from the spec: the OLAP error codes of `common/status.h`, which is not among
the sources; the tablet code names one of them. -/
inductive OLAPErrorCode
  | OLAP_ERR_META_INVALID_ARGUMENT
  | OTHER (code : Int)
  deriving DecidableEq, Repr

/-- Modelled from the spec: the two values of `Status` that `set_tablet_state` returns,
`Status::OK()` and `Status::OLAPInternalError(precise_code)`. -/
inductive OLAPStatus
  | OK
  | OLAPInternalError (precise_code : OLAPErrorCode)
  deriving DecidableEq, Repr

/-- The two copies of the tablet state that `BaseTablet` keeps: the member `_state` and
the state stored in the tablet meta `_tablet_meta`. -/
structure BaseTablet where
  state : TabletState
  tablet_meta_state : TabletState
  deriving DecidableEq, Repr

namespace BaseTablet

/-- The constructor: `_state(tablet_meta->tablet_state())`. -/
def construct (tablet_meta_state : TabletState) : BaseTablet :=
  ⟨tablet_meta_state, tablet_meta_state⟩

/-- The function `set_tablet_state(state)`. -/
def set_tablet_state (t : BaseTablet) (state : TabletState) : BaseTablet × OLAPStatus :=
  if t.tablet_meta_state = TabletState.TABLET_SHUTDOWN ∧ state ≠ TabletState.TABLET_SHUTDOWN then
    (t, OLAPStatus.OLAPInternalError OLAPErrorCode.OLAP_ERR_META_INVALID_ARGUMENT)
  else
    ({ t with tablet_meta_state := state, state := state }, OLAPStatus.OK)

/-- A sequence of `set_tablet_state` calls, made from left to right, whatever they
return. -/
def set_tablet_states (t : BaseTablet) (states : List TabletState) : BaseTablet :=
  states.foldl (fun x st => (x.set_tablet_state st).1) t

end BaseTablet

/-! ## Query statistics -/

/-- Modelled from the spec: `NodeStatistics` of `runtime/query_statistics.h`, which is
not among the sources: the node-scoped record, which carries a peak memory. -/
structure NodeStatistics where
  peak_memory_bytes : Int
  deriving DecidableEq, Repr

/-- Modelled from the spec: `QueryStatistics` of `runtime/query_statistics.h`, which is
not among the sources: "a flat bag of scanned-rows, scanned-bytes, cpu-ms, and per-node
peak-memory", the last as a map from node (backend) id to its record. -/
structure QueryStatistics where
  scan_rows : Int
  scan_bytes : Int
  cpu_ms : Int
  nodes_statistics_map : List (Int × NodeStatistics)
  deriving DecidableEq, Repr

/-- Modelled from the spec: the constant `NANOS_PER_MILLIS` of `util/time.h`. -/
def NANOS_PER_MILLIS : Int := 1000000

namespace NodeStatistics

/-- Modelled from the spec: `add_peak_memory(peak_memory)` adds to the record. -/
def add_peak_memory (n : NodeStatistics) (peak_memory : Int) : NodeStatistics :=
  { n with peak_memory_bytes := n.peak_memory_bytes + peak_memory }

end NodeStatistics

namespace QueryStatistics

/-- Modelled from the spec: `clear()` empties the accumulator. -/
def clear (_q : QueryStatistics) : QueryStatistics := ⟨0, 0, 0, []⟩

/-- Modelled from the spec: `add_cpu_ms(cpu_ms)` adds to the cpu-ms entry. -/
def add_cpu_ms (q : QueryStatistics) (cpu_ms : Int) : QueryStatistics :=
  { q with cpu_ms := q.cpu_ms + cpu_ms }

/-- Modelled from the spec: `add_nodes_statistics(node_id)` returns the record of the
node, which it creates (empty) when the map has none; here: the accumulator in which the
record exists. -/
def add_nodes_statistics (q : QueryStatistics) (node_id : Int) : QueryStatistics :=
  match q.nodes_statistics_map.lookup node_id with
  | some _ => q
  | none => { q with nodes_statistics_map := q.nodes_statistics_map ++ [(node_id, ⟨0⟩)] }

/-- An update through the pointer that `add_nodes_statistics(node_id)` returned. -/
def update_node (q : QueryStatistics) (node_id : Int) (f : NodeStatistics → NodeStatistics) :
    QueryStatistics :=
  { q with nodes_statistics_map :=
      q.nodes_statistics_map.map (fun e => if e.1 = node_id then (e.1, f e.2) else e) }

end QueryStatistics

namespace PlanFragmentExecutor

/-- The function `_collect_node_statistics()` on the accumulator `_query_statistics`;
`backend_id` is `_runtime_state->backend_id()` and `peak_consumption` the value of
`instance_mem_tracker()->peak_consumption()`. -/
def _collect_node_statistics (backend_id peak_consumption : Int) (q : QueryStatistics) :
    QueryStatistics :=
  (q.add_nodes_statistics backend_id).update_node backend_id
    (fun n => n.add_peak_memory peak_consumption)

/-- The function `_collect_query_statistics()` on the accumulator `_query_statistics`.
`plan_collect` is what `_plan->collect_query_statistics` does to the accumulator it is
handed and `fragment_cpu_timer` the value of `_fragment_cpu_timer` in nanoseconds. -/
def _collect_query_statistics (plan_collect : QueryStatistics → QueryStatistics)
    (fragment_cpu_timer backend_id peak_consumption : Int) (q : QueryStatistics) :
    QueryStatistics :=
  let q1 := q.clear
  let q2 := plan_collect q1
  let q3 := q2.add_cpu_ms (Int.tdiv fragment_cpu_timer NANOS_PER_MILLIS)
  if backend_id ≠ -1 then _collect_node_statistics backend_id peak_consumption q3
  else q3

end PlanFragmentExecutor

/-! ## Date values (`be/test/vec/runtime/vdatetime_value_test.cpp`) -/

/-- Modelled from the spec: `DateV2Value` of `vec/runtime/vdatetime_value.h`, which is
not among the sources (only its test is).  The value is one 32-bit word `int_val_` that
shares its storage with three bit-fields, from the least significant bit: the day
(5 bits), the month (4 bits) and the year (23 bits); this is the layout
`(year << 9) | (month << 5) | day` that the tests read back, also through a cast of a
`uint32_t` to a `DateV2Value`. -/
structure DateV2Value where
  int_val_ : Nat
  deriving DecidableEq, Repr

namespace DateV2Value

/-- Modelled from the spec: the accessor `year()`, the bit-field of bits 9 to 31. -/
def year (v : DateV2Value) : Nat := (v.int_val_ >>> 9) % 2 ^ 23

/-- Modelled from the spec: the accessor `month()`, the bit-field of bits 5 to 8. -/
def month (v : DateV2Value) : Nat := (v.int_val_ >>> 5) % 2 ^ 4

/-- Modelled from the spec: the accessor `day()`, the bit-field of bits 0 to 4. -/
def day (v : DateV2Value) : Nat := v.int_val_ % 2 ^ 5

/-- Modelled from the spec: a date has no time of day. -/
def hour (_v : DateV2Value) : Nat := 0

/-- Modelled from the spec: a date has no time of day. -/
def minute (_v : DateV2Value) : Nat := 0

/-- Modelled from the spec: a date has no time of day. -/
def second (_v : DateV2Value) : Nat := 0

/-- Modelled from the spec: `set_time(year, month, day)` stores its arguments in the
three bit-fields; a store to a bit-field keeps the low bits that fit. -/
def set_time (_v : DateV2Value) (year month day : Nat) : DateV2Value :=
  ⟨(year % 2 ^ 23) * 2 ^ 9 + (month % 2 ^ 4) * 2 ^ 5 + day % 2 ^ 5⟩

/-- Modelled from the spec: `to_date_uint32()` returns the word. -/
def to_date_uint32 (v : DateV2Value) : Nat := v.int_val_

/-- Modelled from the spec: `from_date(value)` stores the `uint32_t` as the word. -/
def from_date (_v : DateV2Value) (value : Nat) : DateV2Value := ⟨value % 2 ^ 32⟩

/-- The expression `(year << 9) | (month << 5) | day` of the tests. -/
def packed (year month day : Nat) : Nat := (year <<< 9) ||| (month <<< 5) ||| day

end DateV2Value

/-! ## Bloom-filter column predicate (`be/src/olap/bloom_filter_predicate.h`) -/

/-- What the vectorized `evaluate` reads of the column it is given: whether it is
nullable and, if so, its null map; and of the data column (the nested column of a
nullable one) whether it is a dictionary column, the hash value `get_hash_value(idx)` of a
dictionary row and the cell `get_data()[idx]` of any other row. -/
structure IColumn where
  is_nullable : Bool
  null_map : Nat → Bool
  is_column_dictionary : Bool
  get_hash_value : Nat → Nat
  get_data : Nat → Nat

/-- The two membership tests of the bloom filter `_specific_filter`. -/
structure SpecificFilter where
  find_uint32_t : Nat → Bool
  find_olap_engine : Nat → Bool

/-- The member variables of `BloomFilterColumnPredicate`. -/
structure BloomFilterColumnPredicate where
  specific_filter : SpecificFilter
  evaluated_rows : Nat
  passed_rows : Nat
  enable_pred : Bool

namespace BloomFilterColumnPredicate

/-- The constructor and the default member initialisers. -/
def construct (filter : SpecificFilter) : BloomFilterColumnPredicate :=
  ⟨filter, 1, 0, true⟩

/-- The loop `for (uint16_t i = 0; i < size; i++)` of the private `evaluate`, with `n`
iterations left at index `i`: `sel[new_size]` is overwritten with `sel[i]` and `new_size`
grows by the `bool` value `pass idx`.  Both counters are `uint16_t`. -/
def evaluate_loop (pass : Nat → Bool) : Nat → Nat → Nat → List Nat → List Nat × Nat
  | 0, _, new_size, sel => (sel, new_size)
  | n + 1, i, new_size, sel =>
    let idx := sel.getD i 0
    let sel1 := sel.set new_size idx
    evaluate_loop pass n ((i + 1) % 2 ^ 16)
      ((new_size + (if pass idx then 1 else 0)) % 2 ^ 16) sel1

/-- The private function template `evaluate<is_nullable, file_type>(column, null_map,
sel, size)`; the result is the selection vector afterwards and the returned
`new_size`. -/
def evaluate_template (p : BloomFilterColumnPredicate) (is_nullable : Bool) (column : IColumn)
    (sel : List Nat) (size : Nat) : List Nat × Nat :=
  if column.is_column_dictionary then
    evaluate_loop
      (fun idx =>
        if is_nullable then
          !column.null_map idx && p.specific_filter.find_uint32_t (column.get_hash_value idx)
        else p.specific_filter.find_uint32_t (column.get_hash_value idx))
      size 0 0 sel
  else
    evaluate_loop
      (fun idx =>
        if is_nullable then
          !column.null_map idx && p.specific_filter.find_olap_engine (column.get_data idx)
        else p.specific_filter.find_olap_engine (column.get_data idx))
      size 0 0 sel

/-- The vectorized function `evaluate(column, sel, size)`; `check_row_num` is the value
of `config::bloom_filter_predicate_check_row_num`.  The result is the predicate, the
selection vector and the returned size.  The two row counters are `uint64_t`.  The
quotient `_passed_rows / (_evaluated_rows * 1.0)` is computed in double precision in the
source and exactly here; the two agree on the comparison with 0.5 as long as the counters
are below `2^53`. -/
def evaluate (check_row_num : Nat) (p : BloomFilterColumnPredicate) (column : IColumn)
    (sel : List Nat) (size : Nat) : BloomFilterColumnPredicate × List Nat × Nat :=
  if !p.enable_pred then (p, sel, size)
  else
    let r : List Nat × Nat :=
      if column.is_nullable then p.evaluate_template true column sel size
      else p.evaluate_template false column sel size
    let evaluated_rows : Nat := (p.evaluated_rows + size) % 2 ^ 64
    let passed_rows : Nat := (p.passed_rows + r.2) % 2 ^ 64
    let enable_pred : Bool :=
      if check_row_num < evaluated_rows then
        if (passed_rows : ℚ) / ((evaluated_rows : ℚ) * 1) > 1 / 2 then false
        else p.enable_pred
      else p.enable_pred
    ({ p with
        evaluated_rows := evaluated_rows
        passed_rows := passed_rows
        enable_pred := enable_pred }, r.1, r.2)

/-- A row passes the predicate: it is not null and its value is found in the filter. -/
def passes (p : BloomFilterColumnPredicate) (column : IColumn) (idx : Nat) : Bool :=
  !(column.is_nullable && column.null_map idx) &&
    (if column.is_column_dictionary then
      p.specific_filter.find_uint32_t (column.get_hash_value idx)
    else p.specific_filter.find_olap_engine (column.get_data idx))

/-- A sequence of vectorized `evaluate` calls, each on the selection vector and size it
is given; the result is the predicate afterwards with the results of the calls. -/
def evaluate_calls (check_row_num : Nat) :
    BloomFilterColumnPredicate → List (IColumn × List Nat × Nat) →
      BloomFilterColumnPredicate × List (List Nat × Nat)
  | p, [] => (p, [])
  | p, (column, sel, size) :: calls =>
    let r := p.evaluate check_row_num column sel size
    let rest := evaluate_calls check_row_num r.1 calls
    (rest.1, r.2 :: rest.2)

end BloomFilterColumnPredicate

/-- A filter that contains the even values. -/
def SpecificFilter.evens : SpecificFilter := ⟨fun v => v % 2 == 0, fun v => v % 2 == 0⟩

/-- A nullable column of ten rows whose cell at row `i` is `i` and whose row 4 is null. -/
def IColumn.ten_rows : IColumn := ⟨true, fun i => i == 4, false, fun i => i, fun i => i⟩

/-! ## Basic facts about the small operations -/

namespace PlanFragmentExecutor

@[simp] theorem emit_trace (s : PlanFragmentExecutor) (e : Event) :
    (s.emit e).trace = s.trace ++ [e] := rfl

@[simp] theorem emit_status (s : PlanFragmentExecutor) (e : Event) :
    (s.emit e).status = s.status := rfl

@[simp] theorem emit_sink (s : PlanFragmentExecutor) (e : Event) :
    (s.emit e).sink = s.sink := rfl

@[simp] theorem emit_done (s : PlanFragmentExecutor) (e : Event) :
    (s.emit e).done = s.done := rfl

@[simp] theorem emit_report_thread_active (s : PlanFragmentExecutor) (e : Event) :
    (s.emit e).report_thread_active = s.report_thread_active := rfl

@[simp] theorem emit_drive_core (s : PlanFragmentExecutor) (e : Event) :
    (s.emit e).drive_core = s.drive_core := rfl

theorem stop_report_thread_active (s : PlanFragmentExecutor) :
    s.stop_report_thread.report_thread_active = false := by
  unfold stop_report_thread
  split
  · rfl
  · simpa using ‹¬ s.report_thread_active = true›

theorem stop_report_thread_status (s : PlanFragmentExecutor) :
    s.stop_report_thread.status = s.status := by
  unfold stop_report_thread
  split <;> rfl

theorem stop_report_thread_trace (s : PlanFragmentExecutor) :
    s.stop_report_thread.trace =
      s.trace ++ (if s.report_thread_active then [Event.report_thread_join] else []) := by
  unfold stop_report_thread
  split <;> simp

theorem stop_report_thread_eq (s : PlanFragmentExecutor) :
    s.stop_report_thread =
      { s with
        report_thread_active := false
        trace := s.trace ++
          (if s.report_thread_active then [Event.report_thread_join] else []) } := by
  obtain ⟨rt, pl, sk, rb, cb, act, dn, pr, cl, rs, rc, cq, cr, cm, st, rp, tr⟩ := s
  cases act <;> simp [stop_report_thread, emit]

/-- What `send_report(done)` does, in one equation: it changes nothing but the trace,
to which it adds at most one callback event. -/
theorem send_report_eq (s : PlanFragmentExecutor) (done : Bool) :
    s.send_report done =
      { s with trace := s.trace ++
          (if s.report_status_cb &&
              (s.is_report_success || (s.is_report_on_cancel && !(done && s.status.ok))) then
            [Event.report_status_cb s.status s.is_report_success (done || !s.status.ok)]
          else []) } := by
  obtain ⟨rt, pl, sk, rb, cb, act, dn, pr, cl, rs, rc, cq, cr, cm, st, rp, tr⟩ := s
  unfold send_report emit
  cases cb <;> cases rs <;> cases rc <;> cases done <;> cases h : st.ok <;> simp [h]

theorem send_report_status (s : PlanFragmentExecutor) (done : Bool) :
    (s.send_report done).status = s.status := by
  rw [send_report_eq]

theorem send_report_report_thread_active (s : PlanFragmentExecutor) (done : Bool) :
    (s.send_report done).report_thread_active = s.report_thread_active := by
  rw [send_report_eq]

/-- What `update_status(new_status)` does for a non-OK `new_status`, in one equation. -/
theorem update_status_eq (s : PlanFragmentExecutor) (new_status : Status)
    (hn : new_status.ok = false) :
    s.update_status new_status =
      { s with
        status := if s.status.ok then new_status else s.status
        report_thread_active := false
        trace := s.trace ++
          ((if s.status.ok && new_status.is_mem_limit_exceeded then
              [Event.set_mem_limit_exceeded new_status.get_error_msg] else []) ++
           (if s.status.ok && s.query_type_is_external then
              [Event.update_queue_status new_status] else []) ++
           (if s.report_thread_active then [Event.report_thread_join] else []) ++
           (if s.report_status_cb && (s.is_report_success || s.is_report_on_cancel) then
              [Event.report_status_cb (if s.status.ok then new_status else s.status)
                s.is_report_success true] else [])) } := by
  obtain ⟨rt, pl, sk, rb, cb, act, dn, pr, cl, rs, rc, cq, cr, cm, st, rp, tr⟩ := s
  simp only [update_status, hn, send_report_eq, stop_report_thread_eq, emit]
  cases hs : st.ok
  · simp [hs]
  · cases hm : new_status.is_mem_limit_exceeded <;>
      cases hx : query_type_is_external
        ⟨rt, pl, sk, rb, cb, act, dn, pr, cl, rs, rc, cq, cr, cm, st, rp, tr⟩ <;>
      simp [hs, hn, hx, query_type_is_external] <;>
      simp [query_type_is_external] at hx <;> simp [hx, hn]

/-- The status slot after `update_status`: the new status is adopted exactly when it is
not OK and the slot is OK. -/
theorem update_status_status (s : PlanFragmentExecutor) (new_status : Status) :
    (s.update_status new_status).status =
      if new_status.ok = false ∧ s.status.ok = true then new_status else s.status := by
  cases hn : new_status.ok
  · rw [update_status_eq s new_status hn]
    cases hs : s.status.ok <;> simp
  · simp [update_status, hn]

/-! ## The loops -/

theorem get_next_internal_loop_spec (env : Collab) :
    ∀ (fuel : Nat) (s : PlanFragmentExecutor) (b : Option Nat) (s1 : PlanFragmentExecutor)
      (st : Status) (b1 : Option Nat),
      get_next_internal_loop env fuel s b = some (s1, st, b1) → GetNextSpec s s1 st := by
  intro fuel
  induction fuel with
  | zero =>
    intro s b s1 st b1 h
    unfold get_next_internal_loop at h
    split at h
    · simp only [Option.some.injEq, Prod.mk.injEq] at h
      obtain ⟨rfl, rfl, -⟩ := h
      exact ⟨rfl, [], by simp, by simp, by simp, by simp [Status.ok, Status.OK]⟩
    · simp at h
  | succ n ih =>
    intro s b s1 st b1 h
    unfold get_next_internal_loop at h
    split at h
    · simp only [Option.some.injEq, Prod.mk.injEq] at h
      obtain ⟨rfl, rfl, -⟩ := h
      exact ⟨rfl, [], by simp, by simp, by simp, by simp [Status.ok, Status.OK]⟩
    · simp only at h
      split at h
      · -- the plan returned an error
        rename_i hbad
        simp only [Option.some.injEq, Prod.mk.injEq] at h
        obtain ⟨rfl, rfl, -⟩ := h
        refine ⟨rfl, [Event.plan_get_next _ _ _], rfl, by simp [Event.is_plan_get_next], ?_, ?_⟩
        · intro hok; simp [hok] at hbad
        · intro _; exact ⟨_, List.mem_singleton.mpr rfl, by simpa [Event.is_failed_call] using hbad⟩
      · rename_i hgood
        split at h
        · -- a non-empty batch
          simp only [Option.some.injEq, Prod.mk.injEq] at h
          obtain ⟨rfl, rfl, -⟩ := h
          refine ⟨rfl, [Event.plan_get_next _ _ _], rfl, by simp [Event.is_plan_get_next], ?_, ?_⟩
          · intro _ e he
            rw [List.mem_singleton] at he
            subst he
            simpa [Event.is_failed_call] using hgood
          · intro hok; simp [Status.ok, Status.OK] at hok
        · -- an empty batch: go round again
          obtain ⟨hc, new, htr, hall, hok, hbad⟩ := ih _ _ _ _ _ h
          refine ⟨hc, Event.plan_get_next _ _ _ :: new, by simpa using htr, ?_, ?_, ?_⟩
          · intro e he
            rcases List.mem_cons.mp he with rfl | he
            · rfl
            · exact hall e he
          · intro h1 e he
            rcases List.mem_cons.mp he with rfl | he
            · simpa [Event.is_failed_call] using hgood
            · exact hok h1 e he
          · intro h1
            obtain ⟨e, he, hf⟩ := hbad h1
            exact ⟨e, List.mem_cons_of_mem _ he, hf⟩

theorem get_vectorized_internal_loop_spec (env : Collab) :
    ∀ (fuel : Nat) (s : PlanFragmentExecutor) (b : Option Nat) (s1 : PlanFragmentExecutor)
      (st : Status) (b1 : Option Nat),
      get_vectorized_internal_loop env fuel s b = some (s1, st, b1) → GetNextSpec s s1 st := by
  intro fuel
  induction fuel with
  | zero =>
    intro s b s1 st b1 h
    unfold get_vectorized_internal_loop at h
    split at h
    · simp only [Option.some.injEq, Prod.mk.injEq] at h
      obtain ⟨rfl, rfl, -⟩ := h
      exact ⟨rfl, [], by simp, by simp, by simp, by simp [Status.ok, Status.OK]⟩
    · simp at h
  | succ n ih =>
    intro s b s1 st b1 h
    unfold get_vectorized_internal_loop at h
    split at h
    · simp only [Option.some.injEq, Prod.mk.injEq] at h
      obtain ⟨rfl, rfl, -⟩ := h
      exact ⟨rfl, [], by simp, by simp, by simp, by simp [Status.ok, Status.OK]⟩
    · simp only at h
      split at h
      · -- the plan returned an error
        rename_i hbad
        simp only [Option.some.injEq, Prod.mk.injEq] at h
        obtain ⟨rfl, rfl, -⟩ := h
        refine ⟨rfl, [Event.plan_get_next _ _ _], rfl, by simp [Event.is_plan_get_next], ?_, ?_⟩
        · intro hok; simp [hok] at hbad
        · intro _; exact ⟨_, List.mem_singleton.mpr rfl, by simpa [Event.is_failed_call] using hbad⟩
      · rename_i hgood
        split at h
        · -- a non-empty batch
          simp only [Option.some.injEq, Prod.mk.injEq] at h
          obtain ⟨rfl, rfl, -⟩ := h
          refine ⟨rfl, [Event.plan_get_next _ _ _], rfl, by simp [Event.is_plan_get_next], ?_, ?_⟩
          · intro _ e he
            rw [List.mem_singleton] at he
            subst he
            simpa [Event.is_failed_call] using hgood
          · intro hok; simp [Status.ok, Status.OK] at hok
        · -- an empty batch: go round again
          obtain ⟨hc, new, htr, hall, hok, hbad⟩ := ih _ _ _ _ _ h
          refine ⟨hc, Event.plan_get_next _ _ _ :: new, by simpa using htr, ?_, ?_, ?_⟩
          · intro e he
            rcases List.mem_cons.mp he with rfl | he
            · rfl
            · exact hall e he
          · intro h1 e he
            rcases List.mem_cons.mp he with rfl | he
            · simpa [Event.is_failed_call] using hgood
            · exact hok h1 e he
          · intro h1
            obtain ⟨e, he, hf⟩ := hbad h1
            exact ⟨e, List.mem_cons_of_mem _ he, hf⟩

theorem getNextSpec_refl (s : PlanFragmentExecutor) : GetNextSpec s s Status.OK :=
  ⟨rfl, [], by simp, by simp, by simp, by simp [Status.ok, Status.OK]⟩

theorem get_next_internal_spec (env : Collab) (fuel : Nat) (s : PlanFragmentExecutor)
    (b : Option Nat) (s1 : PlanFragmentExecutor) (st : Status) (b1 : Option Nat)
    (h : get_next_internal env fuel s b = some (s1, st, b1)) : GetNextSpec s s1 st := by
  unfold get_next_internal at h
  split at h
  · simp only [Option.some.injEq, Prod.mk.injEq] at h
    obtain ⟨rfl, rfl, -⟩ := h
    exact getNextSpec_refl _
  · exact get_next_internal_loop_spec env _ _ _ _ _ _ h

theorem get_vectorized_internal_spec (env : Collab) (fuel : Nat) (s : PlanFragmentExecutor)
    (b : Option Nat) (s1 : PlanFragmentExecutor) (st : Status) (b1 : Option Nat)
    (h : get_vectorized_internal env fuel s b = some (s1, st, b1)) : GetNextSpec s s1 st := by
  unfold get_vectorized_internal at h
  split at h
  · simp only [Option.some.injEq, Prod.mk.injEq] at h
    obtain ⟨rfl, rfl, -⟩ := h
    exact getNextSpec_refl _
  · exact get_vectorized_internal_loop_spec env _ _ _ _ _ _ h

/-- A pull that ended with an error ends the drive loop with that error. -/
theorem driveSpec_of_failed_pull {s s1 : PlanFragmentExecutor} {st : Status}
    (h : GetNextSpec s s1 st) (hst : st.ok = false) : DriveSpec s s1 (some st) := by
  obtain ⟨hc, new, htr, hall, -, hbad⟩ := h
  have hne : ∀ e ∈ new, e.is_eof_send = false := by
    intro e he
    have := hall e he
    cases e <;> simp_all [Event.is_plan_get_next, Event.is_eof_send]
  refine ⟨hc, new, htr, ?_, by simp, ?_, ?_⟩
  · intro e he
    have := hall e he
    cases e <;> simp_all [Event.is_plan_get_next, Event.is_drive_call]
  · intro st1 h1
    cases h1
    exact ⟨hst, hbad hst, hne⟩
  · rintro ⟨e, he, h1⟩
    rw [hne e he] at h1
    cases h1

/-- A pull that found the plan at eos ends the drive loop by `break`. -/
theorem driveSpec_of_eos_pull {s s1 : PlanFragmentExecutor} {st : Status}
    (h : GetNextSpec s s1 st) (hst : st.ok = true) : DriveSpec s s1 none := by
  obtain ⟨hc, new, htr, hall, hok, -⟩ := h
  have hne : ∀ e ∈ new, e.is_eof_send = false := by
    intro e he
    have := hall e he
    cases e <;> simp_all [Event.is_plan_get_next, Event.is_eof_send]
  refine ⟨hc, new, htr, ?_, fun _ => hok hst, by simp, ?_⟩
  · intro e he
    have := hall e he
    cases e <;> simp_all [Event.is_plan_get_next, Event.is_drive_call]
  · rintro ⟨e, he, h1⟩
    rw [hne e he] at h1
    cases h1

/-- Events of earlier, successful iterations go in front of a later run of the loop. -/
theorem driveSpec_prepend {s s3 s1 : PlanFragmentExecutor} {res : Option Status}
    (pre : List Event) (hc : s3.drive_core = s.drive_core) (htr : s3.trace = s.trace ++ pre)
    (hd : ∀ e ∈ pre, e.is_drive_call = true) (hf : ∀ e ∈ pre, e.is_failed_call = false)
    (he : ∀ e ∈ pre, e.is_eof_send = false) (h : DriveSpec s3 s1 res) :
    DriveSpec s s1 res := by
  obtain ⟨hc1, new, htr1, hall, hnone, hsome, heof⟩ := h
  refine ⟨hc1.trans hc, pre ++ new, by rw [htr1, htr, List.append_assoc], ?_, ?_, ?_, ?_⟩
  · intro e hm
    rcases List.mem_append.mp hm with hm | hm
    · exact hd e hm
    · exact hall e hm
  · intro hr e hm
    rcases List.mem_append.mp hm with hm | hm
    · exact hf e hm
    · exact hnone hr e hm
  · intro st hr
    obtain ⟨h1, ⟨e, hm, h2⟩, h3⟩ := hsome st hr
    refine ⟨h1, ⟨e, List.mem_append_right _ hm, h2⟩, ?_⟩
    intro x hx
    rcases List.mem_append.mp hx with hx | hx
    · exact he x hx
    · exact h3 x hx
  · rintro ⟨e, hm, h1⟩
    rcases List.mem_append.mp hm with hm | hm
    · rw [he e hm] at h1
      cases h1
    · obtain ⟨p, rows, ret, hnew, hret, hp⟩ := heof ⟨e, hm, h1⟩
      refine ⟨pre ++ p, rows, ret, by rw [hnew, List.append_assoc], hret, ?_⟩
      intro x hx
      rcases List.mem_append.mp hx with hx | hx
      · exact he x hx
      · exact hp x hx

/-- The loop is left by `break` without any call. -/
theorem driveSpec_nil (s : PlanFragmentExecutor) : DriveSpec s s none :=
  ⟨rfl, [], by simp, by simp, by simp, by simp, by simp⟩

/-- A send that returned END_OF_FILE ends the loop by `break`. -/
theorem driveSpec_send_eof (s : PlanFragmentExecutor) (rows : Nat) (st : Status)
    (h : st.is_end_of_file = true) : DriveSpec s (s.emit (Event.sink_send rows st)) none := by
  refine ⟨rfl, [Event.sink_send rows st], rfl, ?_, ?_, by simp, ?_⟩
  · simp [Event.is_drive_call]
  · simp [Event.is_failed_call, h]
  · intro _
    exact ⟨[], rows, st, rfl, h, by simp⟩

/-- A send that returned an error ends the loop with that error. -/
theorem driveSpec_send_failed (s : PlanFragmentExecutor) (rows : Nat) (st : Status)
    (h : st.is_end_of_file = false) (hst : st.ok = false) :
    DriveSpec s (s.emit (Event.sink_send rows st)) (some st) := by
  refine ⟨rfl, [Event.sink_send rows st], rfl, ?_, by simp, ?_, ?_⟩
  · simp [Event.is_drive_call]
  · intro st1 h1
    cases h1
    exact ⟨hst, ⟨_, List.mem_singleton.mpr rfl, by simp [Event.is_failed_call, h, hst]⟩,
      by simp [Event.is_eof_send, h]⟩
  · simp [Event.is_eof_send, h]

/-- The events of one successful pull followed by the optional statistics refresh. -/
theorem pull_prefix {s s1 : PlanFragmentExecutor} {st : Status} (h : GetNextSpec s s1 st)
    (hst : st.ok = true) (s2 : PlanFragmentExecutor)
    (hs2 : s2 = if s1.collect_query_statistics_with_every_batch then
        s1.collect_query_statistics else s1) :
    s2.drive_core = s.drive_core ∧ ∃ pre, s2.trace = s.trace ++ pre ∧
      (∀ e ∈ pre, e.is_drive_call = true) ∧ (∀ e ∈ pre, e.is_failed_call = false) ∧
      (∀ e ∈ pre, e.is_eof_send = false) := by
  obtain ⟨hc, new, htr, hall, hok, -⟩ := h
  have hne : ∀ e ∈ new, e.is_eof_send = false := by
    intro e he
    have := hall e he
    cases e <;> simp_all [Event.is_plan_get_next, Event.is_eof_send]
  have hdr : ∀ e ∈ new, e.is_drive_call = true := by
    intro e he
    have := hall e he
    cases e <;> simp_all [Event.is_plan_get_next, Event.is_drive_call]
  by_cases hcq : s1.collect_query_statistics_with_every_batch = true
  · rw [if_pos hcq] at hs2
    subst hs2
    refine ⟨hc, new ++ [Event.collect_query_statistics], ?_, ?_, ?_, ?_⟩
    · simp [collect_query_statistics, htr]
    · intro e he
      rcases List.mem_append.mp he with he | he
      · exact hdr e he
      · rw [List.mem_singleton] at he
        subst he
        rfl
    · intro e he
      rcases List.mem_append.mp he with he | he
      · exact hok hst e he
      · rw [List.mem_singleton] at he
        subst he
        rfl
    · intro e he
      rcases List.mem_append.mp he with he | he
      · exact hne e he
      · rw [List.mem_singleton] at he
        subst he
        rfl
  · rw [if_neg hcq] at hs2
    subst hs2
    exact ⟨hc, new, htr, hdr, hok hst, hne⟩

theorem open_internal_loop_spec (env : Collab) (inner : Nat) :
    ∀ (fuel : Nat) (s : PlanFragmentExecutor) (b : Option Nat) (s1 : PlanFragmentExecutor)
      (res : Option Status),
      open_internal_loop env inner fuel s b = some (s1, res) → DriveSpec s s1 res := by
  intro fuel
  induction fuel with
  | zero =>
    intro s b s1 res h
    simp [open_internal_loop] at h
  | succ n ih =>
    intro s b s1 res h
    unfold open_internal_loop at h
    split at h
    · simp at h
    · rename_i sa sta ba hgn
      have hspec := get_next_internal_spec env _ _ _ _ _ _ hgn
      split at h
      · rename_i hbad
        simp only [Option.some.injEq, Prod.mk.injEq] at h
        obtain ⟨rfl, rfl⟩ := h
        exact driveSpec_of_failed_pull hspec (by simpa using hbad)
      · rename_i hgood
        have hgood : sta.ok = true := by simpa using hgood
        split at h
        · simp only [Option.some.injEq, Prod.mk.injEq] at h
          obtain ⟨rfl, rfl⟩ := h
          exact driveSpec_of_eos_pull hspec hgood
        · rename_i rows
          simp only at h
          generalize hs2 : (if sa.collect_query_statistics_with_every_batch = true then
            sa.collect_query_statistics else sa) = s2 at h
          obtain ⟨hc, pre, htr, hd, hf, he⟩ := pull_prefix hspec hgood s2 hs2.symm
          split at h
          · rename_i heof
            simp only [Option.some.injEq, Prod.mk.injEq] at h
            obtain ⟨rfl, rfl⟩ := h
            exact driveSpec_prepend pre hc htr hd hf he (driveSpec_send_eof _ _ _ heof)
          · rename_i hneof
            have hneof : (env.sink_send s2.trace rows).is_end_of_file = false := by
              simpa using hneof
            split at h
            · rename_i hbad
              simp only [Option.some.injEq, Prod.mk.injEq] at h
              obtain ⟨rfl, rfl⟩ := h
              exact driveSpec_prepend pre hc htr hd hf he
                (driveSpec_send_failed _ _ _ hneof (by simpa using hbad))
            · rename_i hok
              have hok : (env.sink_send s2.trace rows).ok = true := by
                simpa using hok
              have h3 := ih _ _ _ _ h
              have hc3 : (s2.emit (Event.sink_send rows (env.sink_send s2.trace rows))).drive_core
                  = s.drive_core := hc
              refine driveSpec_prepend
                (pre ++ [Event.sink_send rows (env.sink_send s2.trace rows)]) hc3
                (by rw [emit_trace, htr, List.append_assoc]) ?_ ?_ ?_ h3
              · intro e hm
                rcases List.mem_append.mp hm with hm | hm
                · exact hd e hm
                · rw [List.mem_singleton] at hm
                  subst hm
                  rfl
              · intro e hm
                rcases List.mem_append.mp hm with hm | hm
                · exact hf e hm
                · rw [List.mem_singleton] at hm
                  subst hm
                  simp [Event.is_failed_call, hok]
              · intro e hm
                rcases List.mem_append.mp hm with hm | hm
                · exact he e hm
                · rw [List.mem_singleton] at hm
                  subst hm
                  simp [Event.is_eof_send, hneof]

theorem open_vectorized_internal_loop_spec (env : Collab) (inner : Nat) :
    ∀ (fuel : Nat) (s : PlanFragmentExecutor) (s1 : PlanFragmentExecutor)
      (res : Option Status),
      open_vectorized_internal_loop env inner fuel s = some (s1, res) → DriveSpec s s1 res := by
  intro fuel
  induction fuel with
  | zero =>
    intro s s1 res h
    simp [open_vectorized_internal_loop] at h
  | succ n ih =>
    intro s s1 res h
    unfold open_vectorized_internal_loop at h
    split at h
    · simp at h
    · rename_i sa sta ba hgn
      have hspec := get_vectorized_internal_spec env _ _ _ _ _ _ hgn
      split at h
      · rename_i hbad
        simp only [Option.some.injEq, Prod.mk.injEq] at h
        obtain ⟨rfl, rfl⟩ := h
        exact driveSpec_of_failed_pull hspec (by simpa using hbad)
      · rename_i hgood
        have hgood : sta.ok = true := by simpa using hgood
        split at h
        · simp only [Option.some.injEq, Prod.mk.injEq] at h
          obtain ⟨rfl, rfl⟩ := h
          exact driveSpec_of_eos_pull hspec hgood
        · rename_i rows
          simp only at h
          generalize hs2 : (if sa.collect_query_statistics_with_every_batch = true then
            sa.collect_query_statistics else sa) = s2 at h
          obtain ⟨hc, pre, htr, hd, hf, he⟩ := pull_prefix hspec hgood s2 hs2.symm
          split at h
          · rename_i heof
            simp only [Option.some.injEq, Prod.mk.injEq] at h
            obtain ⟨rfl, rfl⟩ := h
            exact driveSpec_prepend pre hc htr hd hf he (driveSpec_send_eof _ _ _ heof)
          · rename_i hneof
            have hneof : (env.sink_send s2.trace rows).is_end_of_file = false := by
              simpa using hneof
            split at h
            · rename_i hbad
              simp only [Option.some.injEq, Prod.mk.injEq] at h
              obtain ⟨rfl, rfl⟩ := h
              exact driveSpec_prepend pre hc htr hd hf he
                (driveSpec_send_failed _ _ _ hneof (by simpa using hbad))
            · rename_i hok
              have hok : (env.sink_send s2.trace rows).ok = true := by
                simpa using hok
              have h3 := ih _ _ _ h
              have hc3 : (s2.emit (Event.sink_send rows (env.sink_send s2.trace rows))).drive_core
                  = s.drive_core := hc
              refine driveSpec_prepend
                (pre ++ [Event.sink_send rows (env.sink_send s2.trace rows)]) hc3
                (by rw [emit_trace, htr, List.append_assoc]) ?_ ?_ ?_ h3
              · intro e hm
                rcases List.mem_append.mp hm with hm | hm
                · exact hd e hm
                · rw [List.mem_singleton] at hm
                  subst hm
                  rfl
              · intro e hm
                rcases List.mem_append.mp hm with hm | hm
                · exact hf e hm
                · rw [List.mem_singleton] at hm
                  subst hm
                  simp [Event.is_failed_call, hok]
              · intro e hm
                rcases List.mem_append.mp hm with hm | hm
                · exact he e hm
                · rw [List.mem_singleton] at hm
                  subst hm
                  simp [Event.is_eof_send, hneof]

/-! ## The two internal open functions -/

theorem is_open_call_of_drive {e : Event} (h : e.is_drive_call = true) :
    e.is_open_call = true := by
  cases e <;> simp_all [Event.is_open_call, Event.is_drive_call]

/-- The path after `_plan->open` and `_sink->open` succeeded, from the result of the
drive loop on; `q` is the deferred `end_send_span` of the vectorized path or nothing. -/
theorem openSpec_of_drive (env : Collab) (s s3 : PlanFragmentExecutor) (r1 r2 : Status)
    (res : Option Status) (q : List Event) (hr1 : r1.ok = true) (hr2 : r2.ok = true)
    (hsink : s.sink = true)
    (hd : DriveSpec ((s.emit (Event.plan_open r1)).emit (Event.sink_open r2)) s3 res)
    (hq : q = [] ∨ q = [Event.end_send_span]) (s3q : PlanFragmentExecutor)
    (hs3q : s3q = { s3 with trace := s3.trace ++ q }) :
    (∀ st, res = some st → OpenSpec env s s3q st) ∧
    (res = none →
      ∀ ret, ret = env.sink_close (s3q.collect_query_statistics).trace s3q.status →
        (ret.ok = false →
          OpenSpec env s ((s3q.collect_query_statistics).emit
            (Event.sink_close s3q.status ret)) ret) ∧
        (ret.ok = true →
          OpenSpec env s ((({ (s3q.collect_query_statistics).emit
              (Event.sink_close s3q.status ret) with
              sink := false, done := true }).stop_report_thread).send_report true)
            Status.OK)) := by
  obtain ⟨hc, new, htr, hall, hnone, hsome, heof⟩ := hd
  have hcore : s3q.drive_core = s.drive_core := by
    subst hs3q
    exact hc
  have hstatus : s3q.status = s.status := by
    have h := congrArg PlanFragmentExecutor.status hcore
    exact h
  have htrace : s3q.trace =
      s.trace ++ ([Event.plan_open r1, Event.sink_open r2] ++ new ++ q) := by
    subst hs3q
    simp [htr]
  have hq_open : ∀ e ∈ q, e.is_open_call = true := by
    rcases hq with rfl | rfl <;> simp [Event.is_open_call]
  have hq_ok : ∀ e ∈ q, e.is_failed_call = false := by
    rcases hq with rfl | rfl <;> simp [Event.is_failed_call]
  have hq_eof : ∀ e ∈ q, e.is_eof_send = false := by
    rcases hq with rfl | rfl <;> simp [Event.is_eof_send]
  have hcalls : ∀ e ∈ [Event.plan_open r1, Event.sink_open r2] ++ new ++ q,
      e.is_open_call = true := by
    intro e he
    simp only [List.mem_append, List.mem_cons, List.mem_singleton, List.not_mem_nil,
      or_false] at he
    rcases he with ((rfl | rfl) | he) | he
    · rfl
    · rfl
    · exact is_open_call_of_drive (hall e he)
    · exact hq_open e he
  have heofs : (∃ e ∈ [Event.plan_open r1, Event.sink_open r2] ++ new ++ q,
      e.is_eof_send = true) →
      ∃ p rows ret q1, [Event.plan_open r1, Event.sink_open r2] ++ new ++ q =
          p ++ [Event.sink_send rows ret] ++ q1 ∧
        ret.is_end_of_file = true ∧ (∀ x ∈ p, x.is_eof_send = false) ∧
        (q1 = [] ∨ q1 = [Event.end_send_span]) := by
    rintro ⟨e, he, h1⟩
    simp only [List.mem_append, List.mem_cons, List.mem_singleton, List.not_mem_nil,
      or_false] at he
    rcases he with ((rfl | rfl) | he) | he
    · simp [Event.is_eof_send] at h1
    · simp [Event.is_eof_send] at h1
    · obtain ⟨p, rows, ret, hnew, hret, hp⟩ := heof ⟨e, he, h1⟩
      refine ⟨[Event.plan_open r1, Event.sink_open r2] ++ p, rows, ret, q, ?_, hret, ?_, hq⟩
      · rw [hnew]
        simp
      · intro x hx
        simp only [List.mem_append, List.mem_cons, List.mem_singleton, List.not_mem_nil,
          or_false] at hx
        rcases hx with (rfl | rfl) | hx
        · rfl
        · rfl
        · exact hp x hx
    · rw [hq_eof e he] at h1
      cases h1
  have hgood : res = none →
      ∀ e ∈ [Event.plan_open r1, Event.sink_open r2] ++ new ++ q,
        e.is_failed_call = false := by
    intro hr e he
    simp only [List.mem_append, List.mem_cons, List.mem_singleton, List.not_mem_nil,
      or_false] at he
    rcases he with ((rfl | rfl) | he) | he
    · simp [Event.is_failed_call, hr1]
    · simp [Event.is_failed_call, hr2]
    · exact hnone hr e he
    · exact hq_ok e he
  constructor
  · intro st hr
    obtain ⟨h1, ⟨e, he, h2⟩, h3⟩ := hsome st hr
    refine ⟨_, hcalls, heofs, Or.inl ⟨h1, ⟨e, ?_, h2⟩, ?_, hcore, htrace⟩⟩
    · simp [he]
    · intro x hx
      simp only [List.mem_append, List.mem_cons, List.mem_singleton, List.not_mem_nil,
        or_false] at hx
      rcases hx with ((rfl | rfl) | hx) | hx
      · rfl
      · rfl
      · exact h3 x hx
      · exact hq_eof x hx
  · intro hr ret hretdef
    have hretenv : ∃ tr, ret = env.sink_close tr s.status := ⟨_, by rw [hretdef, hstatus]⟩
    have hsc : ((s3q.collect_query_statistics).emit (Event.sink_close s3q.status ret)).trace
        = s.trace ++ ([Event.plan_open r1, Event.sink_open r2] ++ new ++ q) ++
          [Event.collect_query_statistics, Event.sink_close s.status ret] := by
      simp [collect_query_statistics, htrace, hstatus]
    have hcore2 : ((s3q.collect_query_statistics).emit
        (Event.sink_close s3q.status ret)).drive_core = s.drive_core := hcore
    constructor
    · intro hret
      exact ⟨_, hcalls, heofs, Or.inr ⟨hgood hr, Or.inr ⟨hsink, ret,
        (s3q.collect_query_statistics).emit (Event.sink_close s3q.status ret), hretenv,
        hcore2, hsc, Or.inl ⟨hret, rfl, rfl⟩⟩⟩⟩
    · intro hret
      exact ⟨_, hcalls, heofs, Or.inr ⟨hgood hr, Or.inr ⟨hsink, ret,
        (s3q.collect_query_statistics).emit (Event.sink_close s3q.status ret), hretenv,
        hcore2, hsc, Or.inr ⟨hret, rfl, rfl⟩⟩⟩⟩

/-- A failing `_plan->open` or `_sink->open`: its error is returned at once. -/
theorem openSpec_of_failed_open (env : Collab) (s s1 : PlanFragmentExecutor) (st : Status)
    (pre : List Event) (hpre : ∀ e ∈ pre, e.is_open_call = true)
    (hne : ∀ e ∈ pre, e.is_eof_send = false) (hbad : ∃ e ∈ pre, e.is_failed_call = true)
    (hst : st.ok = false) (hc : s1.drive_core = s.drive_core)
    (htr : s1.trace = s.trace ++ pre) : OpenSpec env s s1 st := by
  refine ⟨pre, hpre, ?_, Or.inl ⟨hst, hbad, hne, hc, htr⟩⟩
  rintro ⟨e, he, h1⟩
  rw [hne e he] at h1
  cases h1

theorem append_nil_trace (s : PlanFragmentExecutor) :
    s = { s with trace := s.trace ++ [] } := by
  cases s
  simp

theorem open_internal_spec (env : Collab) (fuel : Nat) (s s1 : PlanFragmentExecutor)
    (st : Status) (h : s.open_internal env fuel = some (s1, st)) : OpenSpec env s s1 st := by
  unfold open_internal at h
  simp only at h
  split at h
  · rename_i hbad
    simp only [Option.some.injEq, Prod.mk.injEq] at h
    obtain ⟨rfl, rfl⟩ := h
    exact openSpec_of_failed_open env _ _ _ [Event.plan_open _] (by simp [Event.is_open_call])
      (by simp [Event.is_eof_send]) ⟨_, List.mem_singleton.mpr rfl, by
        simpa [Event.is_failed_call] using hbad⟩ (by simpa using hbad) rfl rfl
  · rename_i hok1
    have hok1 : (env.plan_open s.trace).ok = true := by simpa using hok1
    split at h
    · rename_i hns
      simp only [Option.some.injEq, Prod.mk.injEq] at h
      obtain ⟨rfl, rfl⟩ := h
      refine ⟨[Event.plan_open (env.plan_open s.trace)], by simp [Event.is_open_call],
        by simp [Event.is_eof_send], Or.inr ⟨by simp [Event.is_failed_call, hok1],
          Or.inl ⟨by simpa using hns, rfl, by simp [Event.is_eof_send], rfl, rfl⟩⟩⟩
    · rename_i hs
      have hs : s.sink = true := by simpa using hs
      split at h
      · rename_i hbad
        simp only [Option.some.injEq, Prod.mk.injEq] at h
        obtain ⟨rfl, rfl⟩ := h
        exact openSpec_of_failed_open env _ _ _
          [Event.plan_open (env.plan_open s.trace), Event.sink_open
            (env.sink_open (s.emit (Event.plan_open (env.plan_open s.trace))).trace)]
          (by simp [Event.is_open_call]) (by simp [Event.is_eof_send])
          ⟨Event.sink_open
            (env.sink_open (s.emit (Event.plan_open (env.plan_open s.trace))).trace),
            by simp, by simpa [Event.is_failed_call] using hbad⟩
          (by simpa using hbad) rfl (by simp)
      · rename_i hok2
        have hok2 : (env.sink_open (s.emit (Event.plan_open (env.plan_open s.trace))).trace).ok
            = true := by simpa using hok2
        split at h
        · simp at h
        · rename_i s3 st3 hloop
          simp only [Option.some.injEq, Prod.mk.injEq] at h
          obtain ⟨rfl, rfl⟩ := h
          have hd := open_internal_loop_spec env _ _ _ _ _ _ hloop
          exact (openSpec_of_drive env s s3 _ _ _ [] hok1 hok2 hs hd (Or.inl rfl) s3
            (append_nil_trace s3)).1 _ rfl
        · rename_i s3 hloop
          have hd := open_internal_loop_spec env _ _ _ _ _ _ hloop
          have hfin := (openSpec_of_drive env s s3 _ _ _ [] hok1 hok2 hs hd (Or.inl rfl) s3
            (append_nil_trace s3)).2 rfl _ rfl
          split at h
          · rename_i hbad
            simp only [Option.some.injEq, Prod.mk.injEq] at h
            obtain ⟨rfl, rfl⟩ := h
            exact hfin.1 (by simpa using hbad)
          · rename_i hgood
            simp only [Option.some.injEq, Prod.mk.injEq] at h
            obtain ⟨rfl, rfl⟩ := h
            exact hfin.2 (by simpa using hgood)

theorem open_vectorized_internal_spec (env : Collab) (fuel : Nat)
    (s s1 : PlanFragmentExecutor) (st : Status)
    (h : s.open_vectorized_internal env fuel = some (s1, st)) : OpenSpec env s s1 st := by
  unfold open_vectorized_internal at h
  simp only at h
  split at h
  · rename_i hbad
    simp only [Option.some.injEq, Prod.mk.injEq] at h
    obtain ⟨rfl, rfl⟩ := h
    exact openSpec_of_failed_open env _ _ _ [Event.plan_open _] (by simp [Event.is_open_call])
      (by simp [Event.is_eof_send]) ⟨_, List.mem_singleton.mpr rfl, by
        simpa [Event.is_failed_call] using hbad⟩ (by simpa using hbad) rfl rfl
  · rename_i hok1
    have hok1 : (env.plan_open s.trace).ok = true := by simpa using hok1
    split at h
    · rename_i hns
      simp only [Option.some.injEq, Prod.mk.injEq] at h
      obtain ⟨rfl, rfl⟩ := h
      refine ⟨[Event.plan_open (env.plan_open s.trace)], by simp [Event.is_open_call],
        by simp [Event.is_eof_send], Or.inr ⟨by simp [Event.is_failed_call, hok1],
          Or.inl ⟨by simpa using hns, rfl, by simp [Event.is_eof_send], rfl, rfl⟩⟩⟩
    · rename_i hs
      have hs : s.sink = true := by simpa using hs
      split at h
      · rename_i hbad
        simp only [Option.some.injEq, Prod.mk.injEq] at h
        obtain ⟨rfl, rfl⟩ := h
        exact openSpec_of_failed_open env _ _ _
          [Event.plan_open (env.plan_open s.trace), Event.sink_open
            (env.sink_open (s.emit (Event.plan_open (env.plan_open s.trace))).trace)]
          (by simp [Event.is_open_call]) (by simp [Event.is_eof_send])
          ⟨Event.sink_open
            (env.sink_open (s.emit (Event.plan_open (env.plan_open s.trace))).trace),
            by simp, by simpa [Event.is_failed_call] using hbad⟩
          (by simpa using hbad) rfl (by simp)
      · rename_i hok2
        have hok2 : (env.sink_open (s.emit (Event.plan_open (env.plan_open s.trace))).trace).ok
            = true := by simpa using hok2
        split at h
        · simp at h
        · rename_i s3 st3 hloop
          simp only [Option.some.injEq, Prod.mk.injEq] at h
          obtain ⟨rfl, rfl⟩ := h
          have hd := open_vectorized_internal_loop_spec env _ _ _ _ _ hloop
          exact (openSpec_of_drive env s s3 _ _ _ [Event.end_send_span] hok1 hok2 hs hd
            (Or.inr rfl) (s3.emit Event.end_send_span) rfl).1 _ rfl
        · rename_i s3 hloop
          have hd := open_vectorized_internal_loop_spec env _ _ _ _ _ hloop
          have hfin := (openSpec_of_drive env s s3 _ _ _ [Event.end_send_span] hok1 hok2 hs hd
            (Or.inr rfl) (s3.emit Event.end_send_span) rfl).2 rfl _ rfl
          split at h
          · rename_i hbad
            simp only [Option.some.injEq, Prod.mk.injEq] at h
            obtain ⟨rfl, rfl⟩ := h
            exact hfin.1 (by simpa using hbad)
          · rename_i hgood
            simp only [Option.some.injEq, Prod.mk.injEq] at h
            obtain ⟨rfl, rfl⟩ := h
            exact hfin.2 (by simpa using hgood)

/-! ## The public `open` and `get_next` -/

/-- The function `open()` unfolded: the optional start of the report thread, the
internal open function (through its `OpenSpec`), the optional error-log entry, the
rewrite of a cancelled status and the final `update_status`. -/
theorem open_wrap (env : Collab) (fuel : Nat) (s s1 : PlanFragmentExecutor) (st : Status)
    (h : s.open env fuel = some (s1, st)) :
    ∃ (sa sb sc : PlanFragmentExecutor) (st0 : Status),
      sa = (if s.is_report_success && s.report_status_cb &&
              decide (0 < env.status_report_interval) then
            ({ s with report_thread_active := true }).emit Event.report_thread_start
          else s) ∧
      (if sa.enable_vectorized_exec then sa.open_vectorized_internal env fuel
        else sa.open_internal env fuel) = some (sb, st0) ∧
      OpenSpec env sa sb st0 ∧
      sc = (if !st0.ok && !st0.is_cancelled && env.log_has_space sb.trace then
            sb.emit (Event.log_error st0.get_error_msg) else sb) ∧
      st = (if st0.is_cancelled then
            if sc.cancel_reason = PPlanFragmentCancelReason.CALL_RPC_ERROR then
              Status.RuntimeError sc.cancel_msg
            else if sc.cancel_reason = PPlanFragmentCancelReason.MEMORY_LIMIT_EXCEED then
              Status.MemoryLimitExceeded sc.cancel_msg
            else st0
          else st0) ∧
      s1 = sc.update_status st := by
  unfold PlanFragmentExecutor.open at h
  simp only at h
  generalize hsa : (if s.is_report_success && s.report_status_cb &&
      decide (0 < env.status_report_interval) then
    ({ s with report_thread_active := true }).emit Event.report_thread_start
    else s) = sa at h
  split at h
  · simp at h
  · rename_i sb st0 hint
    simp only [Option.some.injEq, Prod.mk.injEq] at h
    obtain ⟨rfl, rfl⟩ := h
    refine ⟨sa, sb, _, st0, rfl, hint, ?_, rfl, rfl, rfl⟩
    by_cases hv : sa.enable_vectorized_exec = true
    · rw [if_pos hv] at hint
      exact open_vectorized_internal_spec env fuel _ _ _ hint
    · rw [if_neg hv] at hint
      exact open_internal_spec env fuel _ _ _ hint

theorem status_of_drive_core {s s1 : PlanFragmentExecutor}
    (h : s1.drive_core = s.drive_core) : s1.status = s.status := by
  have h1 := congrArg PlanFragmentExecutor.status h
  exact h1

theorem sink_of_drive_core {s s1 : PlanFragmentExecutor}
    (h : s1.drive_core = s.drive_core) : s1.sink = s.sink := by
  have h1 := congrArg PlanFragmentExecutor.sink h
  exact h1

/-- The internal open functions never write the status slot. -/
theorem openSpec_status {env : Collab} {s s1 : PlanFragmentExecutor} {st : Status} (h : OpenSpec env s s1 st) :
    s1.status = s.status := by
  obtain ⟨pre, -, -, h⟩ := h
  rcases h with ⟨-, -, -, hc, -⟩ | ⟨-, ⟨-, -, -, hc, -⟩ | ⟨-, ret, sc, -, hc, -, h⟩⟩
  · exact status_of_drive_core hc
  · exact status_of_drive_core hc
  · rcases h with ⟨-, -, rfl⟩ | ⟨-, -, rfl⟩
    · exact status_of_drive_core hc
    · rw [send_report_status, stop_report_thread_status]
      show sc.status = s.status
      exact status_of_drive_core hc

/-- The status slot after `open()`: only the final `update_status` writes it. -/
theorem open_status (env : Collab) (fuel : Nat) (s s1 : PlanFragmentExecutor) (st : Status)
    (h : s.open env fuel = some (s1, st)) :
    s1.status = if st.ok = false ∧ s.status.ok = true then st else s.status := by
  obtain ⟨sa, sb, sc, st0, hsa, -, hspec, hsc, -, rfl⟩ := open_wrap env fuel s s1 st h
  have h1 : sa.status = s.status := by
    rw [hsa]
    split <;> rfl
  have h2 : sc.status = sb.status := by
    rw [hsc]
    split <;> rfl
  rw [update_status_status, h2, openSpec_status hspec, h1]

/-- The status slot after `get_next`. -/
theorem get_next_status (env : Collab) (fuel : Nat) (s s1 : PlanFragmentExecutor)
    (st : Status) (b : Option Nat) (h : s.get_next env fuel = some (s1, st, b)) :
    s1.status = if st.ok = false ∧ s.status.ok = true then st else s.status := by
  unfold get_next at h
  split at h
  · simp at h
  · rename_i sa sta ba hint
    simp only [Option.some.injEq, Prod.mk.injEq] at h
    obtain ⟨rfl, rfl, -⟩ := h
    have h1 : sa.status = s.status :=
      status_of_drive_core (get_next_internal_spec env _ _ _ _ _ _ hint).1
    split
    · rw [send_report_status, stop_report_thread_status, update_status_status, h1]
    · rw [update_status_status, h1]

theorem cancel_status (s : PlanFragmentExecutor) (reason : PPlanFragmentCancelReason)
    (msg : String) : (s.cancel reason msg).status = s.status := by
  unfold cancel
  simp only
  split <;> rfl

theorem close_status (env : Collab) (s : PlanFragmentExecutor) :
    (s.close env).status = s.status := by
  unfold close
  split
  · rfl
  · simp only
    split
    · rfl
    · split <;> split <;> (try split) <;> (try split) <;> rfl

/-- One operation never changes a non-OK status slot. -/
theorem step_status_of_not_ok (env : Collab) (fuel : Nat) (s s1 : PlanFragmentExecutor)
    (op : Op) (h : s.step env fuel op = some s1) (hs : s.status.ok = false) :
    s1.status = s.status := by
  rcases op with st | _ | _ | _ | ⟨reason, msg⟩ | done | _
  · simp only [step, Option.some.injEq] at h
    subst h
    rw [update_status_status]
    simp [hs]
  · simp only [step, Option.some.injEq] at h
    subst h
    rw [set_abort, update_status_status]
    simp [hs]
  · simp only [step, Option.map_eq_some', Prod.exists, exists_and_right, exists_eq_right] at h
    obtain ⟨st, h⟩ := h
    rw [open_status env fuel s s1 st h]
    simp [hs]
  · simp only [step, Option.map_eq_some', Prod.exists, exists_and_right, exists_eq_right] at h
    obtain ⟨st, b, h⟩ := h
    rw [get_next_status env fuel s s1 st b h]
    simp [hs]
  · simp only [step, Option.some.injEq] at h
    subst h
    exact cancel_status _ _ _
  · simp only [step, Option.some.injEq] at h
    subst h
    exact send_report_status _ _
  · simp only [step, Option.some.injEq] at h
    subst h
    exact close_status _ _

/-- A sequence of operations never changes a non-OK status slot. -/
theorem run_status_of_not_ok (env : Collab) (fuel : Nat) :
    ∀ (ops : List Op) (s s1 : PlanFragmentExecutor), s.run env fuel ops = some s1 →
      s.status.ok = false → s1.status = s.status := by
  intro ops
  induction ops with
  | nil =>
    intro s s1 h _
    simp only [run, Option.some.injEq] at h
    rw [h]
  | cons op ops ih =>
    intro s s1 h hs
    unfold run at h
    split at h
    · simp at h
    · rename_i sa hstep
      have h1 := step_status_of_not_ok env fuel s sa op hstep hs
      rw [ih sa s1 h (by rw [h1]; exact hs), h1]

/-- What `update_status` does for a non-OK status before its final `send_report(true)`:
the state `mid` on which `send_report(true)` is called. -/
theorem update_status_mid (s : PlanFragmentExecutor) (new_status : Status)
    (hn : new_status.ok = false) :
    ∃ mid : PlanFragmentExecutor, s.update_status new_status = mid.send_report true ∧
      mid.report_thread_active = false ∧
      mid.trace.filter Event.is_report = s.trace.filter Event.is_report := by
  have hst : (if s.status.ok then new_status else s.status).ok = false := by
    cases h : s.status.ok <;> simp [h, hn]
  refine ⟨{ s with
      status := if s.status.ok then new_status else s.status
      report_thread_active := false
      trace := s.trace ++
        ((if s.status.ok && new_status.is_mem_limit_exceeded then
            [Event.set_mem_limit_exceeded new_status.get_error_msg] else []) ++
         (if s.status.ok && s.query_type_is_external then
            [Event.update_queue_status new_status] else []) ++
         (if s.report_thread_active then [Event.report_thread_join] else [])) }, ?_, rfl, ?_⟩
  · rw [update_status_eq s _ hn, send_report_eq]
    simp [hst]
  · simp only [List.filter_append]
    split <;> split <;> split <;> simp [Event.is_report]

/-- The events `update_status` adds for a non-OK status. -/
theorem update_status_shape (x : PlanFragmentExecutor) (st : Status) (hst : st.ok = false) :
    ∃ bk : List Event, (x.update_status st).trace = x.trace ++ bk ∧
      (∀ e ∈ bk, e.is_bookkeeping = true) ∧
      (x.report_status_cb = true → x.is_report_success = true →
        bk.countP Event.is_final_report = 1) ∧
      (x.update_status st).sink = x.sink := by
  rw [update_status_eq x st hst]
  refine ⟨_, rfl, ?_, ?_, rfl⟩
  · intro e he
    simp only [List.mem_append] at he
    rcases he with ((he | he) | he) | he <;> split at he <;>
      simp at he <;> subst he <;> rfl
  · intro hcb hrs
    simp only [List.countP_append, hcb, hrs]
    split <;> split <;> split <;> simp [Event.is_final_report]

/-- The events of the terminal actions `stop_report_thread(); send_report(true)`. -/
theorem finish_shape (x : PlanFragmentExecutor) :
    ∃ bk : List Event, ((x.stop_report_thread).send_report true).trace = x.trace ++ bk ∧
      (∀ e ∈ bk, e.is_bookkeeping = true) ∧
      (x.report_status_cb = true → x.is_report_success = true →
        bk.countP Event.is_final_report = 1) ∧
      ((x.stop_report_thread).send_report true).sink = x.sink ∧
      ((x.stop_report_thread).send_report true).done = x.done ∧
      ((x.stop_report_thread).send_report true).report_thread_active = false := by
  rw [send_report_eq, stop_report_thread_eq]
  refine ⟨(if x.report_thread_active then [Event.report_thread_join] else []) ++
    (if x.report_status_cb && (x.is_report_success ||
        (x.is_report_on_cancel && !(true && x.status.ok))) then
      [Event.report_status_cb x.status x.is_report_success (true || !x.status.ok)]
    else []), by simp, ?_, ?_, rfl, rfl, rfl⟩
  · intro e he
    simp only [List.mem_append] at he
    rcases he with he | he <;> split at he <;> simp at he <;> subst he <;> rfl
  · intro hcb hrs
    simp only [List.countP_append, hcb, hrs]
    split <;> simp [Event.is_final_report]

/-- The end of `open()` after the internal open function returned an error. -/
theorem open_tail_error (env : Collab) (sb sc : PlanFragmentExecutor) (st0 st : Status)
    (hst0 : st0.ok = false)
    (hsc : sc = (if !st0.ok && !st0.is_cancelled && env.log_has_space sb.trace then
            sb.emit (Event.log_error st0.get_error_msg) else sb))
    (hst : st = (if st0.is_cancelled then
            if sc.cancel_reason = PPlanFragmentCancelReason.CALL_RPC_ERROR then
              Status.RuntimeError sc.cancel_msg
            else if sc.cancel_reason = PPlanFragmentCancelReason.MEMORY_LIMIT_EXCEED then
              Status.MemoryLimitExceeded sc.cancel_msg
            else st0
          else st0)) :
    st.ok = false ∧ ∃ bk : List Event, (sc.update_status st).trace = sb.trace ++ bk ∧
      (∀ e ∈ bk, e.is_bookkeeping = true) ∧
      (sb.report_status_cb = true → sb.is_report_success = true →
        bk.countP Event.is_final_report = 1) ∧
      (sc.update_status st).sink = sb.sink := by
  have hbad : st.ok = false := by
    rw [hst]
    split
    · split
      · rfl
      · split
        · rfl
        · exact hst0
    · exact hst0
  refine ⟨hbad, ?_⟩
  obtain ⟨bkU, htr, hbk, hcnt, hsink⟩ := update_status_shape sc st hbad
  by_cases hlog : (!st0.ok && !st0.is_cancelled && env.log_has_space sb.trace) = true
  · rw [if_pos hlog] at hsc
    refine ⟨Event.log_error st0.get_error_msg :: bkU, ?_, ?_, ?_, ?_⟩
    · rw [htr, hsc]
      simp
    · intro e he
      rcases List.mem_cons.mp he with rfl | he
      · rfl
      · exact hbk e he
    · intro hcb hrs
      rw [List.countP_cons, hcnt (by rw [hsc]; exact hcb) (by rw [hsc]; exact hrs)]
      simp [Event.is_final_report]
    · rw [hsink, hsc]
      rfl
  · rw [if_neg hlog] at hsc
    subst hsc
    exact ⟨bkU, htr, hbk, hcnt, hsink⟩

/-- The end of `open()` after the internal open function returned OK. -/
theorem open_tail_ok (env : Collab) (sb sc : PlanFragmentExecutor) (st0 st : Status)
    (hst0 : st0 = Status.OK)
    (hsc : sc = (if !st0.ok && !st0.is_cancelled && env.log_has_space sb.trace then
            sb.emit (Event.log_error st0.get_error_msg) else sb))
    (hst : st = (if st0.is_cancelled then
            if sc.cancel_reason = PPlanFragmentCancelReason.CALL_RPC_ERROR then
              Status.RuntimeError sc.cancel_msg
            else if sc.cancel_reason = PPlanFragmentCancelReason.MEMORY_LIMIT_EXCEED then
              Status.MemoryLimitExceeded sc.cancel_msg
            else st0
          else st0)) :
    st = Status.OK ∧ sc.update_status st = sb := by
  subst hst0
  have h1 : Status.OK.ok = true := rfl
  have h2 : Status.OK.is_cancelled = false := rfl
  simp only [h1, h2, Bool.not_true, Bool.false_and, Bool.false_eq_true, if_false] at hsc hst
  subst hsc hst
  exact ⟨rfl, by simp [update_status, h1]⟩

/-- The state in which `open()` calls the internal open function. -/
theorem open_start_shape (env : Collab) (s sa : PlanFragmentExecutor)
    (hsa : sa = (if s.is_report_success && s.report_status_cb &&
              decide (0 < env.status_report_interval) then
            ({ s with report_thread_active := true }).emit Event.report_thread_start
          else s)) :
    ∃ t0 : List Event, sa.trace = s.trace ++ t0 ∧
      (∀ e ∈ t0, e.is_bookkeeping = true ∧ e.is_report = false) ∧
      sa.sink = s.sink ∧ sa.status = s.status ∧
      sa.report_status_cb = s.report_status_cb ∧
      sa.is_report_success = s.is_report_success := by
  subst hsa
  split
  · exact ⟨[Event.report_thread_start], rfl, by simp [Event.is_bookkeeping, Event.is_report],
      rfl, rfl, rfl, rfl⟩
  · exact ⟨[], by simp, by simp, rfl, rfl, rfl, rfl⟩

theorem cb_of_drive_core {s s1 : PlanFragmentExecutor}
    (h : s1.drive_core = s.drive_core) : s1.report_status_cb = s.report_status_cb := by
  have h1 := congrArg PlanFragmentExecutor.report_status_cb h
  exact h1

theorem rs_of_drive_core {s s1 : PlanFragmentExecutor}
    (h : s1.drive_core = s.drive_core) : s1.is_report_success = s.is_report_success := by
  have h1 := congrArg PlanFragmentExecutor.is_report_success h
  exact h1

/-- The trace of a run of `open()`. -/
theorem open_shape (env : Collab) (fuel : Nat) (s s1 : PlanFragmentExecutor) (st : Status)
    (h : s.open env fuel = some (s1, st)) : OpenShape env s s1 st := by
  obtain ⟨sa, sb, sc, st0, hsa, -, hspec, hsc, hst, rfl⟩ := open_wrap env fuel s s1 st h
  obtain ⟨t0, ht0, hbk0, hsink0, hstatus0, hcb0, hrs0⟩ := open_start_shape env s sa hsa
  obtain ⟨pre, hpre, heof, hcases⟩ := hspec
  rcases hcases with ⟨hst0, hbad, hne, hc, htr⟩ |
    ⟨hgood, ⟨hns, hst0, hne, hc, htr⟩ | ⟨hsink, ret, sx, hretenv, hc, htr, h2⟩⟩
  · -- a call failed before the sink was closed
    obtain ⟨hstbad, bk, hbktr, hbk, hcnt, hsk⟩ := open_tail_error env sb sc st0 st hst0 hsc hst
    refine ⟨t0, pre, [], bk, ?_, hbk0, hpre, heof, hbk, ?_, Or.inl ⟨hstbad, hbad, hne, rfl, ?_⟩⟩
    · rw [hbktr, htr, ht0]
      simp [List.append_assoc]
    · intro hcb hrs _
      exact hcnt (by rw [cb_of_drive_core hc, hcb0]; exact hcb)
        (by rw [rs_of_drive_core hc, hrs0]; exact hrs)
    · rw [hsk, sink_of_drive_core hc, hsink0]
  · -- pull mode
    obtain ⟨hstok, hs1⟩ := open_tail_ok env sb sc st0 st hst0 hsc hst
    rw [hs1]
    refine ⟨t0, pre, [], [], ?_, hbk0, hpre, heof, by simp, ?_,
      Or.inr ⟨hgood, Or.inl ⟨by rw [← hsink0]; exact hns, hstok, rfl, hne⟩⟩⟩
    · rw [htr, ht0]
      simp [List.append_assoc]
    · intro _ _ hor
      rcases hor with hor | hor
      · rw [← hsink0, hns] at hor
        cases hor
      · rw [hstok] at hor
        cases hor
  · have hsinks : s.sink = true := by rw [← hsink0]; exact hsink
    have hretenv : ∃ tr, ret = env.sink_close tr s.status := by
      rw [← hstatus0]
      exact hretenv
    rcases h2 with ⟨hret, hst0, hsb⟩ | ⟨hret, hst0, hsb⟩
    · -- closing the sink failed
      subst hsb
      have hst0bad : st0.ok = false := by rw [hst0]; exact hret
      obtain ⟨hstbad, bk, hbktr, hbk, hcnt, hsk⟩ :=
        open_tail_error env sb sc st0 st hst0bad hsc hst
      refine ⟨t0, pre, [Event.collect_query_statistics, Event.sink_close s.status ret], bk,
        ?_, hbk0, hpre, heof, hbk, ?_,
        Or.inr ⟨hgood, Or.inr ⟨hsinks, ret, hretenv, rfl, Or.inl ⟨hret, hstbad, ?_⟩⟩⟩⟩
      · rw [hbktr, htr, ht0, hstatus0]
        simp [List.append_assoc]
      · intro hcb hrs _
        exact hcnt (by rw [cb_of_drive_core hc, hcb0]; exact hcb)
          (by rw [rs_of_drive_core hc, hrs0]; exact hrs)
      · rw [hsk, sink_of_drive_core hc, hsink]
    · -- the sink was closed and released
      obtain ⟨hstok, hs1⟩ := open_tail_ok env sb sc st0 st hst0 hsc hst
      rw [hs1, hsb]
      obtain ⟨bk, hbktr, hbk, hcnt, hsk, hdn, hact⟩ :=
        finish_shape { sx with sink := false, done := true }
      refine ⟨t0, pre, [Event.collect_query_statistics, Event.sink_close s.status ret], bk,
        ?_, hbk0, hpre, heof, hbk, ?_,
        Or.inr ⟨hgood, Or.inr ⟨hsinks, ret, hretenv, rfl, Or.inr ⟨hret, hstok, hsk, hdn, hact⟩⟩⟩⟩
      · rw [hbktr]
        show sx.trace ++ bk = _
        rw [htr, ht0, hstatus0]
        simp [List.append_assoc]
      · intro hcb hrs _
        refine hcnt ?_ ?_
        · show sx.report_status_cb = true
          rw [cb_of_drive_core hc, hcb0]
          exact hcb
        · show sx.is_report_success = true
          rw [rs_of_drive_core hc, hrs0]
          exact hrs

theorem bookkeeping_kinds {e : Event} (h : e.is_bookkeeping = true) :
    e.is_sink_close = false ∧ e.is_failed_call = false ∧ e.is_eof_send = false ∧
      e.is_plan_get_next = false ∧ e.is_sink_send = false := by
  cases e <;> simp_all [Event.is_bookkeeping, Event.is_sink_close, Event.is_failed_call,
    Event.is_eof_send, Event.is_plan_get_next, Event.is_sink_send]

theorem open_call_kinds {e : Event} (h : e.is_open_call = true) :
    e.is_sink_close = false ∧ e.is_final_report = false ∧ e.is_report = false := by
  cases e <;> simp_all [Event.is_open_call, Event.is_drive_call, Event.is_sink_close,
    Event.is_final_report, Event.is_report]

theorem filter_nil_of_all_false {p : Event → Bool} {l : List Event}
    (h : ∀ e ∈ l, p e = false) : l.filter p = [] := by
  rw [List.filter_eq_nil_iff]
  intro e he
  simp [h e he]

theorem countP_zero_of_all_false {p : Event → Bool} {l : List Event}
    (h : ∀ e ∈ l, p e = false) : l.countP p = 0 := by
  rw [List.countP_eq_zero]
  intro e he
  simp [h e he]

theorem cancel_final_reports (s : PlanFragmentExecutor)
    (reason : PPlanFragmentCancelReason) (msg : String) :
    (s.cancel reason msg).trace.countP Event.is_final_report =
      s.trace.countP Event.is_final_report := by
  unfold cancel
  simp only
  split <;> simp [List.countP_append, Event.is_final_report]

theorem close_final_reports (env : Collab) (s : PlanFragmentExecutor) :
    (s.close env).trace.countP Event.is_final_report =
      s.trace.countP Event.is_final_report := by
  unfold close
  split
  · rfl
  · simp only
    split
    · rfl
    · split <;> split <;> (try split) <;> (try split) <;>
        simp [List.countP_append, Event.is_final_report]

/-- A run of `open()` in which a send returned END_OF_FILE, when closing the sink
succeeds: nothing is pulled or sent after that send, the sink is closed once and
released, and OK is returned with the status slot untouched. -/
theorem open_after_eof_send (env : Collab) (fuel : Nat) (s s1 : PlanFragmentExecutor)
    (st : Status) (new : List Event)
    (hclose : ∀ tr x, (env.sink_close tr x).ok = true)
    (h : s.open env fuel = some (s1, st)) (hnew : s1.trace = s.trace ++ new)
    (heof : ∃ e ∈ new, e.is_eof_send = true) :
    st = Status.OK ∧ s1.status = s.status ∧ s1.sink = false ∧ s1.done = true ∧
    ∃ (before : List Event) (rows : Nat) (ret : Status) (after : List Event) (ret2 : Status),
      new = before ++ [Event.sink_send rows ret] ++ after ∧ ret.is_end_of_file = true ∧
      (∀ e ∈ before, e.is_eof_send = false ∧ e.is_sink_close = false) ∧
      (∀ e ∈ after, e.is_plan_get_next = false ∧ e.is_sink_send = false) ∧
      after.filter Event.is_sink_close = [Event.sink_close s.status ret2] := by
  obtain ⟨t0, pre, mid, bk, htr, ht0, hpre, hstruct, hbk, -, hcases⟩ :=
    open_shape env fuel s s1 st h
  have hnew2 : new = t0 ++ pre ++ mid ++ bk := by
    rw [hnew] at htr
    exact List.append_cancel_left htr
  have hmidne : ∀ e ∈ mid, e.is_eof_send = false := by
    intro e he
    rcases hcases with ⟨-, -, -, hmid, -⟩ | ⟨-, ⟨-, -, hmid, -⟩ | ⟨-, ret, -, hmid, -⟩⟩
    · rw [hmid] at he
      cases he
    · rw [hmid] at he
      cases he
    · rw [hmid] at he
      simp only [List.mem_cons, List.mem_singleton, List.not_mem_nil, or_false] at he
      rcases he with rfl | rfl <;> rfl
  have hpreeof : ∃ e ∈ pre, e.is_eof_send = true := by
    obtain ⟨e, he, h1⟩ := heof
    rw [hnew2] at he
    simp only [List.mem_append] at he
    rcases he with ((he | he) | he) | he
    · rw [(bookkeeping_kinds (ht0 e he).1).2.2.1] at h1
      cases h1
    · exact ⟨e, he, h1⟩
    · rw [hmidne e he] at h1
      cases h1
    · rw [(bookkeeping_kinds (hbk e he)).2.2.1] at h1
      cases h1
  obtain ⟨p, rows, ret, q, hpreq, hret, hp, hq⟩ := hstruct hpreeof
  have hno : ¬ ∀ e ∈ pre, e.is_eof_send = false := by
    intro hall
    obtain ⟨e, he, h1⟩ := hpreeof
    rw [hall e he] at h1
    cases h1
  rcases hcases with ⟨-, -, hne, -⟩ | ⟨-, ⟨-, -, -, hne⟩ | ⟨-, ret2, ⟨tr, hret2⟩, hmid, hfin⟩⟩
  · exact absurd hne hno
  · exact absurd hne hno
  · rcases hfin with ⟨hbad, -⟩ | ⟨-, hst, hsk, hdn, -⟩
    · rw [hret2, hclose] at hbad
      cases hbad
    · have hstatus : s1.status = s.status := by
        rw [open_status env fuel s s1 st h, hst]
        simp [Status.ok, Status.OK]
      refine ⟨hst, hstatus, hsk, hdn, t0 ++ p, rows, ret, q ++ mid ++ bk, ret2, ?_, hret,
        ?_, ?_, ?_⟩
      · rw [hnew2, hpreq]
        simp [List.append_assoc]
      · intro e he
        rcases List.mem_append.mp he with he | he
        · exact ⟨(bookkeeping_kinds (ht0 e he).1).2.2.1, (bookkeeping_kinds (ht0 e he).1).1⟩
        · exact ⟨hp e he, (open_call_kinds (hpre e (by rw [hpreq]; simp [he]))).1⟩
      · intro e he
        simp only [List.mem_append] at he
        rcases he with (he | he) | he
        · rcases hq with rfl | rfl
          · cases he
          · rw [List.mem_singleton] at he
            subst he
            exact ⟨rfl, rfl⟩
        · rw [hmid] at he
          simp only [List.mem_cons, List.mem_singleton, List.not_mem_nil, or_false] at he
          rcases he with rfl | rfl <;> exact ⟨rfl, rfl⟩
        · exact ⟨(bookkeeping_kinds (hbk e he)).2.2.2.1, (bookkeeping_kinds (hbk e he)).2.2.2.2⟩
      · have f2 : bk.filter Event.is_sink_close = [] :=
          filter_nil_of_all_false (fun e he => (bookkeeping_kinds (hbk e he)).1)
        have f3 : q.filter Event.is_sink_close = [] := by
          rcases hq with rfl | rfl <;> simp [Event.is_sink_close]
        simp [List.filter_append, f2, f3, hmid, Event.is_sink_close]

/-! ## Termination of the drive loop at an END_OF_FILE send -/

theorem not_eof_of_ok {st : Status} (h : st.ok = true) : st.is_end_of_file = false := by
  simp only [Status.ok, decide_eq_true_eq] at h
  simp [Status.is_end_of_file, h]

/-- One pull from a plan that answers OK with a non-empty batch. -/
theorem get_next_internal_batch (env : Collab) (inner : Nat) (s : PlanFragmentExecutor)
    (b : Option Nat) (hdone : s.done = false)
    (hok : (env.plan_get_next s.trace).status.ok = true)
    (hrows : 0 < (env.plan_get_next s.trace).rows) :
    ∃ s1 : PlanFragmentExecutor,
      get_next_internal env (inner + 1) s b =
        some (s1, Status.OK, some (env.plan_get_next s.trace).rows) ∧
      s1.done = (env.plan_get_next s.trace).eos ∧
      s1.collect_query_statistics_with_every_batch =
        s.collect_query_statistics_with_every_batch ∧
      ∃ e, s1.trace = s.trace ++ [e] ∧ e.is_sink_send = false := by
  unfold get_next_internal get_next_internal_loop
  simp only [hdone, hok, hrows, Bool.false_eq_true, if_false, Bool.not_true, if_true]
  exact ⟨_, rfl, rfl, rfl, _, rfl, rfl⟩

theorem get_vectorized_internal_batch (env : Collab) (inner : Nat) (s : PlanFragmentExecutor)
    (b : Option Nat) (hdone : s.done = false)
    (hok : (env.plan_get_next s.trace).status.ok = true)
    (hrows : 0 < (env.plan_get_next s.trace).rows) :
    ∃ s1 : PlanFragmentExecutor,
      get_vectorized_internal env (inner + 1) s b =
        some (s1, Status.OK, some (env.plan_get_next s.trace).rows) ∧
      s1.done = (env.plan_get_next s.trace).eos ∧
      s1.collect_query_statistics_with_every_batch =
        s.collect_query_statistics_with_every_batch ∧
      ∃ e, s1.trace = s.trace ++ [e] ∧ e.is_sink_send = false := by
  unfold get_vectorized_internal get_vectorized_internal_loop
  simp only [hdone, hok, hrows, Bool.false_eq_true, if_false, Bool.not_true, if_true]
  exact ⟨_, rfl, rfl, rfl, _, rfl, rfl⟩

/-- The state before a send: after the pull and the optional statistics refresh. -/
theorem before_send_shape (s s1 : PlanFragmentExecutor) (e : Event)
    (htr : s1.trace = s.trace ++ [e]) (he : e.is_sink_send = false) :
    ∃ pre : List Event,
      (if s1.collect_query_statistics_with_every_batch then s1.collect_query_statistics
        else s1).trace = s.trace ++ pre ∧
      pre.countP Event.is_sink_send = 0 ∧
      (if s1.collect_query_statistics_with_every_batch then s1.collect_query_statistics
        else s1).done = s1.done := by
  have h2 : Event.is_sink_send Event.collect_query_statistics = false := rfl
  split
  · exact ⟨[e, Event.collect_query_statistics], by simp [collect_query_statistics, htr],
      by simp [List.countP_cons, he, h2], rfl⟩
  · exact ⟨[e], htr, by simp [List.countP_cons, he], rfl⟩

/-- With a plan that keeps yielding non-empty batches and a sink that answers OK until
`target` sends have been made and END_OF_FILE to the next one, the drive loop of
`open_internal` ends by `break` once the fuel exceeds the number of sends still to be
answered OK. -/
theorem open_internal_loop_reaches_eof (env : Collab) (inner target : Nat)
    (hplan : ∀ tr, (env.plan_get_next tr).status.ok = true ∧
      0 < (env.plan_get_next tr).rows ∧ (env.plan_get_next tr).eos = false)
    (hok : ∀ tr rows, tr.countP Event.is_sink_send < target →
      (env.sink_send tr rows).ok = true)
    (heof : ∀ tr rows, tr.countP Event.is_sink_send = target →
      (env.sink_send tr rows).is_end_of_file = true) :
    ∀ (m : Nat) (s : PlanFragmentExecutor) (b : Option Nat), s.done = false →
      s.trace.countP Event.is_sink_send + m = target → ∀ fuel, m < fuel →
      ∃ (s1 : PlanFragmentExecutor) (new : List Event),
        open_internal_loop env (inner + 1) fuel s b = some (s1, none) ∧
        s1.trace = s.trace ++ new ∧ ∃ e ∈ new, e.is_eof_send = true := by
  intro m
  induction m with
  | zero =>
    intro s b hdone hcount fuel hfuel
    obtain ⟨f, rfl⟩ : ∃ f, fuel = f + 1 := ⟨fuel - 1, by omega⟩
    obtain ⟨sa, hgn, hsadone, -, e, hsatr, hes⟩ :=
      get_next_internal_batch env inner s b hdone (hplan s.trace).1 (hplan s.trace).2.1
    obtain ⟨pre, hpretr, hprec, -⟩ := before_send_shape s sa e hsatr hes
    unfold open_internal_loop
    simp only [hgn]
    have hOK : Status.OK.ok = true := rfl
    simp only [hOK, Bool.not_true, Bool.false_eq_true, if_false]
    generalize hs2 : (if sa.collect_query_statistics_with_every_batch = true then
      sa.collect_query_statistics else sa) = s2 at hpretr
    have hc2 : s2.trace.countP Event.is_sink_send = target := by
      rw [hpretr, List.countP_append, hprec]
      omega
    simp only [heof s2.trace _ hc2, if_true]
    refine ⟨_, pre ++ [Event.sink_send (env.plan_get_next s.trace).rows
        (env.sink_send s2.trace (env.plan_get_next s.trace).rows)], rfl,
      by rw [emit_trace, hpretr, List.append_assoc],
      Event.sink_send (env.plan_get_next s.trace).rows
        (env.sink_send s2.trace (env.plan_get_next s.trace).rows), by simp, ?_⟩
    simp only [Event.is_eof_send]
    exact heof s2.trace _ hc2
  | succ m ih =>
    intro s b hdone hcount fuel hfuel
    obtain ⟨f, rfl⟩ : ∃ f, fuel = f + 1 := ⟨fuel - 1, by omega⟩
    obtain ⟨sa, hgn, hsadone, -, e, hsatr, hes⟩ :=
      get_next_internal_batch env inner s b hdone (hplan s.trace).1 (hplan s.trace).2.1
    obtain ⟨pre, hpretr, hprec, hpredone⟩ := before_send_shape s sa e hsatr hes
    unfold open_internal_loop
    simp only [hgn]
    have hOK : Status.OK.ok = true := rfl
    simp only [hOK, Bool.not_true, Bool.false_eq_true, if_false]
    generalize hs2 : (if sa.collect_query_statistics_with_every_batch = true then
      sa.collect_query_statistics else sa) = s2 at hpretr hpredone
    have hc2 : s2.trace.countP Event.is_sink_send < target := by
      rw [hpretr, List.countP_append, hprec]
      omega
    have hsok := hok s2.trace (env.plan_get_next s.trace).rows hc2
    simp only [not_eof_of_ok hsok, hsok, Bool.false_eq_true, if_false, Bool.not_true]
    have hd3 : (s2.emit (Event.sink_send (env.plan_get_next s.trace).rows
        (env.sink_send s2.trace (env.plan_get_next s.trace).rows))).done = false := by
      rw [emit_done, hpredone, hsadone]
      exact (hplan s.trace).2.2
    have hc3 : (s2.emit (Event.sink_send (env.plan_get_next s.trace).rows
        (env.sink_send s2.trace (env.plan_get_next s.trace).rows))).trace.countP
          Event.is_sink_send + m = target := by
      rw [emit_trace, hpretr]
      simp only [List.countP_append, hprec, List.countP_cons, List.countP_nil,
        Event.is_sink_send]
      simp only [if_true]
      omega
    obtain ⟨s1, new, hrun, htr, hev⟩ := ih _ (some (env.plan_get_next s.trace).rows) hd3 hc3 f
      (by omega)
    refine ⟨s1, pre ++ [Event.sink_send (env.plan_get_next s.trace).rows
        (env.sink_send s2.trace (env.plan_get_next s.trace).rows)] ++ new, hrun, ?_, ?_⟩
    · rw [htr, emit_trace, hpretr]
      simp only [List.append_assoc]
    · obtain ⟨x, hx, hxe⟩ := hev
      exact ⟨x, by simp [hx], hxe⟩

/-- With a plan that keeps yielding non-empty batches and a sink that answers OK until
`target` sends have been made and END_OF_FILE to the next one, the drive loop of
`open_vectorized_internal` ends by `break` once the fuel exceeds the number of sends still to be
answered OK. -/
theorem open_vectorized_internal_loop_reaches_eof (env : Collab) (inner target : Nat)
    (hplan : ∀ tr, (env.plan_get_next tr).status.ok = true ∧
      0 < (env.plan_get_next tr).rows ∧ (env.plan_get_next tr).eos = false)
    (hok : ∀ tr rows, tr.countP Event.is_sink_send < target →
      (env.sink_send tr rows).ok = true)
    (heof : ∀ tr rows, tr.countP Event.is_sink_send = target →
      (env.sink_send tr rows).is_end_of_file = true) :
    ∀ (m : Nat) (s : PlanFragmentExecutor), s.done = false →
      s.trace.countP Event.is_sink_send + m = target → ∀ fuel, m < fuel →
      ∃ (s1 : PlanFragmentExecutor) (new : List Event),
        open_vectorized_internal_loop env (inner + 1) fuel s = some (s1, none) ∧
        s1.trace = s.trace ++ new ∧ ∃ e ∈ new, e.is_eof_send = true := by
  intro m
  induction m with
  | zero =>
    intro s hdone hcount fuel hfuel
    obtain ⟨f, rfl⟩ : ∃ f, fuel = f + 1 := ⟨fuel - 1, by omega⟩
    obtain ⟨sa, hgn, hsadone, -, e, hsatr, hes⟩ :=
      get_vectorized_internal_batch env inner s none hdone (hplan s.trace).1 (hplan s.trace).2.1
    obtain ⟨pre, hpretr, hprec, -⟩ := before_send_shape s sa e hsatr hes
    unfold open_vectorized_internal_loop
    simp only [hgn]
    have hOK : Status.OK.ok = true := rfl
    simp only [hOK, Bool.not_true, Bool.false_eq_true, if_false]
    generalize hs2 : (if sa.collect_query_statistics_with_every_batch = true then
      sa.collect_query_statistics else sa) = s2 at hpretr
    have hc2 : s2.trace.countP Event.is_sink_send = target := by
      rw [hpretr, List.countP_append, hprec]
      omega
    simp only [heof s2.trace _ hc2, if_true]
    refine ⟨_, pre ++ [Event.sink_send (env.plan_get_next s.trace).rows
        (env.sink_send s2.trace (env.plan_get_next s.trace).rows)], rfl,
      by rw [emit_trace, hpretr, List.append_assoc],
      Event.sink_send (env.plan_get_next s.trace).rows
        (env.sink_send s2.trace (env.plan_get_next s.trace).rows), by simp, ?_⟩
    simp only [Event.is_eof_send]
    exact heof s2.trace _ hc2
  | succ m ih =>
    intro s hdone hcount fuel hfuel
    obtain ⟨f, rfl⟩ : ∃ f, fuel = f + 1 := ⟨fuel - 1, by omega⟩
    obtain ⟨sa, hgn, hsadone, -, e, hsatr, hes⟩ :=
      get_vectorized_internal_batch env inner s none hdone (hplan s.trace).1 (hplan s.trace).2.1
    obtain ⟨pre, hpretr, hprec, hpredone⟩ := before_send_shape s sa e hsatr hes
    unfold open_vectorized_internal_loop
    simp only [hgn]
    have hOK : Status.OK.ok = true := rfl
    simp only [hOK, Bool.not_true, Bool.false_eq_true, if_false]
    generalize hs2 : (if sa.collect_query_statistics_with_every_batch = true then
      sa.collect_query_statistics else sa) = s2 at hpretr hpredone
    have hc2 : s2.trace.countP Event.is_sink_send < target := by
      rw [hpretr, List.countP_append, hprec]
      omega
    have hsok := hok s2.trace (env.plan_get_next s.trace).rows hc2
    simp only [not_eof_of_ok hsok, hsok, Bool.false_eq_true, if_false, Bool.not_true]
    have hd3 : (s2.emit (Event.sink_send (env.plan_get_next s.trace).rows
        (env.sink_send s2.trace (env.plan_get_next s.trace).rows))).done = false := by
      rw [emit_done, hpredone, hsadone]
      exact (hplan s.trace).2.2
    have hc3 : (s2.emit (Event.sink_send (env.plan_get_next s.trace).rows
        (env.sink_send s2.trace (env.plan_get_next s.trace).rows))).trace.countP
          Event.is_sink_send + m = target := by
      rw [emit_trace, hpretr]
      simp only [List.countP_append, hprec, List.countP_cons, List.countP_nil,
        Event.is_sink_send]
      simp only [if_true]
      omega
    obtain ⟨s1, new, hrun, htr, hev⟩ := ih _ hd3 hc3 f
      (by omega)
    refine ⟨s1, pre ++ [Event.sink_send (env.plan_get_next s.trace).rows
        (env.sink_send s2.trace (env.plan_get_next s.trace).rows)] ++ new, hrun, ?_, ?_⟩
    · rw [htr, emit_trace, hpretr]
      simp only [List.append_assoc]
    · obtain ⟨x, hx, hxe⟩ := hev
      exact ⟨x, by simp [hx], hxe⟩

/-- The terminal actions add to the trace. -/
theorem finish_trace (x : PlanFragmentExecutor) :
    ∃ bk : List Event, ((x.stop_report_thread).send_report true).trace = x.trace ++ bk := by
  obtain ⟨bk, h, -⟩ := finish_shape x
  exact ⟨bk, h⟩

/-- With `_plan->open`, `_sink->open` and `_sink->close` succeeding, a drive loop that
ended by `break` makes `open_internal` return OK. -/
theorem open_internal_reaches_eof (env : Collab) (target k : Nat) (s : PlanFragmentExecutor)
    (hpo : ∀ tr, (env.plan_open tr).ok = true) (hso : ∀ tr, (env.sink_open tr).ok = true)
    (hclose : ∀ tr x, (env.sink_close tr x).ok = true)
    (hplan : ∀ tr, (env.plan_get_next tr).status.ok = true ∧
      0 < (env.plan_get_next tr).rows ∧ (env.plan_get_next tr).eos = false)
    (hok : ∀ tr rows, tr.countP Event.is_sink_send < target →
      (env.sink_send tr rows).ok = true)
    (heof : ∀ tr rows, tr.countP Event.is_sink_send = target →
      (env.sink_send tr rows).is_end_of_file = true)
    (hsink : s.sink = true) (hdone : s.done = false)
    (hcount : s.trace.countP Event.is_sink_send + k = target) (fuel : Nat) (hfuel : k < fuel) :
    ∃ (s1 : PlanFragmentExecutor) (new : List Event),
      s.open_internal env fuel = some (s1, Status.OK) ∧
      s1.trace = s.trace ++ new ∧ ∃ e ∈ new, e.is_eof_send = true := by
  obtain ⟨f, rfl⟩ : ∃ f, fuel = f + 1 := ⟨fuel - 1, by omega⟩
  have hc2 : ((s.emit (Event.plan_open (env.plan_open s.trace))).emit
      (Event.sink_open (env.sink_open
        (s.emit (Event.plan_open (env.plan_open s.trace))).trace))).trace.countP
        Event.is_sink_send + k = target := by
    simp only [emit_trace, List.countP_append, List.countP_cons, List.countP_nil,
      Event.is_sink_send]
    simpa using hcount
  obtain ⟨s3, new, hrun, htr, e, he, hee⟩ :=
    open_internal_loop_reaches_eof env f target hplan hok heof k _ none
      (by simpa using hdone) hc2 (f + 1) hfuel
  obtain ⟨bk, hbk⟩ := finish_trace
    { (s3.collect_query_statistics).emit (Event.sink_close s3.collect_query_statistics.status
        (env.sink_close s3.collect_query_statistics.trace
          s3.collect_query_statistics.status)) with sink := false, done := true }
  unfold open_internal
  simp only [hpo, hso, emit_sink, hsink, hrun, hclose, Bool.not_true, Bool.false_eq_true,
    if_false]
  refine ⟨_, [Event.plan_open (env.plan_open s.trace),
      Event.sink_open (env.sink_open
        (s.emit (Event.plan_open (env.plan_open s.trace))).trace)] ++ new ++
      [Event.collect_query_statistics, Event.sink_close s3.collect_query_statistics.status
        (env.sink_close s3.collect_query_statistics.trace
          s3.collect_query_statistics.status)] ++ bk, rfl, ?_, e, by simp [he], hee⟩
  rw [hbk]
  simp only [emit_trace, collect_query_statistics, htr, List.append_assoc, List.singleton_append,
    List.cons_append, List.nil_append]

theorem open_vectorized_internal_reaches_eof (env : Collab) (target k : Nat)
    (s : PlanFragmentExecutor)
    (hpo : ∀ tr, (env.plan_open tr).ok = true) (hso : ∀ tr, (env.sink_open tr).ok = true)
    (hclose : ∀ tr x, (env.sink_close tr x).ok = true)
    (hplan : ∀ tr, (env.plan_get_next tr).status.ok = true ∧
      0 < (env.plan_get_next tr).rows ∧ (env.plan_get_next tr).eos = false)
    (hok : ∀ tr rows, tr.countP Event.is_sink_send < target →
      (env.sink_send tr rows).ok = true)
    (heof : ∀ tr rows, tr.countP Event.is_sink_send = target →
      (env.sink_send tr rows).is_end_of_file = true)
    (hsink : s.sink = true) (hdone : s.done = false)
    (hcount : s.trace.countP Event.is_sink_send + k = target) (fuel : Nat) (hfuel : k < fuel) :
    ∃ (s1 : PlanFragmentExecutor) (new : List Event),
      s.open_vectorized_internal env fuel = some (s1, Status.OK) ∧
      s1.trace = s.trace ++ new ∧ ∃ e ∈ new, e.is_eof_send = true := by
  obtain ⟨f, rfl⟩ : ∃ f, fuel = f + 1 := ⟨fuel - 1, by omega⟩
  have hc2 : ((s.emit (Event.plan_open (env.plan_open s.trace))).emit
      (Event.sink_open (env.sink_open
        (s.emit (Event.plan_open (env.plan_open s.trace))).trace))).trace.countP
        Event.is_sink_send + k = target := by
    simp only [emit_trace, List.countP_append, List.countP_cons, List.countP_nil,
      Event.is_sink_send]
    simpa using hcount
  obtain ⟨s3, new, hrun, htr, e, he, hee⟩ :=
    open_vectorized_internal_loop_reaches_eof env f target hplan hok heof k _
      (by simpa using hdone) hc2 (f + 1) hfuel
  obtain ⟨bk, hbk⟩ := finish_trace
    { ((s3.emit Event.end_send_span).collect_query_statistics).emit
        (Event.sink_close (s3.emit Event.end_send_span).collect_query_statistics.status
        (env.sink_close (s3.emit Event.end_send_span).collect_query_statistics.trace
          (s3.emit Event.end_send_span).collect_query_statistics.status)) with
      sink := false, done := true }
  unfold open_vectorized_internal
  simp only [hpo, hso, emit_sink, hsink, hrun, hclose, Bool.not_true, Bool.false_eq_true,
    if_false]
  refine ⟨_, [Event.plan_open (env.plan_open s.trace),
      Event.sink_open (env.sink_open
        (s.emit (Event.plan_open (env.plan_open s.trace))).trace)] ++ new ++
      [Event.end_send_span, Event.collect_query_statistics,
        Event.sink_close (s3.emit Event.end_send_span).collect_query_statistics.status
        (env.sink_close (s3.emit Event.end_send_span).collect_query_statistics.trace
          (s3.emit Event.end_send_span).collect_query_statistics.status)] ++ bk,
      rfl, ?_, e, by simp [he], hee⟩
  rw [hbk]
  simp only [emit_trace, collect_query_statistics, htr, List.append_assoc, List.singleton_append,
    List.cons_append, List.nil_append]

/-- With a plan that keeps yielding non-empty batches, a sink that answers OK to `k`
sends and END_OF_FILE to the next, and `_plan->open`, `_sink->open`, `_sink->close`
succeeding, `open()` returns OK as soon as the fuel exceeds `k`. -/
theorem open_reaches_eof (env : Collab) (k : Nat) (s : PlanFragmentExecutor)
    (hpo : ∀ tr, (env.plan_open tr).ok = true) (hso : ∀ tr, (env.sink_open tr).ok = true)
    (hclose : ∀ tr x, (env.sink_close tr x).ok = true)
    (hplan : ∀ tr, (env.plan_get_next tr).status.ok = true ∧
      0 < (env.plan_get_next tr).rows ∧ (env.plan_get_next tr).eos = false)
    (hok : ∀ tr rows, tr.countP Event.is_sink_send < s.trace.countP Event.is_sink_send + k →
      (env.sink_send tr rows).ok = true)
    (heof : ∀ tr rows, tr.countP Event.is_sink_send = s.trace.countP Event.is_sink_send + k →
      (env.sink_send tr rows).is_end_of_file = true)
    (hsink : s.sink = true) (hdone : s.done = false) (fuel : Nat) (hfuel : k < fuel) :
    ∃ (s1 : PlanFragmentExecutor) (new : List Event),
      s.open env fuel = some (s1, Status.OK) ∧
      s1.trace = s.trace ++ new ∧ ∃ e ∈ new, e.is_eof_send = true := by
  obtain ⟨t0, ht0, hbk0, hsink0, -, -, -⟩ := open_start_shape env s _ rfl
  generalize hsa : (if s.is_report_success && s.report_status_cb &&
      decide (0 < env.status_report_interval) then
    ({ s with report_thread_active := true }).emit Event.report_thread_start
    else s) = sa at ht0 hsink0
  have hdone0 : sa.done = s.done := by
    rw [← hsa]
    split <;> rfl
  have hcount0 : sa.trace.countP Event.is_sink_send + k =
      s.trace.countP Event.is_sink_send + k := by
    rw [ht0, List.countP_append,
      countP_zero_of_all_false (fun e he => (bookkeeping_kinds (hbk0 e he).1).2.2.2.2)]
    rfl
  have hint : ∃ (sb : PlanFragmentExecutor) (new : List Event),
      (if sa.enable_vectorized_exec then sa.open_vectorized_internal env fuel
        else sa.open_internal env fuel) = some (sb, Status.OK) ∧
      sb.trace = sa.trace ++ new ∧ ∃ e ∈ new, e.is_eof_send = true := by
    by_cases hv : sa.enable_vectorized_exec = true
    · rw [if_pos hv]
      exact open_vectorized_internal_reaches_eof env _ k sa hpo hso hclose hplan hok heof
        (by rw [hsink0]; exact hsink) (by rw [hdone0]; exact hdone) hcount0 fuel hfuel
    · rw [if_neg hv]
      exact open_internal_reaches_eof env _ k sa hpo hso hclose hplan hok heof
        (by rw [hsink0]; exact hsink) (by rw [hdone0]; exact hdone) hcount0 fuel hfuel
  obtain ⟨sb, new, hint, htr, e, he, hee⟩ := hint
  obtain ⟨h1, h2⟩ := open_tail_ok env sb _ Status.OK _ rfl rfl rfl
  refine ⟨sb, t0 ++ new, ?_, by rw [htr, ht0, List.append_assoc], e, by simp [he], hee⟩
  unfold PlanFragmentExecutor.open
  simp only [hsa, hint]
  rw [h2, h1]

/-! ## Final reports of `get_next` -/

/-- The members `update_status` never writes. -/
theorem update_status_fields (x : PlanFragmentExecutor) (st : Status) :
    (x.update_status st).done = x.done ∧
    (x.update_status st).report_status_cb = x.report_status_cb ∧
    (x.update_status st).is_report_success = x.is_report_success := by
  cases hst : st.ok
  · rw [update_status_eq x st hst]
    exact ⟨rfl, rfl, rfl⟩
  · simp [update_status, hst]

/-- The number of `done = true` callbacks one `get_next` call adds, with a callback
installed and success reporting on: one if it returns an error, and one if `_done` is set
when it returns. -/
theorem get_next_final_reports (env : Collab) (fuel : Nat) (s s1 : PlanFragmentExecutor)
    (st : Status) (b : Option Nat) (hcb : s.report_status_cb = true)
    (hrs : s.is_report_success = true) (h : s.get_next env fuel = some (s1, st, b)) :
    s1.trace.countP Event.is_final_report =
      s.trace.countP Event.is_final_report + (if st.ok then 0 else 1) +
        (if s1.done then 1 else 0) := by
  unfold get_next at h
  split at h
  · simp at h
  · rename_i sa sta ba hint
    simp only [Option.some.injEq, Prod.mk.injEq] at h
    obtain ⟨rfl, rfl, -⟩ := h
    obtain ⟨hc, new, htr, hall, -, -⟩ := get_next_internal_spec env _ _ _ _ _ _ hint
    have hnew : new.countP Event.is_final_report = 0 := by
      apply countP_zero_of_all_false
      intro e he
      have h1 := hall e he
      cases e <;> simp_all [Event.is_plan_get_next, Event.is_final_report]
    have hcba : sa.report_status_cb = true := by rw [cb_of_drive_core hc]; exact hcb
    have hrsa : sa.is_report_success = true := by rw [rs_of_drive_core hc]; exact hrs
    obtain ⟨hd, hcbu, hrsu⟩ := update_status_fields sa sta
    have hmid : (sa.update_status sta).trace.countP Event.is_final_report =
        s.trace.countP Event.is_final_report + (if sta.ok then 0 else 1) := by
      cases hst : sta.ok
      · obtain ⟨bk, hbk, -, hcnt, -⟩ := update_status_shape sa sta hst
        rw [hbk, htr]
        simp [List.countP_append, hnew, hcnt hcba hrsa]
      · simp [update_status, hst, htr, List.countP_append, hnew]
    by_cases hdone : (sa.update_status sta).done = true
    · rw [if_pos hdone]
      obtain ⟨bk, hbk, -, hcnt, -, hdn, -⟩ := finish_shape (sa.update_status sta)
      rw [hbk, List.countP_append, hmid, hcnt (by rw [hcbu]; exact hcba)
        (by rw [hrsu]; exact hrsa), hdn, if_pos hdone]
    · rw [if_neg hdone, hmid, if_neg hdone, Nat.add_zero]

/-! ## `cancel` and `close` -/

/-- What `cancel(reason, msg)` does, in one equation. -/
theorem cancel_eq (s : PlanFragmentExecutor) (reason : PPlanFragmentCancelReason)
    (msg : String) :
    s.cancel reason msg =
      { s with
        cancel_reason := reason
        cancel_msg := msg
        runtime_state := s.runtime_state.map
          (fun (r : RuntimeState) => { r with is_cancelled := true })
        trace := s.trace ++
          (if s.enable_vectorized_exec then [Event.vstream_mgr_cancel]
           else [Event.stream_mgr_cancel, Event.result_mgr_cancel]) } := by
  have hv : ∀ (x : PlanFragmentExecutor), x.enable_vectorized_exec =
      (match x.runtime_state with
       | some r => r.enable_vectorized_exec
       | none => false) := fun _ => rfl
  unfold cancel
  simp only [hv]
  cases hr : s.runtime_state with
  | none => simp [emit]
  | some r => cases hve : r.enable_vectorized_exec <;> simp [emit, hve]

/-- After `close()` the executor is closed. -/
theorem close_closed (env : Collab) (s : PlanFragmentExecutor) :
    (s.close env).closed = true := by
  unfold close
  split
  · assumption
  · rfl

/-- What the first `close()` does when the runtime state exists, in one equation. -/
theorem close_eq (env : Collab) (s : PlanFragmentExecutor) (r : RuntimeState)
    (hc : s.closed = false) (hr : s.runtime_state = some r) :
    s.close env =
      { s with
        row_batch := false
        closed := true
        trace := s.trace ++
          ((if s.plan then [Event.plan_close] else []) ++
           (if s.sink then
              [Event.sink_close
                (if s.prepared then s.status else Status.InternalError "prepare failed")
                (env.sink_close (s.trace ++ (if s.plan then [Event.plan_close] else []))
                  (if s.prepared then s.status else Status.InternalError "prepare failed"))]
            else []) ++
           (if s.is_report_success then [Event.pretty_print_profile] else [])) } := by
  obtain ⟨rt, pl, sk, rb, cb, act, dn, pr, cl, rs, rc, cq, cr, cm, st, rp, tr⟩ := s
  simp only at hc hr
  subst hc hr
  cases pl <;> cases sk <;> cases pr <;> cases rs <;> simp [close, emit]

theorem cancel_fields (x : PlanFragmentExecutor) (r : PPlanFragmentCancelReason)
    (m : String) :
    (x.cancel r m).cancel_reason = r ∧ (x.cancel r m).cancel_msg = m ∧
      (x.cancel r m).status = x.status := by
  rw [cancel_eq]
  exact ⟨rfl, rfl, rfl⟩

/-- After a sequence of `cancel` calls the recorded reason and message are those of the
last call (the earlier values when the sequence is empty); the status slot is untouched. -/
theorem cancel_calls_last (calls : List (PPlanFragmentCancelReason × String)) :
    ∀ (x : PlanFragmentExecutor),
      (x.cancel_calls calls).cancel_reason =
        ((calls.getLast?).map Prod.fst).getD x.cancel_reason ∧
      (x.cancel_calls calls).cancel_msg =
        ((calls.getLast?).map Prod.snd).getD x.cancel_msg ∧
      (x.cancel_calls calls).status = x.status := by
  induction calls with
  | nil =>
    intro x
    exact ⟨rfl, rfl, rfl⟩
  | cons c cs ih =>
    intro x
    have h := ih (x.cancel c.1 c.2)
    have hstep : x.cancel_calls (c :: cs) = (x.cancel c.1 c.2).cancel_calls cs := rfl
    obtain ⟨f1, f2, f3⟩ := cancel_fields x c.1 c.2
    rw [hstep]
    cases cs with
    | nil =>
      simp only [List.getLast?_nil, Option.map_none', Option.getD_none] at h
      simp only [List.getLast?_singleton, Option.map_some', Option.getD_some]
      rw [h.1, h.2.1, h.2.2]
      exact ⟨f1, f2, f3⟩
    | cons d ds =>
      rw [List.getLast?_cons_cons]
      cases hl : (d :: ds).getLast? with
      | none => simp at hl
      | some l =>
        rw [hl] at h
        simp only [Option.map_some', Option.getD_some] at h ⊢
        rw [h.1, h.2.1, h.2.2]
        exact ⟨rfl, rfl, f3⟩

/-! ## Pull mode -/

/-- Without a sink `open_internal` only opens the plan. -/
theorem open_internal_pull (env : Collab) (fuel : Nat) (s : PlanFragmentExecutor)
    (hsink : s.sink = false) :
    s.open_internal env fuel =
      some (s.emit (Event.plan_open (env.plan_open s.trace)),
        if (env.plan_open s.trace).ok then Status.OK else env.plan_open s.trace) := by
  unfold open_internal
  cases h : (env.plan_open s.trace).ok <;> simp [h, hsink]

/-- Without a sink `open_vectorized_internal` only opens the plan. -/
theorem open_vectorized_internal_pull (env : Collab) (fuel : Nat) (s : PlanFragmentExecutor)
    (hsink : s.sink = false) :
    s.open_vectorized_internal env fuel =
      some (s.emit (Event.plan_open (env.plan_open s.trace)),
        if (env.plan_open s.trace).ok then Status.OK else env.plan_open s.trace) := by
  unfold open_vectorized_internal
  cases h : (env.plan_open s.trace).ok <;> simp [h, hsink]

/-- The function `open()` returns whenever its internal open function does. -/
theorem open_of_internal (env : Collab) (fuel : Nat) (s sa sb sc : PlanFragmentExecutor)
    (st0 st : Status)
    (hsa : (if s.is_report_success && s.report_status_cb &&
              decide (0 < env.status_report_interval) then
            ({ s with report_thread_active := true }).emit Event.report_thread_start
          else s) = sa)
    (hint : (if sa.enable_vectorized_exec then sa.open_vectorized_internal env fuel
        else sa.open_internal env fuel) = some (sb, st0))
    (hsc : sc = (if !st0.ok && !st0.is_cancelled && env.log_has_space sb.trace then
            sb.emit (Event.log_error st0.get_error_msg) else sb))
    (hst : st = (if st0.is_cancelled then
            if sc.cancel_reason = PPlanFragmentCancelReason.CALL_RPC_ERROR then
              Status.RuntimeError sc.cancel_msg
            else if sc.cancel_reason = PPlanFragmentCancelReason.MEMORY_LIMIT_EXCEED then
              Status.MemoryLimitExceeded sc.cancel_msg
            else st0
          else st0)) :
    s.open env fuel = some (sc.update_status st, st) := by
  subst hst hsc
  unfold PlanFragmentExecutor.open
  simp only [hsa, hint]

/-- In pull mode `open()` returns for every fuel; what it does is spelled out by the
trace it leaves. -/
theorem open_pull (env : Collab) (fuel : Nat) (s : PlanFragmentExecutor)
    (hsink : s.sink = false) :
    ∃ (s1 : PlanFragmentExecutor) (st : Status) (t0 bk : List Event),
      s.open env fuel = some (s1, st) ∧
      s1.trace = s.trace ++ (t0 ++ [Event.plan_open (env.plan_open (s.trace ++ t0))] ++ bk) ∧
      (∀ e ∈ t0, e = Event.report_thread_start) ∧
      (∀ e ∈ bk, e.is_bookkeeping = true) ∧
      s1.done = s.done ∧ s1.sink = false ∧
      ((env.plan_open (s.trace ++ t0)).ok = true → st = Status.OK ∧ bk = []) ∧
      ((env.plan_open (s.trace ++ t0)).ok = false →
        st.ok = false ∧
        (s.report_status_cb = true → s.is_report_success = true →
          bk.countP Event.is_final_report = 1)) := by
  have hstart : ∃ t0 : List Event,
      (if s.is_report_success && s.report_status_cb &&
          decide (0 < env.status_report_interval) then
        ({ s with report_thread_active := true }).emit Event.report_thread_start
        else s).trace = s.trace ++ t0 ∧ (∀ e ∈ t0, e = Event.report_thread_start) := by
    split
    · exact ⟨[Event.report_thread_start], rfl, by simp⟩
    · exact ⟨[], by simp, by simp⟩
  obtain ⟨t0, ht0, ht0all⟩ := hstart
  obtain ⟨-, -, -, hsink0, -, hcb0, hrs0⟩ := open_start_shape env s _ rfl
  generalize hsa : (if s.is_report_success && s.report_status_cb &&
      decide (0 < env.status_report_interval) then
    ({ s with report_thread_active := true }).emit Event.report_thread_start
    else s) = sa at ht0 hsink0 hcb0 hrs0
  have hdone0 : sa.done = s.done := by
    rw [← hsa]
    split <;> rfl
  have hsk : sa.sink = false := by rw [hsink0]; exact hsink
  obtain ⟨st0, hst0⟩ : ∃ st0 : Status, st0 =
      if (env.plan_open sa.trace).ok then Status.OK else env.plan_open sa.trace := ⟨_, rfl⟩
  obtain ⟨sb, hsb⟩ : ∃ sb : PlanFragmentExecutor,
      sb = sa.emit (Event.plan_open (env.plan_open sa.trace)) := ⟨_, rfl⟩
  have hint : (if sa.enable_vectorized_exec then sa.open_vectorized_internal env fuel
        else sa.open_internal env fuel) = some (sb, st0) := by
    rw [hsb, hst0]
    split
    · exact open_vectorized_internal_pull env fuel sa hsk
    · exact open_internal_pull env fuel sa hsk
  obtain ⟨sc, hsc⟩ : ∃ sc : PlanFragmentExecutor,
      sc = (if !st0.ok && !st0.is_cancelled && env.log_has_space sb.trace then
            sb.emit (Event.log_error st0.get_error_msg) else sb) := ⟨_, rfl⟩
  obtain ⟨st, hst⟩ : ∃ st : Status,
      st = (if st0.is_cancelled then
            if sc.cancel_reason = PPlanFragmentCancelReason.CALL_RPC_ERROR then
              Status.RuntimeError sc.cancel_msg
            else if sc.cancel_reason = PPlanFragmentCancelReason.MEMORY_LIMIT_EXCEED then
              Status.MemoryLimitExceeded sc.cancel_msg
            else st0
          else st0) := ⟨_, rfl⟩
  have hopen := open_of_internal env fuel s sa sb sc st0 st hsa hint hsc hst
  have hsbtr : sb.trace = s.trace ++ (t0 ++ [Event.plan_open (env.plan_open (s.trace ++ t0))]) := by
    rw [hsb, emit_trace, ht0, List.append_assoc]
  have hsbdone : sb.done = s.done := by rw [hsb]; exact hdone0
  have hsbsink : sb.sink = false := by rw [hsb]; exact hsk
  cases hok : (env.plan_open sa.trace).ok
  · -- the plan failed to open
    have hst0bad : st0.ok = false := by
      rw [hst0, hok]
      exact hok
    obtain ⟨hstbad, bk, hbktr, hbk, hcnt, hsk1⟩ := open_tail_error env sb sc st0 st hst0bad hsc hst
    obtain ⟨hd, -, -⟩ := update_status_fields sc st
    have hscdone : sc.done = sb.done := by
      rw [hsc]
      split <;> rfl
    refine ⟨sc.update_status st, st, t0, bk, hopen, ?_, ht0all, hbk, ?_, ?_, ?_, ?_⟩
    · rw [hbktr, hsbtr]
      simp only [List.append_assoc]
    · rw [hd, hscdone, hsbdone]
    · rw [hsk1, hsbsink]
    · intro h
      rw [← ht0, hok] at h
      cases h
    · intro _
      refine ⟨hstbad, fun hcb hrs => hcnt ?_ ?_⟩
      · rw [hsb]
        show sa.report_status_cb = true
        rw [hcb0]
        exact hcb
      · rw [hsb]
        show sa.is_report_success = true
        rw [hrs0]
        exact hrs
  · -- the plan opened
    have hst0ok : st0 = Status.OK := by
      rw [hst0, hok]
      rfl
    obtain ⟨hstok, hs1⟩ := open_tail_ok env sb sc st0 st hst0ok hsc hst
    rw [hs1, hstok] at hopen
    refine ⟨sb, Status.OK, t0, [], hopen, ?_, ht0all, by simp, hsbdone, hsbsink, ?_, ?_⟩
    · rw [hsbtr]
      simp only [List.append_assoc, List.append_nil]
    · intro _
      exact ⟨rfl, rfl⟩
    · intro h
      rw [← ht0, hok] at h
      cases h

theorem bookkeeping_not_plan_or_sink {e : Event} (h : e.is_bookkeeping = true) :
    e.is_plan_open = false ∧ e.is_sink_call = false ∧ e.is_plan_get_next = false := by
  cases e <;> simp_all [Event.is_bookkeeping, Event.is_plan_open, Event.is_sink_call,
    Event.is_plan_get_next]

theorem not_bookkeeping_plan_open (r : Status) :
    (Event.plan_open r).is_bookkeeping = false := rfl

/-- The last callback of `send_report(true)`, when the filter lets it through. -/
theorem send_report_last (mid : PlanFragmentExecutor)
    (hcb : mid.report_status_cb = true)
    (hr : mid.is_report_success = true ∨
      (mid.is_report_on_cancel = true ∧ mid.status.ok = false)) :
    (mid.send_report true).trace.getLast? =
      some (Event.report_status_cb mid.status mid.is_report_success true) := by
  rw [send_report_eq]
  have hcond : (mid.report_status_cb && (mid.is_report_success ||
      (mid.is_report_on_cancel && !(true && mid.status.ok)))) = true := by
    rcases hr with hr | ⟨h1, h2⟩
    · simp [hcb, hr]
    · simp [hcb, h1, h2]
  simp only [hcond, if_true, Bool.true_or]
  rw [List.getLast?_append]
  rfl

/-! ## The pull loop in detail -/

theorem get_next_internal_loop_detail (env : Collab) :
    ∀ (fuel : Nat) (s : PlanFragmentExecutor) (b : Option Nat) (s1 : PlanFragmentExecutor)
      (st : Status) (b1 : Option Nat),
      get_next_internal_loop env fuel s b = some (s1, st, b1) →
      (s.done = true ∧ s1 = s ∧ st = Status.OK ∧ b1 = b) ∨
      (s.done = false ∧ PullDetail env s s1 st b1) := by
  intro fuel
  induction fuel with
  | zero =>
    intro s b s1 st b1 h
    unfold get_next_internal_loop at h
    split at h
    · rename_i hd
      simp only [Option.some.injEq, Prod.mk.injEq] at h
      obtain ⟨rfl, rfl, rfl⟩ := h
      exact Or.inl ⟨hd, rfl, rfl, rfl⟩
    · simp at h
  | succ n ih =>
    intro s b s1 st b1 h
    unfold get_next_internal_loop at h
    split at h
    · rename_i hd
      simp only [Option.some.injEq, Prod.mk.injEq] at h
      obtain ⟨rfl, rfl, rfl⟩ := h
      exact Or.inl ⟨hd, rfl, rfl, rfl⟩
    · rename_i hd
      have hd : s.done = false := by simpa using hd
      refine Or.inr ⟨hd, ?_⟩
      simp only at h
      split at h
      · rename_i hbad
        simp only [Option.some.injEq, Prod.mk.injEq] at h
        obtain ⟨rfl, rfl, rfl⟩ := h
        exact ⟨[], (env.plan_get_next s.trace).status, (env.plan_get_next s.trace).rows,
          (env.plan_get_next s.trace).eos, by simp, by simp, by simp, rfl,
          Or.inl ⟨by simpa using hbad, rfl, rfl⟩⟩
      · rename_i hgood
        have hgood : (env.plan_get_next s.trace).status.ok = true := by simpa using hgood
        split at h
        · rename_i hrows
          simp only [Option.some.injEq, Prod.mk.injEq] at h
          obtain ⟨rfl, rfl, rfl⟩ := h
          exact ⟨[], (env.plan_get_next s.trace).status, (env.plan_get_next s.trace).rows,
            (env.plan_get_next s.trace).eos, by simp, by simp, by simp, rfl,
            Or.inr (Or.inl ⟨hgood, hrows, rfl, rfl, rfl⟩)⟩
        · rename_i hrows
          have hrows : (env.plan_get_next s.trace).rows = 0 := by omega
          have hev : ∀ eos0, (env.plan_get_next s.trace).eos = eos0 →
              Event.plan_get_next (env.plan_get_next s.trace).status
                (env.plan_get_next s.trace).rows (env.plan_get_next s.trace).eos =
              Event.plan_get_next (env.plan_get_next s.trace).status 0 eos0 := by
            intro eos0 h0
            rw [hrows, h0]
          rcases ih _ _ _ _ _ h with ⟨hd1, rfl, rfl, rfl⟩ | ⟨hd1, skipped, r, rows, eos, htr,
            henv, hsk, hdn, hcases⟩
          · -- the empty batch came with eos
            have heos : (env.plan_get_next s.trace).eos = true := hd1
            refine ⟨[], (env.plan_get_next s.trace).status, 0, true, ?_, ?_, by simp, hd1,
              Or.inr (Or.inr ⟨hgood, rfl, rfl, rfl, rfl, rfl⟩)⟩
            · rw [emit_trace, hev true heos]
              simp only [List.append_nil]
            · rw [List.append_nil]
              exact ⟨rfl, hrows.symm, heos.symm⟩
          · -- an empty batch, plan not at eos: skipped
            have heos : (env.plan_get_next s.trace).eos = false := hd1
            refine ⟨Event.plan_get_next (env.plan_get_next s.trace).status 0 false :: skipped,
              r, rows, eos, ?_, ?_, ?_, hdn, hcases⟩
            · rw [htr, emit_trace, hev false heos]
              simp only [List.append_assoc, List.singleton_append, List.cons_append,
                List.nil_append]
            · rw [emit_trace, hev false heos] at henv
              simp only [List.append_assoc, List.singleton_append] at henv
              exact henv
            · intro e he
              rcases List.mem_cons.mp he with rfl | he
              · exact ⟨_, hgood, rfl⟩
              · exact hsk e he

theorem get_next_internal_detail (env : Collab) (fuel : Nat) (s : PlanFragmentExecutor)
    (b : Option Nat) (s1 : PlanFragmentExecutor) (st : Status) (b1 : Option Nat)
    (h : get_next_internal env fuel s b = some (s1, st, b1)) :
    (s.done = true ∧ s1 = s ∧ st = Status.OK ∧ b1 = none) ∨
    (s.done = false ∧ PullDetail env s s1 st b1) := by
  unfold get_next_internal at h
  split at h
  · rename_i hd
    simp only [Option.some.injEq, Prod.mk.injEq] at h
    obtain ⟨rfl, rfl, rfl⟩ := h
    exact Or.inl ⟨hd, rfl, rfl, rfl⟩
  · rename_i hd
    rcases get_next_internal_loop_detail env _ _ _ _ _ _ h with ⟨hd1, -⟩ | hr
    · exact absurd hd1 hd
    · exact Or.inr hr

/-- The pull loop runs out of fuel exactly when the plan answers `fuel` calls in a row
with an empty batch, OK and no eos. -/
theorem get_next_internal_loop_none (env : Collab) :
    ∀ (fuel : Nat) (s : PlanFragmentExecutor) (b : Option Nat),
      get_next_internal_loop env fuel s b = none ↔
        (s.done = false ∧ consecutive_empty env fuel s.trace = true) := by
  intro fuel
  induction fuel with
  | zero =>
    intro s b
    unfold get_next_internal_loop
    cases hd : s.done <;> simp [consecutive_empty]
  | succ n ih =>
    intro s b
    unfold get_next_internal_loop
    cases hd : s.done
    · simp only [Bool.false_eq_true, if_false, true_and]
      cases hok : (env.plan_get_next s.trace).status.ok
      · simp [consecutive_empty, hok]
      · by_cases hrows : 0 < (env.plan_get_next s.trace).rows
        · have hne : (env.plan_get_next s.trace).rows ≠ 0 := by omega
          simp [consecutive_empty, hok, hrows, hne]
        · have hz : (env.plan_get_next s.trace).rows = 0 := by omega
          simp only [Bool.not_true, Bool.false_eq_true, if_false, hrows]
          rw [ih]
          simp [consecutive_empty, hok, hz]
    · simp

/-- What `get_next` adds after `get_next_internal`: status bookkeeping and reports. -/
theorem get_next_tail (env : Collab) (fuel : Nat) (s s1 : PlanFragmentExecutor)
    (st : Status) (b : Option Nat) (h : s.get_next env fuel = some (s1, st, b)) :
    ∃ (sa : PlanFragmentExecutor) (bk : List Event),
      get_next_internal env fuel s none = some (sa, st, b) ∧
      s1.trace = sa.trace ++ bk ∧ (∀ e ∈ bk, e.is_bookkeeping = true) ∧
      s1.done = sa.done := by
  unfold get_next at h
  split at h
  · simp at h
  · rename_i sa sta ba hint
    simp only [Option.some.injEq, Prod.mk.injEq] at h
    obtain ⟨rfl, rfl, rfl⟩ := h
    obtain ⟨hd, -, -⟩ := update_status_fields sa sta
    have hus : ∃ bk1 : List Event, (sa.update_status sta).trace = sa.trace ++ bk1 ∧
        ∀ e ∈ bk1, e.is_bookkeeping = true := by
      cases hst : sta.ok
      · obtain ⟨bk1, h1, h2, -⟩ := update_status_shape sa sta hst
        exact ⟨bk1, h1, h2⟩
      · exact ⟨[], by simp [update_status, hst], by simp⟩
    obtain ⟨bk1, hbk1, hall1⟩ := hus
    by_cases hx : (sa.update_status sta).done = true
    · rw [if_pos hx]
      obtain ⟨bk2, hbk2, hall2, -, -, hdn, -⟩ := finish_shape (sa.update_status sta)
      refine ⟨sa, bk1 ++ bk2, hint, by rw [hbk2, hbk1, List.append_assoc], ?_, by rw [hdn, hd]⟩
      intro e he
      rcases List.mem_append.mp he with he | he
      · exact hall1 e he
      · exact hall2 e he
    · rw [if_neg hx]
      exact ⟨sa, bk1, hint, hbk1, hall1, hd⟩

/-- The function `get_next` runs out of fuel exactly when `_done` is false and the plan
answers `fuel` calls in a row with an empty batch, OK and no eos. -/
theorem get_next_none (env : Collab) (fuel : Nat) (s : PlanFragmentExecutor) :
    s.get_next env fuel = none ↔
      (s.done = false ∧ consecutive_empty env fuel s.trace = true) := by
  have h1 : s.get_next env fuel = none ↔ get_next_internal env fuel s none = none := by
    unfold get_next
    cases get_next_internal env fuel s none with
    | none => simp
    | some x => simp
  rw [h1]
  unfold get_next_internal
  cases hd : s.done
  · simp only [Bool.false_eq_true, if_false, true_and]
    rw [get_next_internal_loop_none, hd]
    simp
  · simp

/-- Once `_done` is set, `get_next` returns a null batch and OK without calling the
plan. -/
theorem get_next_done (env : Collab) (fuel : Nat) (s : PlanFragmentExecutor)
    (hd : s.done = true) :
    ∃ s1 : PlanFragmentExecutor, s.get_next env fuel = some (s1, Status.OK, none) ∧
      s1.done = true ∧
      s1.trace.filter Event.is_plan_get_next = s.trace.filter Event.is_plan_get_next := by
  have hOK : Status.OK.ok = true := rfl
  have hopen : s.get_next env fuel =
      some ((s.stop_report_thread).send_report true, Status.OK, none) := by
    simp [get_next, get_next_internal, hd, update_status, hOK]
  obtain ⟨bk, hbk, hall, -, -, hdn, -⟩ := finish_shape s
  refine ⟨_, hopen, by rw [hdn]; exact hd, ?_⟩
  rw [hbk, List.filter_append,
    filter_nil_of_all_false (fun e he => (bookkeeping_kinds (hall e he)).2.2.2.1),
    List.append_nil]

/-! ## The flag `_prepared` -/

theorem prepared_of_drive_core {s s1 : PlanFragmentExecutor}
    (h : s1.drive_core = s.drive_core) : s1.prepared = s.prepared := by
  have h1 := congrArg PlanFragmentExecutor.prepared h
  exact h1

theorem stop_report_thread_prepared (s : PlanFragmentExecutor) :
    s.stop_report_thread.prepared = s.prepared := by
  rw [stop_report_thread_eq]

theorem send_report_prepared (s : PlanFragmentExecutor) (done : Bool) :
    (s.send_report done).prepared = s.prepared := by
  rw [send_report_eq]

theorem update_status_prepared (s : PlanFragmentExecutor) (new_status : Status) :
    (s.update_status new_status).prepared = s.prepared := by
  cases hn : new_status.ok
  · rw [update_status_eq s new_status hn]
  · simp [update_status, hn]

/-- The internal open functions never write `_prepared`. -/
theorem openSpec_prepared {env : Collab} {s s1 : PlanFragmentExecutor} {st : Status}
    (h : OpenSpec env s s1 st) : s1.prepared = s.prepared := by
  obtain ⟨pre, -, -, h⟩ := h
  rcases h with ⟨-, -, -, hc, -⟩ | ⟨-, ⟨-, -, -, hc, -⟩ | ⟨-, ret, sc, -, hc, -, h⟩⟩
  · exact prepared_of_drive_core hc
  · exact prepared_of_drive_core hc
  · rcases h with ⟨-, -, rfl⟩ | ⟨-, -, rfl⟩
    · exact prepared_of_drive_core hc
    · rw [send_report_prepared, stop_report_thread_prepared]
      show sc.prepared = s.prepared
      exact prepared_of_drive_core hc

theorem open_prepared (env : Collab) (fuel : Nat) (s s1 : PlanFragmentExecutor) (st : Status)
    (h : s.open env fuel = some (s1, st)) : s1.prepared = s.prepared := by
  obtain ⟨sa, sb, sc, st0, hsa, -, hspec, hsc, -, rfl⟩ := open_wrap env fuel s s1 st h
  have h1 : sa.prepared = s.prepared := by
    rw [hsa]
    split <;> rfl
  have h2 : sc.prepared = sb.prepared := by
    rw [hsc]
    split <;> rfl
  rw [update_status_prepared, h2, openSpec_prepared hspec, h1]

theorem get_next_prepared (env : Collab) (fuel : Nat) (s s1 : PlanFragmentExecutor)
    (st : Status) (b : Option Nat) (h : s.get_next env fuel = some (s1, st, b)) :
    s1.prepared = s.prepared := by
  unfold get_next at h
  split at h
  · simp at h
  · rename_i sa sta ba hint
    simp only [Option.some.injEq, Prod.mk.injEq] at h
    obtain ⟨rfl, rfl, -⟩ := h
    have h1 : sa.prepared = s.prepared :=
      prepared_of_drive_core (get_next_internal_spec env _ _ _ _ _ _ hint).1
    split
    · rw [send_report_prepared, stop_report_thread_prepared, update_status_prepared, h1]
    · rw [update_status_prepared, h1]

theorem cancel_prepared (s : PlanFragmentExecutor) (reason : PPlanFragmentCancelReason)
    (msg : String) : (s.cancel reason msg).prepared = s.prepared := by
  unfold cancel
  simp only
  split <;> rfl

theorem close_prepared (env : Collab) (s : PlanFragmentExecutor) :
    (s.close env).prepared = s.prepared := by
  unfold close
  split
  · rfl
  · simp only
    split
    · rfl
    · split <;> split <;> (try split) <;> (try split) <;> rfl

/-- One operation on a constructed executor never writes `_prepared`. -/
theorem step_prepared (env : Collab) (fuel : Nat) (s s1 : PlanFragmentExecutor)
    (op : Op) (h : s.step env fuel op = some s1) : s1.prepared = s.prepared := by
  rcases op with st | _ | _ | _ | ⟨reason, msg⟩ | done | _
  · simp only [step, Option.some.injEq] at h
    subst h
    exact update_status_prepared _ _
  · simp only [step, Option.some.injEq] at h
    subst h
    rw [set_abort, update_status_prepared]
  · simp only [step, Option.map_eq_some', Prod.exists, exists_and_right, exists_eq_right] at h
    obtain ⟨st, h⟩ := h
    exact open_prepared env fuel s s1 st h
  · simp only [step, Option.map_eq_some', Prod.exists, exists_and_right, exists_eq_right] at h
    obtain ⟨st, b, h⟩ := h
    exact get_next_prepared env fuel s s1 st b h
  · simp only [step, Option.some.injEq] at h
    subst h
    exact cancel_prepared _ _ _
  · simp only [step, Option.some.injEq] at h
    subst h
    exact send_report_prepared _ _
  · simp only [step, Option.some.injEq] at h
    subst h
    exact close_prepared _ _

theorem run_prepared (env : Collab) (fuel : Nat) :
    ∀ (ops : List Op) (s s1 : PlanFragmentExecutor), s.run env fuel ops = some s1 →
      s1.prepared = s.prepared := by
  intro ops
  induction ops with
  | nil =>
    intro s s1 h
    simp only [run, Option.some.injEq] at h
    rw [h]
  | cons op ops ih =>
    intro s s1 h
    unfold run at h
    split at h
    · simp at h
    · rename_i sa hstep
      rw [ih sa s1 h, step_prepared env fuel s sa op hstep]

theorem set_exchange_senders_prepared (request : TExecPlanFragmentParams) :
    ∀ (ids : List Nat) (s : PlanFragmentExecutor),
      (set_exchange_senders request ids s).prepared = s.prepared := by
  intro ids
  induction ids with
  | nil => intro s; rfl
  | cons id ids ih =>
    intro s
    rw [set_exchange_senders, ih]
    rfl

theorem set_node_scan_ranges_prepared (request : TExecPlanFragmentParams) :
    ∀ (ids : List Nat) (s : PlanFragmentExecutor),
      (set_node_scan_ranges request ids s).prepared = s.prepared := by
  intro ids
  induction ids with
  | nil => intro s; rfl
  | cons id ids ih =>
    intro s
    rw [set_node_scan_ranges, ih]
    rfl

theorem ok_OK : Status.OK.ok = true := by decide

/-- The end of `prepare` sets `_prepared` exactly when it returns OK, and otherwise
leaves it as it was. -/
theorem prepare_sink_prepared (penv : PrepareCollab) (request : TExecPlanFragmentParams)
    (s : PlanFragmentExecutor) :
    (prepare_sink penv request s).1.prepared =
      (if (prepare_sink penv request s).2.ok then true else s.prepared) := by
  unfold prepare_sink
  cases ho : request.output_sink
  · simp [ok_OK]
  · cases h1 : penv.create_data_sink.ok
    · simp [h1, emit]
    · cases h2 : (penv.sink_prepare
          (({ s with sink := true }).emit (Event.create_data_sink penv.create_data_sink)).trace).ok
      · simp [h1, h2, emit] at h2 ⊢
      · simp [h1, h2, emit, ok_OK] at h2 ⊢

theorem prepare_plan_prepared (penv : PrepareCollab) (request : TExecPlanFragmentParams)
    (s : PlanFragmentExecutor) :
    (prepare_plan penv request s).1.prepared =
      (if (prepare_plan penv request s).2.ok then true else s.prepared) := by
  unfold prepare_plan
  cases h1 : penv.create_tree.ok
  · simp [h1, emit]
  · simp only [h1, Bool.not_true, Bool.false_eq_true, if_false, if_true, eq_self]
    split
    · rename_i h2
      simp only [Bool.not_eq_true'] at h2
      simp only [h2, Bool.false_eq_true, if_false]
      show (set_exchange_senders request request.exchange_node_ids _).prepared = s.prepared
      rw [set_exchange_senders_prepared]
      rfl
    · rw [prepare_sink_prepared, set_node_scan_ranges_prepared]
      show (if _ then true else
        (set_exchange_senders request request.exchange_node_ids _).prepared) = _
      rw [set_exchange_senders_prepared]
      rfl

/-- The function `prepare` sets `_prepared` exactly when it returns OK, and otherwise
leaves it as it was: every failing step returns before the assignment. -/
theorem prepare_prepared (penv : PrepareCollab) (request : TExecPlanFragmentParams)
    (fragments_ctx : Bool) (s : PlanFragmentExecutor) :
    (s.prepare penv request fragments_ctx).1.prepared =
      (if (s.prepare penv request fragments_ctx).2.ok then true else s.prepared) := by
  unfold prepare
  cases h1 : penv.init_mem_trackers.ok
  · simp [h1, emit]
  · cases h2 : penv.create_block_mgr.ok
    · simp only [h1, h2, Bool.not_true, Bool.not_false, Bool.false_eq_true, if_false, if_true]
      cases request.backend_id <;> cases request.is_report_success <;> rfl
    · simp only [h1, h2, Bool.not_true, Bool.false_eq_true, if_false]
      cases fragments_ctx
      · cases h3 : penv.create_desc_tbl.ok
        · simp only [h3, Bool.not_false, Bool.false_eq_true, if_false, if_true]
          cases request.backend_id <;> cases request.is_report_success <;> rfl
        · simp only [h3, Bool.not_true, Bool.false_eq_true, if_false]
          rw [prepare_plan_prepared]
          cases request.backend_id <;> cases request.is_report_success <;> rfl
      · simp only [if_true]
        rw [prepare_plan_prepared]
        cases request.backend_id <;> cases request.is_report_success <;> rfl

/-! ## The row-based and the vectorized drive path -/

theorem get_vectorized_internal_loop_eq (env : Collab) :
    ∀ (fuel : Nat) (s : PlanFragmentExecutor) (b : Option Nat),
      get_vectorized_internal_loop env fuel s b = get_next_internal_loop env fuel s b := by
  intro fuel
  induction fuel with
  | zero =>
    intro s b
    rw [get_vectorized_internal_loop, get_next_internal_loop]
  | succ n ih =>
    intro s b
    rw [get_vectorized_internal_loop, get_next_internal_loop]
    simp only [ih]

theorem get_vectorized_internal_eq (env : Collab) (fuel : Nat) (s : PlanFragmentExecutor)
    (b : Option Nat) :
    get_vectorized_internal env fuel s b = get_next_internal env fuel s b := by
  unfold get_vectorized_internal get_next_internal
  rw [get_vectorized_internal_loop_eq]

/-- The value of the caller's `batch` variable before `get_next_internal` matters only
when the call fails: two calls that differ in it end in the same state with the same
status, and with the same batch when the status is OK. -/
theorem get_next_internal_batch_irrelevant (env : Collab) (fuel : Nat)
    (s : PlanFragmentExecutor) (b b2 : Option Nat) :
    (get_next_internal env fuel s b = none ∧ get_next_internal env fuel s b2 = none) ∨
    ∃ (s1 : PlanFragmentExecutor) (st : Status) (b1 b3 : Option Nat),
      get_next_internal env fuel s b = some (s1, st, b1) ∧
      get_next_internal env fuel s b2 = some (s1, st, b3) ∧ (st.ok = true → b1 = b3) := by
  unfold get_next_internal
  by_cases hd : s.done = true
  · rw [if_pos hd, if_pos hd]
    exact Or.inr ⟨s, Status.OK, none, none, rfl, rfl, fun _ => rfl⟩
  · rw [if_neg hd, if_neg hd]
    cases fuel with
    | zero =>
      rw [get_next_internal_loop, get_next_internal_loop, if_neg hd, if_neg hd]
      exact Or.inl ⟨rfl, rfl⟩
    | succ n =>
      rw [get_next_internal_loop, get_next_internal_loop, if_neg hd, if_neg hd]
      simp only
      by_cases hok : (env.plan_get_next s.trace).status.ok = true
      · simp only [hok, Bool.not_true, Bool.false_eq_true, if_false]
        by_cases hrows : 0 < (env.plan_get_next s.trace).rows
        · simp only [hrows, if_true]
          exact Or.inr ⟨_, _, _, _, rfl, rfl, fun _ => rfl⟩
        · simp only [hrows, if_false]
          cases hres : get_next_internal_loop env n
              (({ s with done := (env.plan_get_next s.trace).eos }).emit
                (Event.plan_get_next (env.plan_get_next s.trace).status
                  (env.plan_get_next s.trace).rows (env.plan_get_next s.trace).eos)) none with
          | none => exact Or.inl ⟨rfl, rfl⟩
          | some r =>
            obtain ⟨s1, st, b1⟩ := r
            exact Or.inr ⟨s1, st, b1, b1, rfl, rfl, fun _ => rfl⟩
      · have hok2 : (env.plan_get_next s.trace).status.ok = false := by
          simpa using hok
        simp only [hok2, Bool.not_false, if_true]
        refine Or.inr ⟨_, _, _, _, rfl, rfl, ?_⟩
        intro h
        rw [hok2] at h
        cases h

/-- The two drive loops are the same function: the row-based loop does not depend on
the value of its `batch` variable. -/
theorem open_vectorized_internal_loop_eq (env : Collab) (inner : Nat) :
    ∀ (fuel : Nat) (s : PlanFragmentExecutor) (b : Option Nat),
      open_vectorized_internal_loop env inner fuel s = open_internal_loop env inner fuel s b := by
  intro fuel
  induction fuel with
  | zero =>
    intro s b
    rw [open_vectorized_internal_loop, open_internal_loop]
  | succ n ih =>
    intro s b
    rw [open_vectorized_internal_loop, open_internal_loop, get_vectorized_internal_eq]
    rcases get_next_internal_batch_irrelevant env inner s none b with ⟨h1, h2⟩ |
      ⟨s1, st, b1, b3, h1, h2, hb⟩
    · rw [h1, h2]
    · rw [h1, h2]
      simp only
      by_cases hok : st.ok = true
      · have hbb := hb hok
        subst hbb
        simp only [hok, Bool.not_true, Bool.false_eq_true, if_false]
        cases b1 with
        | none => rfl
        | some rows =>
          simp only [fun x => ih x (some rows)]
      · have hok2 : st.ok = false := by simpa using hok
        simp only [hok2, Bool.not_false, if_true]

theorem without_end_send_span_append (a b : List Event) :
    without_end_send_span (a ++ b) = without_end_send_span a ++ without_end_send_span b := by
  simp [without_end_send_span, List.filter_append]

/-- A kind of event other than `end_send_span` is filtered alike from a trace and from
the trace without the `end_send_span` calls. -/
theorem filter_without_end_send_span (p : Event → Bool)
    (hp : ∀ e, p e = true → e.is_end_send_span = false) (tr : List Event) :
    (without_end_send_span tr).filter p = tr.filter p := by
  unfold without_end_send_span
  rw [List.filter_filter]
  apply List.filter_congr
  intro e _
  cases h : p e
  · simp
  · simp [hp e h]

/-- The two internal open functions agree up to the `end_send_span` call, which only the
vectorized one makes, when the result of closing the sink does not depend on that call
having been made. -/
theorem open_vectorized_internal_agrees (env : Collab) (fuel : Nat) (s : PlanFragmentExecutor)
    (henv : ∀ tr st, env.sink_close tr st = env.sink_close (without_end_send_span tr) st) :
    (s.open_vectorized_internal env fuel = none ∧ s.open_internal env fuel = none) ∨
    ∃ (sv sr : PlanFragmentExecutor) (st : Status),
      s.open_vectorized_internal env fuel = some (sv, st) ∧
      s.open_internal env fuel = some (sr, st) ∧
      sv.members = sr.members ∧
      without_end_send_span sv.trace = without_end_send_span sr.trace := by
  unfold open_vectorized_internal open_internal
  simp only
  by_cases hpo : (env.plan_open s.trace).ok = true
  swap
  · have hpo2 : (env.plan_open s.trace).ok = false := by simpa using hpo
    simp only [hpo2, Bool.not_false, if_true]
    exact Or.inr ⟨_, _, _, rfl, rfl, rfl, rfl⟩
  simp only [hpo, Bool.not_true, Bool.false_eq_true, if_false]
  by_cases hsk : (s.emit (Event.plan_open (env.plan_open s.trace))).sink = true
  swap
  · have hsk2 : (s.emit (Event.plan_open (env.plan_open s.trace))).sink = false := by
      simpa using hsk
    simp only [hsk2, Bool.not_false, if_true]
    exact Or.inr ⟨_, _, _, rfl, rfl, rfl, rfl⟩
  simp only [hsk, Bool.not_true, Bool.false_eq_true, if_false]
  by_cases hso : (env.sink_open (s.emit (Event.plan_open (env.plan_open s.trace))).trace).ok
      = true
  swap
  · have hso2 : (env.sink_open (s.emit (Event.plan_open (env.plan_open s.trace))).trace).ok
        = false := by simpa using hso
    simp only [hso2, Bool.not_false, if_true]
    exact Or.inr ⟨_, _, _, rfl, rfl, rfl, rfl⟩
  simp only [hso, Bool.not_true, Bool.false_eq_true, if_false]
  rw [open_vectorized_internal_loop_eq env fuel fuel _ none]
  cases hloop : open_internal_loop env fuel fuel
      ((s.emit (Event.plan_open (env.plan_open s.trace))).emit
        (Event.sink_open
          (env.sink_open (s.emit (Event.plan_open (env.plan_open s.trace))).trace))) none with
  | none => exact Or.inl ⟨rfl, rfl⟩
  | some r =>
    obtain ⟨s3, res⟩ := r
    cases res with
    | some st =>
      refine Or.inr ⟨_, _, _, rfl, rfl, rfl, ?_⟩
      simp [without_end_send_span, List.filter_append, Event.is_end_send_span]
    | none =>
      simp only
      have hret : env.sink_close ((s3.emit Event.end_send_span).collect_query_statistics).trace
          s3.status = env.sink_close (s3.collect_query_statistics).trace s3.status := by
        rw [henv, henv (s3.collect_query_statistics).trace]
        congr 1
        simp [without_end_send_span, List.filter_append, Event.is_end_send_span,
          collect_query_statistics]
      have hst : ((s3.emit Event.end_send_span).collect_query_statistics).status = s3.status :=
        rfl
      have hst2 : (s3.collect_query_statistics).status = s3.status := rfl
      rw [hst, hst2, hret]
      by_cases hcl : (env.sink_close (s3.collect_query_statistics).trace s3.status).ok = true
      · simp only [hcl, Bool.not_true, Bool.false_eq_true, if_false]
        refine Or.inr ⟨_, _, _, rfl, rfl, ?_, ?_⟩
        · rw [send_report_eq, stop_report_thread_eq, send_report_eq, stop_report_thread_eq]
          rfl
        · rw [send_report_eq, stop_report_thread_eq, send_report_eq, stop_report_thread_eq]
          simp [without_end_send_span, List.filter_append, Event.is_end_send_span,
            collect_query_statistics]
          rfl
      · have hcl2 : (env.sink_close (s3.collect_query_statistics).trace s3.status).ok
            = false := by simpa using hcl
        simp only [hcl2, Bool.not_false, if_true]
        refine Or.inr ⟨_, _, _, rfl, rfl, rfl, ?_⟩
        simp [without_end_send_span, List.filter_append, Event.is_end_send_span,
          collect_query_statistics]

/-! ## Accounting of rows and of reporter events -/

theorem rows_pulled_append (a b : List Event) :
    rows_pulled (a ++ b) = rows_pulled a + rows_pulled b := by
  simp [rows_pulled]

theorem rows_sent_append (a b : List Event) :
    rows_sent (a ++ b) = rows_sent a + rows_sent b := by
  simp [rows_sent]

theorem account_refl (q : Event → Bool) (s : PlanFragmentExecutor) : Account q 0 s s :=
  ⟨[], by simp, by simp [rows_pulled], by simp [rows_pulled, rows_sent], by simp⟩

theorem account_trans {q : Event → Bool} {h1 h2 : Nat} {s s1 s2 : PlanFragmentExecutor}
    (a : Account q h1 s s1) (b : Account q h2 s1 s2) : Account q (h1 + h2) s s2 := by
  obtain ⟨n1, t1, r1, p1, q1⟩ := a
  obtain ⟨n2, t2, r2, p2, q2⟩ := b
  refine ⟨n1 ++ n2, by rw [t2, t1, List.append_assoc], ?_, ?_, ?_⟩
  · rw [r2, r1, rows_pulled_append, Nat.add_assoc]
  · rw [rows_pulled_append, rows_sent_append, p1, p2]
    omega
  · intro e he
    rcases List.mem_append.mp he with he | he
    · exact q1 e he
    · exact q2 e he

/-- New calls that neither pull nor send rows and are of the kind `q`. -/
theorem account_of_silent (q : Event → Bool) (s s1 : PlanFragmentExecutor) (new : List Event)
    (htr : s1.trace = s.trace ++ new) (hrp : s1.rows_produced = s.rows_produced)
    (hnew : ∀ e ∈ new, e.pulled_rows = 0 ∧ e.sent_rows = 0 ∧ q e = true) :
    Account q 0 s s1 := by
  have hp : rows_pulled new = 0 := by
    unfold rows_pulled
    apply List.sum_eq_zero
    intro x hx
    obtain ⟨e, he, rfl⟩ := List.mem_map.mp hx
    exact (hnew e he).1
  have hs : rows_sent new = 0 := by
    unfold rows_sent
    apply List.sum_eq_zero
    intro x hx
    obtain ⟨e, he, rfl⟩ := List.mem_map.mp hx
    exact (hnew e he).2.1
  exact ⟨new, htr, by rw [hp, hrp, Nat.add_zero], by rw [hp, hs], fun e he => (hnew e he).2.2⟩

theorem account_emit (q : Event → Bool) (s : PlanFragmentExecutor) (e : Event)
    (he : e.pulled_rows = 0 ∧ e.sent_rows = 0 ∧ q e = true) : Account q 0 s (s.emit e) := by
  refine account_of_silent q s _ [e] rfl rfl ?_
  intro x hx
  rw [List.mem_singleton] at hx
  subst hx
  exact he

theorem account_stop_report_thread (q : Event → Bool)
    (hq : ∀ e, e.is_reporter_event = false → q e = true) (s : PlanFragmentExecutor) :
    Account q 0 s s.stop_report_thread := by
  rw [stop_report_thread_eq]
  refine account_of_silent q s _ _ rfl rfl ?_
  intro e he
  split at he
  · rw [List.mem_singleton] at he
    subst he
    exact ⟨rfl, rfl, hq _ rfl⟩
  · cases he

/-- The events of `send_report(done)`: for `done = true`, and for any `done` when `q`
admits non-final reports. -/
theorem account_send_report (q : Event → Bool)
    (hq : ∀ e, e.is_reporter_event = false → q e = true) (s : PlanFragmentExecutor)
    (done : Bool)
    (hdone : done = false → ∀ st pr, q (Event.report_status_cb st pr false) = true) :
    Account q 0 s (s.send_report done) := by
  rw [send_report_eq]
  refine account_of_silent q s _ _ rfl rfl ?_
  intro e he
  split at he
  · rw [List.mem_singleton] at he
    subst he
    refine ⟨rfl, rfl, ?_⟩
    cases hd : (done || !s.status.ok)
    · have hd2 : done = false := by
        cases done
        · rfl
        · simp at hd
      exact hdone hd2 _ _
    · exact hq _ rfl
  · cases he

theorem account_update_status (q : Event → Bool)
    (hq : ∀ e, e.is_reporter_event = false → q e = true) (s : PlanFragmentExecutor)
    (st : Status) : Account q 0 s (s.update_status st) := by
  cases hst : st.ok
  · rw [update_status_eq s st hst]
    refine account_of_silent q s _ _ rfl rfl ?_
    intro e he
    simp only [List.mem_append] at he
    rcases he with ((he | he) | he) | he <;> split at he <;>
      simp at he <;> subst he <;> exact ⟨rfl, rfl, hq _ rfl⟩
  · have h : s.update_status st = s := by simp [update_status, hst]
    rw [h]
    exact account_refl q s

theorem account_cancel (q : Event → Bool)
    (hq : ∀ e, e.is_reporter_event = false → q e = true) (s : PlanFragmentExecutor)
    (reason : PPlanFragmentCancelReason) (msg : String) :
    Account q 0 s (s.cancel reason msg) := by
  rw [cancel_eq]
  refine account_of_silent q s _ _ rfl rfl ?_
  intro e he
  split at he <;> simp at he
  · subst he
    exact ⟨rfl, rfl, hq _ rfl⟩
  · rcases he with rfl | rfl <;> exact ⟨rfl, rfl, hq _ rfl⟩

theorem account_close (q : Event → Bool)
    (hq : ∀ e, e.is_reporter_event = false → q e = true) (env : Collab)
    (s : PlanFragmentExecutor) : Account q 0 s (s.close env) := by
  by_cases hc : s.closed = true
  · have h : s.close env = s := by simp [close, hc]
    rw [h]
    exact account_refl q s
  · have hc2 : s.closed = false := by simpa using hc
    cases hr : s.runtime_state with
    | none =>
      refine account_of_silent q s _ [] ?_ ?_ (by simp)
      · simp [close, hc2, hr]
      · simp [close, hc2, hr]
    | some r =>
      rw [close_eq env s r hc2 hr]
      refine account_of_silent q s _ _ rfl rfl ?_
      intro e he
      simp only [List.mem_append] at he
      rcases he with (he | he) | he <;> split at he <;>
        simp at he <;> subst he <;> exact ⟨rfl, rfl, hq _ rfl⟩

/-- A failing `get_next_internal` leaves the caller's `batch` variable as it was. -/
theorem get_next_internal_loop_failed_batch (env : Collab) :
    ∀ (fuel : Nat) (s : PlanFragmentExecutor) (b : Option Nat) (s1 : PlanFragmentExecutor)
      (st : Status) (b1 : Option Nat),
      get_next_internal_loop env fuel s b = some (s1, st, b1) → st.ok = false →
        b = none → b1 = none := by
  intro fuel
  induction fuel with
  | zero =>
    intro s b s1 st b1 h hst _
    rw [get_next_internal_loop] at h
    split at h
    · simp only [Option.some.injEq, Prod.mk.injEq] at h
      obtain ⟨-, rfl, -⟩ := h
      cases hst
    · simp at h
  | succ n ih =>
    intro s b s1 st b1 h hst hb
    rw [get_next_internal_loop] at h
    split at h
    · simp only [Option.some.injEq, Prod.mk.injEq] at h
      obtain ⟨-, rfl, -⟩ := h
      cases hst
    · simp only at h
      split at h
      · simp only [Option.some.injEq, Prod.mk.injEq] at h
        obtain ⟨-, -, rfl⟩ := h
        exact hb
      · split at h
        · simp only [Option.some.injEq, Prod.mk.injEq] at h
          obtain ⟨-, rfl, -⟩ := h
          cases hst
        · exact ih _ _ _ _ _ h hst rfl

/-- One `get_next_internal`: the counter grows by the rows of the batch produced, which
is the batch handed back when the call returns OK. -/
theorem account_get_next_internal (q : Event → Bool)
    (hq : ∀ e, e.is_reporter_event = false → q e = true) (env : Collab) (fuel : Nat)
    (s : PlanFragmentExecutor) (b : Option Nat) (s1 : PlanFragmentExecutor) (st : Status)
    (b1 : Option Nat) (h : get_next_internal env fuel s b = some (s1, st, b1)) :
    Account q (if st.ok then b1.getD 0 else 0) s s1 := by
  rcases get_next_internal_detail env fuel s b s1 st b1 h with
    ⟨-, rfl, rfl, rfl⟩ | ⟨-, skipped, r, rows, eos, htr, -, hsk, -, hcases⟩
  · exact account_refl q s1
  · have hskp : rows_pulled skipped = 0 := by
      unfold rows_pulled
      apply List.sum_eq_zero
      intro x hx
      obtain ⟨e, he, rfl⟩ := List.mem_map.mp hx
      obtain ⟨r0, -, rfl⟩ := hsk e he
      simp [Event.pulled_rows]
    have hsks : rows_sent (skipped ++ [Event.plan_get_next r rows eos]) = 0 := by
      unfold rows_sent
      apply List.sum_eq_zero
      intro x hx
      obtain ⟨e, he, rfl⟩ := List.mem_map.mp hx
      rcases List.mem_append.mp he with he | he
      · obtain ⟨r0, -, rfl⟩ := hsk e he
        rfl
      · rw [List.mem_singleton] at he
        subst he
        rfl
    have hqs : ∀ e ∈ skipped ++ [Event.plan_get_next r rows eos], q e = true := by
      intro e he
      rcases List.mem_append.mp he with he | he
      · obtain ⟨r0, -, rfl⟩ := hsk e he
        exact hq _ rfl
      · rw [List.mem_singleton] at he
        subst he
        exact hq _ rfl
    have hp : rows_pulled (skipped ++ [Event.plan_get_next r rows eos]) =
        if r.ok then rows else 0 := by
      rw [rows_pulled_append, hskp]
      simp [rows_pulled, Event.pulled_rows]
    refine ⟨skipped ++ [Event.plan_get_next r rows eos], by rw [htr, List.append_assoc],
      ?_, ?_, hqs⟩
    · rw [hp]
      rcases hcases with ⟨hr, -, hrp⟩ | ⟨hr, -, -, -, hrp⟩ | ⟨hr, hz, -, -, -, hrp⟩
      · rw [hrp]; simp [hr]
      · rw [hrp]; simp [hr]
      · rw [hrp]; simp [hr, hz]
    · rw [hp, hsks]
      rcases hcases with ⟨hr, hst, -⟩ | ⟨hr, -, hst, hb, -⟩ | ⟨hr, hz, -, hst, hb, -⟩
      · subst hst
        simp [hr]
      · subst hst hb
        simp [hr, ok_OK]
      · subst hst hb
        simp [hr, hz]

/-- The rows pulled and not yet sent are sent by the next `_sink->send`. -/
theorem account_send {q : Event → Bool} {rows : Nat} {s s2 : PlanFragmentExecutor}
    (hq : ∀ e, e.is_reporter_event = false → q e = true)
    (a : Account q rows s s2) (ret : Status) :
    Account q 0 s (s2.emit (Event.sink_send rows ret)) := by
  obtain ⟨new, htr, hrp, hp, hqn⟩ := a
  refine ⟨new ++ [Event.sink_send rows ret], ?_, ?_, ?_, ?_⟩
  · rw [emit_trace, htr, List.append_assoc]
  · show s2.rows_produced = _
    rw [hrp, rows_pulled_append]
    simp [rows_pulled, Event.pulled_rows]
  · rw [rows_pulled_append, rows_sent_append, hp]
    simp [rows_pulled, rows_sent, Event.pulled_rows, Event.sent_rows]
  · intro e he
    rcases List.mem_append.mp he with he | he
    · exact hqn e he
    · rw [List.mem_singleton] at he
      subst he
      exact hq _ rfl

/-- The drive loop: every batch pulled is sent. -/
theorem account_open_internal_loop (q : Event → Bool)
    (hq : ∀ e, e.is_reporter_event = false → q e = true) (env : Collab) (inner : Nat) :
    ∀ (fuel : Nat) (s : PlanFragmentExecutor) (b : Option Nat) (s1 : PlanFragmentExecutor)
      (res : Option Status), open_internal_loop env inner fuel s b = some (s1, res) →
      Account q 0 s s1 := by
  intro fuel
  induction fuel with
  | zero =>
    intro s b s1 res h
    simp [open_internal_loop] at h
  | succ n ih =>
    intro s b s1 res h
    rw [open_internal_loop] at h
    split at h
    · simp at h
    · rename_i sa st b1 hint
      have ha := account_get_next_internal q hq env inner s b sa st b1 hint
      split at h
      · rename_i hbad
        simp only [Option.some.injEq, Prod.mk.injEq] at h
        obtain ⟨rfl, -⟩ := h
        have hst : st.ok = false := by simpa using hbad
        rw [hst] at ha
        exact ha
      · rename_i hgood
        have hst : st.ok = true := by simpa using hgood
        rw [hst, if_pos rfl] at ha
        split at h
        · simp only [Option.some.injEq, Prod.mk.injEq] at h
          obtain ⟨rfl, -⟩ := h
          exact ha
        · rename_i rows
          obtain ⟨s2, hs2, ha2⟩ : ∃ s2 : PlanFragmentExecutor,
              s2 = (if sa.collect_query_statistics_with_every_batch then
                sa.collect_query_statistics else sa) ∧ Account q rows s s2 := by
            refine ⟨_, rfl, ?_⟩
            split
            · have := account_trans ha
                (account_emit q sa Event.collect_query_statistics ⟨rfl, rfl, hq _ rfl⟩)
              simpa using this
            · exact ha
          have ha3 := account_send hq ha2 (env.sink_send s2.trace rows)
          simp only at h
          rw [← hs2] at h
          split at h
          · simp only [Option.some.injEq, Prod.mk.injEq] at h
            obtain ⟨rfl, -⟩ := h
            exact ha3
          · split at h
            · simp only [Option.some.injEq, Prod.mk.injEq] at h
              obtain ⟨rfl, -⟩ := h
              exact ha3
            · have := account_trans ha3 (ih _ _ _ _ h)
              simpa using this

/-- The end of the internal open functions: the statistics refresh, the closing of the
sink and, when that succeeds, the terminal actions. -/
theorem account_close_sink (q : Event → Bool)
    (hq : ∀ e, e.is_reporter_event = false → q e = true) (x : PlanFragmentExecutor)
    (st ret : Status) :
    Account q 0 x ((x.collect_query_statistics).emit (Event.sink_close st ret)) ∧
    Account q 0 x
      ((({ (x.collect_query_statistics).emit (Event.sink_close st ret) with
          sink := false, done := true }).stop_report_thread).send_report true) := by
  have h1 : Account q 0 x ((x.collect_query_statistics).emit (Event.sink_close st ret)) := by
    have := account_trans
      (account_emit q x Event.collect_query_statistics ⟨rfl, rfl, hq _ rfl⟩)
      (account_emit q (x.collect_query_statistics) (Event.sink_close st ret)
        ⟨rfl, rfl, hq _ rfl⟩)
    simpa using this
  refine ⟨h1, ?_⟩
  have h2 : Account q 0 ((x.collect_query_statistics).emit (Event.sink_close st ret))
      { (x.collect_query_statistics).emit (Event.sink_close st ret) with
        sink := false, done := true } :=
    account_of_silent q _ _ [] (by simp) rfl (by simp)
  have h3 := account_trans (account_trans (account_trans h1 h2)
    (account_stop_report_thread q hq _)) (account_send_report q hq _ true (by simp))
  simpa using h3

theorem account_open_internal (q : Event → Bool)
    (hq : ∀ e, e.is_reporter_event = false → q e = true) (env : Collab) (fuel : Nat)
    (s s1 : PlanFragmentExecutor) (st : Status)
    (h : s.open_internal env fuel = some (s1, st)) : Account q 0 s s1 := by
  unfold open_internal at h
  simp only at h
  have h0 := account_emit q s (Event.plan_open (env.plan_open s.trace)) ⟨rfl, rfl, hq _ rfl⟩
  split at h
  · simp only [Option.some.injEq, Prod.mk.injEq] at h
    obtain ⟨rfl, -⟩ := h
    exact h0
  · split at h
    · simp only [Option.some.injEq, Prod.mk.injEq] at h
      obtain ⟨rfl, -⟩ := h
      exact h0
    · have h1 := account_trans h0 (account_emit q
        (s.emit (Event.plan_open (env.plan_open s.trace)))
        (Event.sink_open (env.sink_open (s.emit (Event.plan_open (env.plan_open s.trace))).trace))
        ⟨rfl, rfl, hq _ rfl⟩)
      split at h
      · simp only [Option.some.injEq, Prod.mk.injEq] at h
        obtain ⟨rfl, -⟩ := h
        simpa using h1
      · split at h
        · simp at h
        · rename_i s3 st3 hloop
          simp only [Option.some.injEq, Prod.mk.injEq] at h
          obtain ⟨rfl, -⟩ := h
          have := account_trans h1 (account_open_internal_loop q hq env fuel fuel _ _ _ _ hloop)
          simpa using this
        · rename_i s3 hloop
          have h2 := account_trans h1
            (account_open_internal_loop q hq env fuel fuel _ _ _ _ hloop)
          split at h
          · simp only [Option.some.injEq, Prod.mk.injEq] at h
            obtain ⟨rfl, -⟩ := h
            have := account_trans h2 (account_close_sink q hq s3
              (s3.collect_query_statistics).status
              (env.sink_close (s3.collect_query_statistics).trace
                (s3.collect_query_statistics).status)).1
            simpa using this
          · simp only [Option.some.injEq, Prod.mk.injEq] at h
            obtain ⟨rfl, -⟩ := h
            have := account_trans h2 (account_close_sink q hq s3
              (s3.collect_query_statistics).status
              (env.sink_close (s3.collect_query_statistics).trace
                (s3.collect_query_statistics).status)).2
            simpa using this

theorem account_open_vectorized_internal (q : Event → Bool)
    (hq : ∀ e, e.is_reporter_event = false → q e = true) (env : Collab) (fuel : Nat)
    (s s1 : PlanFragmentExecutor) (st : Status)
    (h : s.open_vectorized_internal env fuel = some (s1, st)) : Account q 0 s s1 := by
  unfold open_vectorized_internal at h
  simp only at h
  have h0 := account_emit q s (Event.plan_open (env.plan_open s.trace)) ⟨rfl, rfl, hq _ rfl⟩
  split at h
  · simp only [Option.some.injEq, Prod.mk.injEq] at h
    obtain ⟨rfl, -⟩ := h
    exact h0
  · split at h
    · simp only [Option.some.injEq, Prod.mk.injEq] at h
      obtain ⟨rfl, -⟩ := h
      exact h0
    · have h1 := account_trans h0 (account_emit q
        (s.emit (Event.plan_open (env.plan_open s.trace)))
        (Event.sink_open (env.sink_open (s.emit (Event.plan_open (env.plan_open s.trace))).trace))
        ⟨rfl, rfl, hq _ rfl⟩)
      split at h
      · simp only [Option.some.injEq, Prod.mk.injEq] at h
        obtain ⟨rfl, -⟩ := h
        simpa using h1
      · rw [open_vectorized_internal_loop_eq env fuel fuel _ none] at h
        split at h
        · simp at h
        · rename_i s3 st3 hloop
          simp only [Option.some.injEq, Prod.mk.injEq] at h
          obtain ⟨rfl, -⟩ := h
          have := account_trans (account_trans h1
            (account_open_internal_loop q hq env fuel fuel _ _ _ _ hloop))
            (account_emit q s3 Event.end_send_span ⟨rfl, rfl, hq _ rfl⟩)
          simpa using this
        · rename_i s3 hloop
          have h2 := account_trans (account_trans h1
            (account_open_internal_loop q hq env fuel fuel _ _ _ _ hloop))
            (account_emit q s3 Event.end_send_span ⟨rfl, rfl, hq _ rfl⟩)
          split at h
          · simp only [Option.some.injEq, Prod.mk.injEq] at h
            obtain ⟨rfl, -⟩ := h
            have := account_trans h2
              (account_close_sink q hq (s3.emit Event.end_send_span)
                ((s3.emit Event.end_send_span).collect_query_statistics).status
                (env.sink_close ((s3.emit Event.end_send_span).collect_query_statistics).trace
                  ((s3.emit Event.end_send_span).collect_query_statistics).status)).1
            simpa using this
          · simp only [Option.some.injEq, Prod.mk.injEq] at h
            obtain ⟨rfl, -⟩ := h
            have := account_trans h2
              (account_close_sink q hq (s3.emit Event.end_send_span)
                ((s3.emit Event.end_send_span).collect_query_statistics).status
                (env.sink_close ((s3.emit Event.end_send_span).collect_query_statistics).trace
                  ((s3.emit Event.end_send_span).collect_query_statistics).status)).2
            simpa using this

/-- A run of `open()`, from the state `sa` in which the report thread has been started
if it is to run. -/
theorem account_open (q : Event → Bool)
    (hq : ∀ e, e.is_reporter_event = false → q e = true) (env : Collab) (fuel : Nat)
    (s s1 : PlanFragmentExecutor) (st : Status) (h : s.open env fuel = some (s1, st)) :
    Account q 0
      (if s.is_report_success && s.report_status_cb &&
          decide (0 < env.status_report_interval) then
        ({ s with report_thread_active := true }).emit Event.report_thread_start
      else s) s1 := by
  obtain ⟨sa, sb, sc, st0, hsa, hint, -, hsc, -, rfl⟩ := open_wrap env fuel s s1 st h
  rw [← hsa]
  have h1 : Account q 0 sa sb := by
    by_cases hv : sa.enable_vectorized_exec = true
    · rw [if_pos hv] at hint
      exact account_open_vectorized_internal q hq env fuel _ _ _ hint
    · rw [if_neg hv] at hint
      exact account_open_internal q hq env fuel _ _ _ hint
  have h2 : Account q 0 sb sc := by
    rw [hsc]
    split
    · exact account_emit q sb _ ⟨rfl, rfl, hq _ rfl⟩
    · exact account_refl q sb
  have := account_trans (account_trans h1 h2) (account_update_status q hq sc st)
  simpa using this

/-- One `get_next`: the rows of the batch it returns are those the plan produced. -/
theorem account_get_next (q : Event → Bool)
    (hq : ∀ e, e.is_reporter_event = false → q e = true) (env : Collab) (fuel : Nat)
    (s s1 : PlanFragmentExecutor) (st : Status) (b : Option Nat)
    (h : s.get_next env fuel = some (s1, st, b)) : Account q (b.getD 0) s s1 := by
  unfold get_next at h
  split at h
  · simp at h
  · rename_i sa sta ba hint
    simp only [Option.some.injEq, Prod.mk.injEq] at h
    obtain ⟨rfl, rfl, rfl⟩ := h
    have h1 := account_get_next_internal q hq env fuel s none sa sta ba hint
    have hb : (if sta.ok then ba.getD 0 else 0) = ba.getD 0 := by
      cases hst : sta.ok
      · have hd : s.done = false := by
          rcases get_next_internal_detail env fuel s none sa sta ba hint with
            ⟨-, -, rfl, -⟩ | ⟨hd, -⟩
          · cases hst
          · exact hd
        unfold get_next_internal at hint
        rw [hd] at hint
        simp only [Bool.false_eq_true, if_false] at hint
        rw [get_next_internal_loop_failed_batch env fuel s none sa sta ba hint hst rfl]
        simp
      · simp
    rw [hb] at h1
    have h2 := account_trans h1 (account_update_status q hq sa sta)
    split
    · have := account_trans (account_trans h2 (account_stop_report_thread q hq _))
        (account_send_report q hq _ true (by simp))
      simpa using this
    · simpa using h2

theorem step_handed_fst (env : Collab) (fuel : Nat) (s : PlanFragmentExecutor) (op : Op) :
    (s.step_handed env fuel op).map Prod.fst = s.step env fuel op := by
  rcases op with st | _ | _ | _ | ⟨reason, msg⟩ | done | _ <;>
    simp [step_handed, step, Option.map_map, Function.comp_def]

theorem run_handed_fst (env : Collab) (fuel : Nat) :
    ∀ (ops : List Op) (s : PlanFragmentExecutor),
      (s.run_handed env fuel ops).map Prod.fst = s.run env fuel ops := by
  intro ops
  induction ops with
  | nil => intro s; rfl
  | cons op ops ih =>
    intro s
    rw [run_handed, run, ← step_handed_fst]
    cases h1 : s.step_handed env fuel op with
    | none => rfl
    | some r =>
      obtain ⟨s1, k⟩ := r
      simp only [Option.map_some']
      rw [← ih s1]
      cases h2 : run_handed env fuel s1 ops with
      | none => rfl
      | some r2 => rfl

/-- One operation: the new calls are of the kind `q` when `q` admits the start of the
report thread and, for a direct `send_report(false)`, the non-final reports. -/
theorem account_step (q : Event → Bool)
    (hq : ∀ e, e.is_reporter_event = false → q e = true)
    (hts : q Event.report_thread_start = true) (env : Collab) (fuel : Nat)
    (s s1 : PlanFragmentExecutor) (op : Op) (k : Nat)
    (hop : op = Op.send_report false → ∀ st pr, q (Event.report_status_cb st pr false) = true)
    (h : s.step_handed env fuel op = some (s1, k)) : Account q k s s1 := by
  rcases op with st | _ | _ | _ | ⟨reason, msg⟩ | done | _
  · simp only [step_handed, step, Option.map_some', Option.some.injEq, Prod.mk.injEq] at h
    obtain ⟨rfl, rfl⟩ := h
    exact account_update_status q hq s st
  · simp only [step_handed, step, Option.map_some', Option.some.injEq, Prod.mk.injEq] at h
    obtain ⟨rfl, rfl⟩ := h
    exact account_update_status q hq s _
  · simp only [step_handed, step, Option.map_map, Option.map_eq_some', Function.comp_apply,
      Prod.mk.injEq] at h
    obtain ⟨⟨sx, st⟩, hopen, rfl, rfl⟩ := h
    have h1 := account_open q hq env fuel s sx st hopen
    have h0 : Account q 0 s
        (if s.is_report_success && s.report_status_cb &&
            decide (0 < env.status_report_interval) then
          ({ s with report_thread_active := true }).emit Event.report_thread_start
        else s) := by
      split
      · exact account_of_silent q s _ [Event.report_thread_start] rfl rfl
          (by simp [Event.pulled_rows, Event.sent_rows, hts])
      · exact account_refl q s
    have := account_trans h0 h1
    simpa using this
  · simp only [step_handed, Option.map_eq_some', Prod.mk.injEq] at h
    obtain ⟨⟨sx, st, b⟩, hgn, rfl, rfl⟩ := h
    exact account_get_next q hq env fuel s sx st b hgn
  · simp only [step_handed, step, Option.map_some', Option.some.injEq, Prod.mk.injEq] at h
    obtain ⟨rfl, rfl⟩ := h
    exact account_cancel q hq s reason msg
  · simp only [step_handed, step, Option.map_some', Option.some.injEq, Prod.mk.injEq] at h
    obtain ⟨rfl, rfl⟩ := h
    refine account_send_report q hq s done ?_
    intro hd
    subst hd
    exact hop rfl
  · simp only [step_handed, step, Option.map_some', Option.some.injEq, Prod.mk.injEq] at h
    obtain ⟨rfl, rfl⟩ := h
    exact account_close q hq env s

/-- A sequence of operations: the `RowsProduced` counter grows by the rows the plan
produced, which are those sent to the sink plus those handed to the caller. -/
theorem account_run_handed (env : Collab) (fuel : Nat) :
    ∀ (ops : List Op) (s s1 : PlanFragmentExecutor) (k : Nat),
      s.run_handed env fuel ops = some (s1, k) → Account (fun _ => true) k s s1 := by
  intro ops
  induction ops with
  | nil =>
    intro s s1 k h
    simp only [run_handed, Option.some.injEq, Prod.mk.injEq] at h
    obtain ⟨rfl, rfl⟩ := h
    exact account_refl _ s
  | cons op ops ih =>
    intro s s1 k h
    rw [run_handed] at h
    split at h
    · simp at h
    · rename_i sa ka hstep
      split at h
      · simp at h
      · rename_i sb kb hrun
        simp only [Option.some.injEq, Prod.mk.injEq] at h
        obtain ⟨rfl, rfl⟩ := h
        exact account_trans
          (account_step _ (fun _ _ => rfl) rfl env fuel s sa op ka (fun _ _ _ => rfl) hstep)
          (ih sa sb kb hrun)

theorem rewrite_cancelled_OK (s : PlanFragmentExecutor) :
    s.rewrite_cancelled Status.OK = Status.OK := rfl

theorem rewrite_cancelled_not_ok (s : PlanFragmentExecutor) (st : Status)
    (h : st.ok = false) : (s.rewrite_cancelled st).ok = false := by
  unfold rewrite_cancelled
  split
  · split
    · rfl
    · split
      · rfl
      · exact h
  · exact h

theorem cancel_of_drive_core {s s1 : PlanFragmentExecutor}
    (h : s1.drive_core = s.drive_core) :
    s1.cancel_reason = s.cancel_reason ∧ s1.cancel_msg = s.cancel_msg := by
  have h1 := congrArg PlanFragmentExecutor.cancel_reason h
  have h2 := congrArg PlanFragmentExecutor.cancel_msg h
  exact ⟨h1, h2⟩

/-- The internal open functions never write the cancel reason or the cancel message. -/
theorem openSpec_cancel {env : Collab} {s s1 : PlanFragmentExecutor} {st : Status}
    (h : OpenSpec env s s1 st) :
    s1.cancel_reason = s.cancel_reason ∧ s1.cancel_msg = s.cancel_msg := by
  obtain ⟨pre, -, -, h⟩ := h
  rcases h with ⟨-, -, -, hc, -⟩ | ⟨-, ⟨-, -, -, hc, -⟩ | ⟨-, ret, sc, -, hc, -, h⟩⟩
  · exact cancel_of_drive_core hc
  · exact cancel_of_drive_core hc
  · rcases h with ⟨-, -, rfl⟩ | ⟨-, -, rfl⟩
    · exact cancel_of_drive_core hc
    · rw [send_report_eq, stop_report_thread_eq]
      show sc.cancel_reason = s.cancel_reason ∧ sc.cancel_msg = s.cancel_msg
      exact cancel_of_drive_core hc

/-- A pull that returns an error ends in the failed call of `_plan->get_next`, and the
error is the one that call returned. -/
theorem get_next_internal_failed (env : Collab) (fuel : Nat) (s : PlanFragmentExecutor)
    (b : Option Nat) (s1 : PlanFragmentExecutor) (st : Status) (b1 : Option Nat)
    (h : get_next_internal env fuel s b = some (s1, st, b1)) (hst : st.ok = false) :
    ∃ before e, s1.trace = s.trace ++ (before ++ [e]) ∧
      (∀ x ∈ before, x.is_failed_call = false ∧ x.is_sink_close = false) ∧
      e.is_failed_call = true ∧ e.call_status = st := by
  rcases get_next_internal_detail env fuel s b s1 st b1 h with ⟨-, -, rfl, -⟩ |
    ⟨-, skipped, r, rows, eos, htr, -, hsk, -, hc⟩
  · cases hst
  · rcases hc with ⟨hr, rfl, -⟩ | ⟨-, -, rfl, -⟩ | ⟨-, -, -, rfl, -⟩
    · refine ⟨skipped, Event.plan_get_next st rows eos, by rw [htr, List.append_assoc], ?_,
        by simp [Event.is_failed_call, hr], rfl⟩
      intro x hx
      obtain ⟨r0, hr0, rfl⟩ := hsk x hx
      simp [Event.is_failed_call, Event.is_sink_close, hr0]
    · cases hst
    · cases hst

theorem drive_call_not_sink_close {e : Event} (h : e.is_drive_call = true) :
    e.is_sink_close = false := by
  cases e <;> simp_all [Event.is_drive_call, Event.is_sink_close]

theorem sink_close_not_failed {e : Event} (h : e.is_sink_close = true) :
    e.is_failed_call = false := by
  cases e <;> simp_all [Event.is_failed_call, Event.is_sink_close]

/-- A drive loop that returns an error ends in the failed call, of `_plan->get_next`
or of `_sink->send`, and the error is the one that call returned. -/
theorem open_internal_loop_failed (env : Collab) (inner : Nat) :
    ∀ (fuel : Nat) (s : PlanFragmentExecutor) (b : Option Nat) (s1 : PlanFragmentExecutor)
      (st : Status),
      open_internal_loop env inner fuel s b = some (s1, some st) →
      st.ok = false ∧ ∃ before e, s1.trace = s.trace ++ (before ++ [e]) ∧
        (∀ x ∈ before, x.is_failed_call = false ∧ x.is_sink_close = false) ∧
        e.is_failed_call = true ∧ e.call_status = st := by
  intro fuel
  induction fuel with
  | zero =>
    intro s b s1 st h
    simp [open_internal_loop] at h
  | succ n ih =>
    intro s b s1 st h
    unfold open_internal_loop at h
    split at h
    · simp at h
    · rename_i sa sta ba hgn
      have hspec := get_next_internal_spec env _ _ _ _ _ _ hgn
      split at h
      · rename_i hbad
        simp only [Option.some.injEq, Prod.mk.injEq] at h
        obtain ⟨rfl, h2⟩ := h
        have h3 : sta = st := h2
        subst h3
        have hbad : sta.ok = false := by simpa using hbad
        exact ⟨hbad, get_next_internal_failed env _ _ _ _ _ _ hgn hbad⟩
      · rename_i hgood
        have hgood : sta.ok = true := by simpa using hgood
        split at h
        · simp only [Option.some.injEq, Prod.mk.injEq] at h
          obtain ⟨-, h2⟩ := h
          cases h2
        · rename_i rows
          simp only at h
          generalize hs2 : (if sa.collect_query_statistics_with_every_batch = true then
            sa.collect_query_statistics else sa) = s2 at h
          obtain ⟨hc, pre, htr, hd, hf, he⟩ := pull_prefix hspec hgood s2 hs2.symm
          have hpre : ∀ x ∈ pre, x.is_failed_call = false ∧ x.is_sink_close = false :=
            fun x hx => ⟨hf x hx, drive_call_not_sink_close (hd x hx)⟩
          split at h
          · simp only [Option.some.injEq, Prod.mk.injEq] at h
            obtain ⟨-, h2⟩ := h
            cases h2
          · rename_i hneof
            have hneof : (env.sink_send s2.trace rows).is_end_of_file = false := by
              simpa using hneof
            split at h
            · rename_i hbad
              simp only [Option.some.injEq, Prod.mk.injEq] at h
              obtain ⟨rfl, h2⟩ := h
              have h3 : env.sink_send s2.trace rows = st := h2
              have hbad : (env.sink_send s2.trace rows).ok = false := by simpa using hbad
              refine ⟨by rw [← h3]; exact hbad, pre,
                Event.sink_send rows (env.sink_send s2.trace rows), ?_, hpre, ?_, h3⟩
              · rw [emit_trace, htr, List.append_assoc]
              · simp [Event.is_failed_call, hbad, hneof]
            · rename_i hok
              have hok : (env.sink_send s2.trace rows).ok = true := by
                simpa using hok
              obtain ⟨hst, before, e, htr3, hbefore, hfe, hce⟩ := ih _ _ _ _ h
              refine ⟨hst, pre ++ [Event.sink_send rows (env.sink_send s2.trace rows)] ++ before,
                e, ?_, ?_, hfe, hce⟩
              · rw [htr3, emit_trace, htr]
                simp only [List.append_assoc]
              · intro x hx
                simp only [List.mem_append, List.mem_singleton] at hx
                rcases hx with (hx | hx) | hx
                · exact hpre x hx
                · subst hx
                  simp [Event.is_failed_call, Event.is_sink_close, hok]
                · exact hbefore x hx

/-- What the internal open function hands back to `open()`: `Status::OK()`, or the
error returned by the call on which it stopped: a failed `_plan->open`, `_sink->open`,
`_plan->get_next` or `_sink->send`, or a failed `_sink->close`.  Only the deferred
`end_send_span` can follow that call. -/
theorem open_internal_returns (env : Collab) (fuel : Nat) (s s1 : PlanFragmentExecutor)
    (st : Status) (h : s.open_internal env fuel = some (s1, st)) :
    st = Status.OK ∨ (st.ok = false ∧ ∃ before e after,
      s1.trace = s.trace ++ (before ++ [e] ++ after) ∧
      (∀ x ∈ before, x.is_failed_call = false ∧ x.is_sink_close = false) ∧
      (e.is_failed_call = true ∨ e.is_sink_close = true) ∧ e.call_status = st ∧
      (after = [] ∨ after = [Event.end_send_span])) := by
  unfold open_internal at h
  simp only at h
  split at h
  · rename_i hbad
    simp only [Option.some.injEq, Prod.mk.injEq] at h
    obtain ⟨rfl, rfl⟩ := h
    have hbad : (env.plan_open s.trace).ok = false := by simpa using hbad
    exact Or.inr ⟨hbad, [], Event.plan_open (env.plan_open s.trace), [], by simp [emit_trace],
      by simp, Or.inl (by simp [Event.is_failed_call, hbad]), rfl, Or.inl rfl⟩
  · rename_i hok1
    have hok1 : (env.plan_open s.trace).ok = true := by simpa using hok1
    split at h
    · simp only [Option.some.injEq, Prod.mk.injEq] at h
      exact Or.inl h.2.symm
    · split at h
      · rename_i hbad
        simp only [Option.some.injEq, Prod.mk.injEq] at h
        obtain ⟨rfl, rfl⟩ := h
        have hbad : (env.sink_open (s.emit (Event.plan_open (env.plan_open s.trace))).trace).ok
            = false := by simpa using hbad
        refine Or.inr ⟨hbad, [Event.plan_open (env.plan_open s.trace)],
          Event.sink_open (env.sink_open (s.emit (Event.plan_open (env.plan_open s.trace))).trace),
          [], by simp [emit_trace], ?_, Or.inl (by simpa [Event.is_failed_call] using hbad), rfl,
          Or.inl rfl⟩
        intro x hx
        rw [List.mem_singleton] at hx
        subst hx
        simp [Event.is_failed_call, Event.is_sink_close, hok1]
      · rename_i hok2
        have hok2 : (env.sink_open (s.emit (Event.plan_open (env.plan_open s.trace))).trace).ok
            = true := by simpa using hok2
        have hhead : ∀ x ∈ [Event.plan_open (env.plan_open s.trace),
            Event.sink_open (env.sink_open
              (s.emit (Event.plan_open (env.plan_open s.trace))).trace)],
            x.is_failed_call = false ∧ x.is_sink_close = false := by
          intro x hx
          simp only [List.mem_cons, List.mem_singleton, List.not_mem_nil, or_false] at hx
          rcases hx with rfl | rfl
          · simp [Event.is_failed_call, Event.is_sink_close, hok1]
          · exact ⟨by simpa [Event.is_failed_call] using hok2, rfl⟩
        split at h
        · simp at h
        · rename_i s3 st3 hloop
          simp only [Option.some.injEq, Prod.mk.injEq] at h
          obtain ⟨rfl, rfl⟩ := h
          obtain ⟨hst, before, e, htr, hbefore, hfe, hce⟩ :=
            open_internal_loop_failed env _ _ _ _ _ _ hloop
          refine Or.inr ⟨hst, [Event.plan_open (env.plan_open s.trace),
            Event.sink_open (env.sink_open
              (s.emit (Event.plan_open (env.plan_open s.trace))).trace)] ++ before, e, [], ?_, ?_,
            Or.inl hfe, hce, Or.inl rfl⟩
          · rw [htr]
            simp [emit_trace]
          · intro x hx
            rcases List.mem_append.mp hx with hx | hx
            · exact hhead x hx
            · exact hbefore x hx
        · rename_i s3 hloop
          obtain ⟨-, new, htr, hd, hf, -⟩ := open_internal_loop_spec env _ _ _ _ _ _ hloop
          split at h
          · rename_i hbad
            simp only [Option.some.injEq, Prod.mk.injEq] at h
            obtain ⟨rfl, rfl⟩ := h
            refine Or.inr ⟨by simpa using hbad, [Event.plan_open (env.plan_open s.trace),
              Event.sink_open (env.sink_open
                (s.emit (Event.plan_open (env.plan_open s.trace))).trace)] ++ new ++
                [Event.collect_query_statistics],
              Event.sink_close s3.collect_query_statistics.status
                (env.sink_close s3.collect_query_statistics.trace
                  s3.collect_query_statistics.status), [], ?_, ?_,
              Or.inr rfl, rfl, Or.inl rfl⟩
            · simp [emit_trace, collect_query_statistics, htr]
            · intro x hx
              simp only [List.mem_append, List.mem_singleton] at hx
              rcases hx with (hx | hx) | hx
              · exact hhead x hx
              · exact ⟨hf rfl x hx, drive_call_not_sink_close (hd x hx)⟩
              · subst hx
                exact ⟨rfl, rfl⟩
          · simp only [Option.some.injEq, Prod.mk.injEq] at h
            exact Or.inl h.2.symm

/-- The vectorized internal open function hands back the same: `Status::OK()` or the
error of the call on which it stopped, followed at most by the deferred
`end_send_span`. -/
theorem open_vectorized_internal_returns (env : Collab) (fuel : Nat)
    (s s1 : PlanFragmentExecutor) (st : Status)
    (h : s.open_vectorized_internal env fuel = some (s1, st)) :
    st = Status.OK ∨ (st.ok = false ∧ ∃ before e after,
      s1.trace = s.trace ++ (before ++ [e] ++ after) ∧
      (∀ x ∈ before, x.is_failed_call = false ∧ x.is_sink_close = false) ∧
      (e.is_failed_call = true ∨ e.is_sink_close = true) ∧ e.call_status = st ∧
      (after = [] ∨ after = [Event.end_send_span])) := by
  unfold open_vectorized_internal at h
  simp only at h
  split at h
  · rename_i hbad
    simp only [Option.some.injEq, Prod.mk.injEq] at h
    obtain ⟨rfl, rfl⟩ := h
    have hbad : (env.plan_open s.trace).ok = false := by simpa using hbad
    exact Or.inr ⟨hbad, [], Event.plan_open (env.plan_open s.trace), [], by simp [emit_trace],
      by simp, Or.inl (by simp [Event.is_failed_call, hbad]), rfl, Or.inl rfl⟩
  · rename_i hok1
    have hok1 : (env.plan_open s.trace).ok = true := by simpa using hok1
    split at h
    · simp only [Option.some.injEq, Prod.mk.injEq] at h
      exact Or.inl h.2.symm
    · split at h
      · rename_i hbad
        simp only [Option.some.injEq, Prod.mk.injEq] at h
        obtain ⟨rfl, rfl⟩ := h
        have hbad : (env.sink_open (s.emit (Event.plan_open (env.plan_open s.trace))).trace).ok
            = false := by simpa using hbad
        refine Or.inr ⟨hbad, [Event.plan_open (env.plan_open s.trace)],
          Event.sink_open (env.sink_open (s.emit (Event.plan_open (env.plan_open s.trace))).trace),
          [], by simp [emit_trace], ?_, Or.inl (by simpa [Event.is_failed_call] using hbad), rfl,
          Or.inl rfl⟩
        intro x hx
        rw [List.mem_singleton] at hx
        subst hx
        simp [Event.is_failed_call, Event.is_sink_close, hok1]
      · rename_i hok2
        have hok2 : (env.sink_open (s.emit (Event.plan_open (env.plan_open s.trace))).trace).ok
            = true := by simpa using hok2
        have hhead : ∀ x ∈ [Event.plan_open (env.plan_open s.trace),
            Event.sink_open (env.sink_open
              (s.emit (Event.plan_open (env.plan_open s.trace))).trace)],
            x.is_failed_call = false ∧ x.is_sink_close = false := by
          intro x hx
          simp only [List.mem_cons, List.mem_singleton, List.not_mem_nil, or_false] at hx
          rcases hx with rfl | rfl
          · simp [Event.is_failed_call, Event.is_sink_close, hok1]
          · exact ⟨by simpa [Event.is_failed_call] using hok2, rfl⟩
        split at h
        · simp at h
        · rename_i s3 st3 hloop
          simp only [Option.some.injEq, Prod.mk.injEq] at h
          obtain ⟨rfl, rfl⟩ := h
          rw [open_vectorized_internal_loop_eq env _ _ _ none] at hloop
          obtain ⟨hst, before, e, htr, hbefore, hfe, hce⟩ :=
            open_internal_loop_failed env _ _ _ _ _ _ hloop
          refine Or.inr ⟨hst, [Event.plan_open (env.plan_open s.trace),
            Event.sink_open (env.sink_open
              (s.emit (Event.plan_open (env.plan_open s.trace))).trace)] ++ before, e,
            [Event.end_send_span], ?_, ?_, Or.inl hfe, hce, Or.inr rfl⟩
          · rw [emit_trace, htr]
            simp [emit_trace]
          · intro x hx
            rcases List.mem_append.mp hx with hx | hx
            · exact hhead x hx
            · exact hbefore x hx
        · rename_i s3 hloop
          obtain ⟨-, new, htr, hd, hf, -⟩ :=
            open_vectorized_internal_loop_spec env _ _ _ _ _ hloop
          split at h
          · rename_i hbad
            simp only [Option.some.injEq, Prod.mk.injEq] at h
            obtain ⟨rfl, rfl⟩ := h
            refine Or.inr ⟨by simpa using hbad, [Event.plan_open (env.plan_open s.trace),
              Event.sink_open (env.sink_open
                (s.emit (Event.plan_open (env.plan_open s.trace))).trace)] ++ new ++
                [Event.end_send_span, Event.collect_query_statistics],
              Event.sink_close (s3.emit Event.end_send_span).collect_query_statistics.status
                (env.sink_close (s3.emit Event.end_send_span).collect_query_statistics.trace
                  (s3.emit Event.end_send_span).collect_query_statistics.status), [], ?_, ?_,
              Or.inr rfl, rfl, Or.inl rfl⟩
            · simp [emit_trace, collect_query_statistics, htr]
            · intro x hx
              simp only [List.mem_append, List.mem_cons, List.mem_singleton,
                List.not_mem_nil, or_false] at hx
              rcases hx with (hx | hx) | hx | hx
              · exact hhead x (by simpa using hx)
              · exact ⟨hf rfl x hx, drive_call_not_sink_close (hd x hx)⟩
              · subst hx
                exact ⟨rfl, rfl⟩
              · subst hx
                exact ⟨rfl, rfl⟩
          · simp only [Option.some.injEq, Prod.mk.injEq] at h
            exact Or.inl h.2.symm

/-- The status `open()` returns.  It is the rewrite of the status `st0` its internal
open function handed back, and `st0` is `Status::OK()` or the error returned by the call
on which the internal function stopped: the only failed call of `_plan->open`,
`_sink->open`, `_plan->get_next` or `_sink->send` in the run, or the failed
`_sink->close`. -/
theorem open_returns (env : Collab) (fuel : Nat) (s s1 : PlanFragmentExecutor) (st : Status)
    (h : s.open env fuel = some (s1, st)) :
    ∃ st0 : Status, st = s.rewrite_cancelled st0 ∧
      (st0 = Status.OK ∨ (st0.ok = false ∧ ∃ before e after,
        s1.trace = s.trace ++ (before ++ [e] ++ after) ∧
        (∀ x ∈ before, x.is_failed_call = false ∧ x.is_sink_close = false) ∧
        (e.is_failed_call = true ∨ e.is_sink_close = true) ∧ e.call_status = st0 ∧
        (∀ x ∈ after, x.is_failed_call = false ∧ x.is_sink_close = false))) := by
  obtain ⟨sa, sb, sc, st0, hsa, hint, hspec, hsc, hst, rfl⟩ := open_wrap env fuel s s1 st h
  obtain ⟨t0, ht0, hbk0, -⟩ := open_start_shape env s sa hsa
  have hca : sa.cancel_reason = s.cancel_reason ∧ sa.cancel_msg = s.cancel_msg := by
    rw [hsa]
    split
    · exact ⟨rfl, rfl⟩
    · exact ⟨rfl, rfl⟩
  have hcb := openSpec_cancel hspec
  have hcc : sc.cancel_reason = sb.cancel_reason ∧ sc.cancel_msg = sb.cancel_msg := by
    rw [hsc]
    split
    · exact ⟨rfl, rfl⟩
    · exact ⟨rfl, rfl⟩
  have hrw : st = s.rewrite_cancelled st0 := by
    rw [hst, hcc.1, hcc.2, hcb.1, hcb.2, hca.1, hca.2]
    rfl
  refine ⟨st0, hrw, ?_⟩
  have hret : st0 = Status.OK ∨ (st0.ok = false ∧ ∃ before e after,
      sb.trace = sa.trace ++ (before ++ [e] ++ after) ∧
      (∀ x ∈ before, x.is_failed_call = false ∧ x.is_sink_close = false) ∧
      (e.is_failed_call = true ∨ e.is_sink_close = true) ∧ e.call_status = st0 ∧
      (after = [] ∨ after = [Event.end_send_span])) := by
    by_cases hv : sa.enable_vectorized_exec = true
    · rw [if_pos hv] at hint
      exact open_vectorized_internal_returns env fuel _ _ _ hint
    · rw [if_neg hv] at hint
      exact open_internal_returns env fuel _ _ _ hint
  rcases hret with hok | ⟨hbad, before, e, after, htr, hbefore, he, hce, hafter⟩
  · exact Or.inl hok
  · obtain ⟨-, bk, hbktr, hbk, -⟩ := open_tail_error env sb sc st0 st hbad hsc hst
    refine Or.inr ⟨hbad, t0 ++ before, e, after ++ bk, ?_, ?_, he, hce, ?_⟩
    · rw [hbktr, htr, ht0]
      simp only [List.append_assoc]
    · intro x hx
      rcases List.mem_append.mp hx with hx | hx
      · exact ⟨(bookkeeping_kinds (hbk0 x hx).1).2.1, (bookkeeping_kinds (hbk0 x hx).1).1⟩
      · exact hbefore x hx
    · intro x hx
      rcases List.mem_append.mp hx with hx | hx
      · rcases hafter with rfl | rfl
        · cases hx
        · rw [List.mem_singleton] at hx
          subst hx
          exact ⟨rfl, rfl⟩
      · exact ⟨(bookkeeping_kinds (hbk x hx)).2.1, (bookkeeping_kinds (hbk x hx)).1⟩

end PlanFragmentExecutor

/-! ## Tablet state, date values and the bloom-filter predicate -/

/-- One call of `set_tablet_state` keeps the cached state equal to the meta state. -/
theorem BaseTablet.set_tablet_state_agree (t : BaseTablet) (state : TabletState)
    (h : t.state = t.tablet_meta_state) :
    (t.set_tablet_state state).1.state = (t.set_tablet_state state).1.tablet_meta_state := by
  unfold BaseTablet.set_tablet_state
  split
  · exact h
  · rfl

/-- One call of `set_tablet_state` leaves a meta state `TABLET_SHUTDOWN` as it is. -/
theorem BaseTablet.set_tablet_state_shutdown (t : BaseTablet) (state : TabletState)
    (h : t.tablet_meta_state = TabletState.TABLET_SHUTDOWN) :
    (t.set_tablet_state state).1.tablet_meta_state = TabletState.TABLET_SHUTDOWN := by
  unfold BaseTablet.set_tablet_state
  split
  · exact h
  · rename_i hn
    show state = TabletState.TABLET_SHUTDOWN
    by_contra hs
    exact hn ⟨h, hs⟩

theorem BaseTablet.set_tablet_states_agree (states : List TabletState) :
    ∀ t : BaseTablet, t.state = t.tablet_meta_state →
      (t.set_tablet_states states).state = (t.set_tablet_states states).tablet_meta_state := by
  induction states with
  | nil => intro t h; exact h
  | cons st rest ih =>
    intro t h
    exact ih _ (BaseTablet.set_tablet_state_agree t st h)

theorem BaseTablet.set_tablet_states_shutdown (states : List TabletState) :
    ∀ t : BaseTablet, t.tablet_meta_state = TabletState.TABLET_SHUTDOWN →
      (t.set_tablet_states states).tablet_meta_state = TabletState.TABLET_SHUTDOWN := by
  induction states with
  | nil => intro t h; exact h
  | cons st rest ih =>
    intro t h
    exact ih _ (BaseTablet.set_tablet_state_shutdown t st h)

theorem DateV2Value.packed_eq (year month day : Nat) (hm : month < 16) (hd : day < 32) :
    DateV2Value.packed year month day = year * 512 + month * 32 + day := by
  unfold DateV2Value.packed
  have h1 : month <<< 5 ||| day = month * 32 + day := by
    rw [Nat.shiftLeft_eq, Nat.mul_comm, ← Nat.mul_add_lt_is_or (by simpa using hd)]
  have h2 : month * 32 + day < 2 ^ 9 := by omega
  rw [Nat.lor_assoc, h1, Nat.shiftLeft_eq, Nat.mul_comm, ← Nat.mul_add_lt_is_or h2]
  omega

namespace BloomFilterColumnPredicate

theorem take_set_self (l : List Nat) (k a : Nat) (hk : k < l.length) :
    (l.set k a).take k = l.take k ∧ (l.set k a).take (k + 1) = l.take k ++ [a] := by
  have h1 : (l.set k a).take k = l.take k := by
    rw [List.set_eq_take_append_cons_drop, if_pos hk]
    rw [List.take_left']
    simp
    omega
  refine ⟨h1, ?_⟩
  rw [List.take_succ, h1]
  simp [hk]

/-- The loop of the private `evaluate`: started with `new_size ≤ i`, it returns
`new_size` plus the number of passing rows among `sel[i..i+n)`, leaves them after the
first `new_size` entries in their order, and does not touch `sel[i+n..)`. -/
theorem evaluate_loop_spec (pass : Nat → Bool) :
    ∀ (n i k : Nat) (sel : List Nat), k ≤ i → i + n ≤ sel.length → i + n < 2 ^ 16 →
      (evaluate_loop pass n i k sel).2 = k + (((sel.drop i).take n).filter pass).length ∧
      (evaluate_loop pass n i k sel).1.take (evaluate_loop pass n i k sel).2 =
        sel.take k ++ ((sel.drop i).take n).filter pass ∧
      (evaluate_loop pass n i k sel).1.drop (i + n) = sel.drop (i + n) ∧
      (evaluate_loop pass n i k sel).1.length = sel.length := by
  intro n
  induction n with
  | zero =>
    intro i k sel _ _ _
    simp [evaluate_loop]
  | succ n ih =>
    intro i k sel hk hlen h16
    have hi : i < sel.length := by omega
    have h16b : i + (n + 1) < 65536 := by simpa using h16
    have hidx : sel.getD i 0 = sel[i] := List.getD_eq_getElem sel 0 hi
    have hsplit : (sel.drop i).take (n + 1) = sel[i] :: (sel.drop (i + 1)).take n := by
      rw [List.drop_eq_getElem_cons hi, List.take_succ_cons]
    have hdrop : ∀ a, (sel.set k a).drop (i + 1) = sel.drop (i + 1) :=
      fun a => List.drop_set_of_lt a sel (by omega)
    have hi1 : (i + 1) % 2 ^ 16 = i + 1 := Nat.mod_eq_of_lt (by omega)
    have hstep : evaluate_loop pass (n + 1) i k sel =
        evaluate_loop pass n (i + 1) (k + (if pass sel[i] then 1 else 0))
          (sel.set k sel[i]) := by
      rw [evaluate_loop]
      simp only [hidx, hi1]
      congr 1
      apply Nat.mod_eq_of_lt
      split <;> omega
    rw [hstep, hsplit]
    have hkb : k + (if pass sel[i] then 1 else 0) ≤ i + 1 := by split <;> omega
    obtain ⟨r1, r2, r3, r4⟩ := ih (i + 1) (k + (if pass sel[i] then 1 else 0))
      (sel.set k sel[i]) hkb (by rw [List.length_set]; omega) (by omega)
    rw [hdrop] at r1 r2
    have hks : k < sel.length := by omega
    have hadd : i + 1 + n = i + (n + 1) := by omega
    rw [hadd] at r3
    refine ⟨?_, ?_, ?_, ?_⟩
    · rw [r1]
      by_cases hp : pass sel[i] = true
      · simp [hp, List.filter_cons]
        omega
      · simp [hp, List.filter_cons]
    · rw [r2]
      by_cases hp : pass sel[i] = true
      · simp only [hp, if_true, List.filter_cons]
        rw [(take_set_self sel k sel[i] hks).2]
        simp
      · simp only [hp, Bool.false_eq_true, if_false, List.filter_cons, Nat.add_zero]
        rw [(take_set_self sel k sel[i] hks).1]
    · rw [r3]
      exact List.drop_set_of_lt _ sel (by omega)
    · rw [r4, List.length_set]

/-- The private `evaluate`, instantiated as the public one does, is the loop run with
the test `passes`. -/
theorem evaluate_template_eq (p : BloomFilterColumnPredicate) (column : IColumn)
    (sel : List Nat) (size : Nat) :
    (if column.is_nullable then p.evaluate_template true column sel size
      else p.evaluate_template false column sel size) =
      evaluate_loop (p.passes column) size 0 0 sel := by
  unfold evaluate_template
  have hf : ∀ (b d : Bool), column.is_nullable = b → column.is_column_dictionary = d →
      p.passes column = (fun idx =>
        if b then
          !column.null_map idx &&
            (if d then p.specific_filter.find_uint32_t (column.get_hash_value idx)
              else p.specific_filter.find_olap_engine (column.get_data idx))
        else
          (if d then p.specific_filter.find_uint32_t (column.get_hash_value idx)
            else p.specific_filter.find_olap_engine (column.get_data idx))) := by
    intro b d hb hd
    funext idx
    unfold passes
    rw [hb, hd]
    cases b <;> simp
  cases hb : column.is_nullable <;> cases hd : column.is_column_dictionary <;>
    simp [hf _ _ hb hd]

/-- The vectorized `evaluate` on an enabled predicate. -/
theorem evaluate_enabled (check_row_num : Nat) (p : BloomFilterColumnPredicate)
    (column : IColumn) (sel : List Nat) (size : Nat) (hen : p.enable_pred = true) :
    (p.evaluate check_row_num column sel size).2 =
      evaluate_loop (p.passes column) size 0 0 sel ∧
    (p.evaluate check_row_num column sel size).1.evaluated_rows =
      (p.evaluated_rows + size) % 2 ^ 64 ∧
    (p.evaluate check_row_num column sel size).1.passed_rows =
      (p.passed_rows + (evaluate_loop (p.passes column) size 0 0 sel).2) % 2 ^ 64 ∧
    (p.evaluate check_row_num column sel size).1.enable_pred =
      (if check_row_num < (p.evaluated_rows + size) % 2 ^ 64 then
        if ((((p.passed_rows + (evaluate_loop (p.passes column) size 0 0 sel).2) % 2 ^ 64 :
            Nat) : ℚ) / ((((p.evaluated_rows + size) % 2 ^ 64 : Nat) : ℚ) * 1) > 1 / 2) then
          false
        else true
      else true) := by
  unfold evaluate
  simp [hen, evaluate_template_eq]

/-- The comparison of the pass rate with one half, in integers. -/
theorem pass_rate_gt_half (a b : Nat) (hb : 0 < b) :
    ((a : ℚ) / ((b : ℚ) * 1) > 1 / 2) ↔ b < 2 * a := by
  have hb2 : (0 : ℚ) < (b : ℚ) := by exact_mod_cast hb
  rw [mul_one, gt_iff_lt, lt_div_iff₀ hb2]
  constructor
  · intro h
    have h2 : (b : ℚ) < 2 * (a : ℚ) := by linarith
    exact_mod_cast h2
  · intro h
    have h2 : (b : ℚ) < 2 * (a : ℚ) := by exact_mod_cast h
    linarith

theorem evaluate_disabled (check_row_num : Nat) (p : BloomFilterColumnPredicate)
    (column : IColumn) (sel : List Nat) (size : Nat) (hen : p.enable_pred = false) :
    p.evaluate check_row_num column sel size = (p, sel, size) := by
  unfold evaluate
  simp [hen]

theorem evaluate_calls_disabled (check_row_num : Nat) (p : BloomFilterColumnPredicate)
    (hen : p.enable_pred = false) :
    ∀ calls : List (IColumn × List Nat × Nat),
      evaluate_calls check_row_num p calls = (p, calls.map (fun c => (c.2.1, c.2.2))) := by
  intro calls
  induction calls with
  | nil => rfl
  | cons c rest ih =>
    obtain ⟨column, sel, size⟩ := c
    simp only [evaluate_calls, evaluate_disabled check_row_num p column sel size hen, ih,
      List.map_cons]

end BloomFilterColumnPredicate

/-! ## The claims -/

open PlanFragmentExecutor

/-- C1: executor status is monotonic.  For every sequence of Driver operations
(`update_status`, `set_abort`, `open`, `get_next`, `cancel`, `send_report`, `close`) run on
one instance whose status slot holds a non-OK status, the slot is still non-OK after the
sequence: no operation sets it back to OK (the slot is in fact left unchanged). -/
theorem C1_status_monotonic (env : Collab) (fuel : Nat) (s s1 : PlanFragmentExecutor)
    (ops : List Op) (h : s.run env fuel ops = some s1) (hs : s.status.ok = false) :
    s1.status.ok = false ∧ s1.status = s.status := by
  have h1 := run_status_of_not_ok env fuel ops s s1 h hs
  exact ⟨by rw [h1]; exact hs, h1⟩

/-- C1 at a concrete run: an aborted pull-mode executor taken through all seven
operations keeps a non-OK status. -/
theorem C1_status_monotonic_witness :
    aborted_executor.status.ok = false ∧
    (aborted_executor.run Collab.one_batch 5
        [Op.open, Op.get_next, Op.cancel (PPlanFragmentCancelReason.OTHER 1) "stop",
          Op.update_status Status.OK, Op.update_status (Status.InternalError "late"),
          Op.send_report false, Op.set_abort, Op.close]).map
      (fun x => x.status.ok) = some false := by
  have hsome : (aborted_executor.run Collab.one_batch 5
      [Op.open, Op.get_next, Op.cancel (PPlanFragmentCancelReason.OTHER 1) "stop",
        Op.update_status Status.OK, Op.update_status (Status.InternalError "late"),
        Op.send_report false, Op.set_abort, Op.close]).isSome = true := by decide
  obtain ⟨s1, h⟩ := Option.isSome_iff_exists.mp hsome
  refine ⟨by decide, ?_⟩
  rw [h]
  exact congrArg some (C1_status_monotonic _ _ _ _ _ h (by decide)).1

/-- C5: first error wins in `update_status`.  For every non-OK status `new_status` and
every executor state, after `update_status(new_status)` the status slot equals
`new_status` if the slot was OK before the call and is unchanged if the slot already
held a non-OK status. -/
theorem C5_update_status_first_error_wins (s : PlanFragmentExecutor) (new_status : Status)
    (hn : new_status.ok = false) :
    (s.update_status new_status).status = if s.status.ok then new_status else s.status := by
  rw [update_status_status]
  simp [hn]

/-- C5 at concrete states: a prepared executor with an OK slot adopts
`InternalError("boom")`; an aborted executor keeps its `Aborted` status. -/
theorem C5_update_status_first_error_wins_witness :
    (Status.InternalError "boom").ok = false ∧
    ((prepared_executor true true false).update_status (Status.InternalError "boom")).status
      = Status.InternalError "boom" ∧
    (aborted_executor.update_status (Status.InternalError "boom")).status
      = Status.Aborted "Execution aborted before start" :=
  ⟨by decide,
   (C5_update_status_first_error_wins _ _ (by decide)).trans (by decide),
   (C5_update_status_first_error_wins _ _ (by decide)).trans (by decide)⟩

/-- C6: unconditional terminal emission.  For every non-OK status `new_status` and every
executor state, whether or not the status is adopted, `update_status(new_status)` leaves
the report thread stopped (`_report_thread_active` false) and calls `send_report(true)`
exactly once: the result is `send_report(true)` applied to a state `mid` with the thread
stopped and no callback invoked yet in this call, so that the callback is invoked at most
once, and exactly once, with `done = true` and the value of the status slot, when a
callback is installed and success- or cancel-reporting is on. -/
theorem C6_update_status_terminal_emission (s : PlanFragmentExecutor) (new_status : Status)
    (hn : new_status.ok = false) :
    (s.update_status new_status).report_thread_active = false ∧
    (∃ mid : PlanFragmentExecutor, s.update_status new_status = mid.send_report true ∧
      mid.report_thread_active = false ∧
      mid.trace.filter Event.is_report = s.trace.filter Event.is_report) ∧
    (s.update_status new_status).trace.filter Event.is_report =
      s.trace.filter Event.is_report ++
        (if s.report_status_cb = true ∧
            (s.is_report_success = true ∨ s.is_report_on_cancel = true) then
          [Event.report_status_cb (s.update_status new_status).status
            s.is_report_success true]
        else []) := by
  refine ⟨?_, update_status_mid s new_status hn, ?_⟩
  · rw [update_status_eq s new_status hn]
  · rw [update_status_eq s new_status hn]
    simp only [List.filter_append]
    split <;> split <;> split <;> split <;> simp_all [Event.is_report]

/-- C6 at concrete states: on a prepared executor with a callback, both a first error
(adopted) and a second error (not adopted) leave the thread stopped and each add one
callback with `done = true`. -/
theorem C6_update_status_terminal_emission_witness :
    (Status.InternalError "boom").ok = false ∧
    ((prepared_executor true true false).update_status
      (Status.InternalError "boom")).report_thread_active = false ∧
    ((prepared_executor true true false).update_status
      (Status.InternalError "boom")).trace.filter Event.is_report =
      [Event.report_status_cb (Status.InternalError "boom") true true] ∧
    (aborted_executor.update_status (Status.InternalError "boom")).trace.filter
      Event.is_report =
      [Event.report_status_cb (Status.Aborted "Execution aborted before start") true true,
       Event.report_status_cb (Status.Aborted "Execution aborted before start") true true] :=
  ⟨by decide,
   (C6_update_status_terminal_emission _ _ (by decide)).1,
   (C6_update_status_terminal_emission _ _ (by decide)).2.2.trans (by decide),
   (C6_update_status_terminal_emission _ _ (by decide)).2.2.trans (by decide)⟩

/-- C7: `update_status(OK)` is a no-op.  For every executor state it returns the state
unchanged: the status slot, the report-thread flag and every other member keep their
values, and the trace of collaborator calls is the same, so neither the runtime state nor
the result queue is notified and no report is emitted. -/
theorem C7_update_status_ok_noop (s : PlanFragmentExecutor) (new_status : Status)
    (hn : new_status.ok = true) : s.update_status new_status = s := by
  simp [update_status, hn]

/-- C7 at a concrete state: `update_status(Status::OK())` on a prepared executor. -/
theorem C7_update_status_ok_noop_witness :
    Status.OK.ok = true ∧
    (prepared_executor true true false).update_status Status.OK =
      prepared_executor true true false :=
  ⟨by decide, C7_update_status_ok_noop _ _ (by decide)⟩

/-- C10: the filter and the arguments of `send_report(done)`.  With `rs` the
success-reporting flag, `rc` the cancel-reporting flag and `st` the status slot, the
callback is invoked iff a callback is installed and `rs or (rc and not (done and st is
OK))`; it is then invoked exactly once, with `st`, the live profile iff `rs`, and
`done or st is not OK`; nothing but the trace changes, so the status slot is unchanged. -/
theorem C10_send_report_filter (s : PlanFragmentExecutor) (done : Bool) :
    s.send_report done =
      { s with trace := s.trace ++
          (if s.report_status_cb = true ∧
              (s.is_report_success = true ∨
                (s.is_report_on_cancel = true ∧ ¬ (done = true ∧ s.status.ok = true))) then
            [Event.report_status_cb s.status s.is_report_success (done || !s.status.ok)]
          else []) } ∧
    (s.send_report done).status = s.status := by
  refine ⟨?_, send_report_status s done⟩
  rw [send_report_eq]
  congr 2
  cases s.report_status_cb <;> cases s.is_report_success <;> cases s.is_report_on_cancel <;>
    cases done <;> cases s.status.ok <;> simp

/-- C9: cancellation rewrite on exit from `open`.  Let `sa` be the executor once `open`
has started the report thread (if reporting is enabled) and let the internal open
function return the status `st0` in state `sb`.  Then `open` returns: the status `st`
which is `RuntimeError(cancel_msg)` if `st0` is CANCELLED and the recorded reason is
CALL_RPC_ERROR, `MemoryLimitExceeded(cancel_msg)` if `st0` is CANCELLED and the reason is
MEMORY_LIMIT_EXCEED, and `st0` itself in every other case; and the state
`update_status(st)` gives from `sb` (with the error logged first if `st0` is a
non-cancel error and the log has space).  So `st` is the status passed to
`update_status`, and when the slot was OK and `st` is not OK the slot holds `st`
afterwards and the last callback, when one is installed and success- or cancel-reporting
is on, is the final report carrying `st`. -/
theorem C9_open_cancel_rewrite (env : Collab) (fuel : Nat)
    (s sa sb : PlanFragmentExecutor) (st0 : Status)
    (hsa : sa = (if s.is_report_success && s.report_status_cb &&
              decide (0 < env.status_report_interval) then
            ({ s with report_thread_active := true }).emit Event.report_thread_start
          else s))
    (hint : (if sa.enable_vectorized_exec then sa.open_vectorized_internal env fuel
        else sa.open_internal env fuel) = some (sb, st0)) :
    ∃ (sc : PlanFragmentExecutor) (st : Status),
      s.open env fuel = some (sc.update_status st, st) ∧
      (sc = sb ∨ sc = sb.emit (Event.log_error st0.get_error_msg)) ∧
      (st0.is_cancelled = true →
        sb.cancel_reason = PPlanFragmentCancelReason.CALL_RPC_ERROR →
        st = Status.RuntimeError sb.cancel_msg) ∧
      (st0.is_cancelled = true →
        sb.cancel_reason = PPlanFragmentCancelReason.MEMORY_LIMIT_EXCEED →
        st = Status.MemoryLimitExceeded sb.cancel_msg) ∧
      (¬ (st0.is_cancelled = true ∧
          (sb.cancel_reason = PPlanFragmentCancelReason.CALL_RPC_ERROR ∨
           sb.cancel_reason = PPlanFragmentCancelReason.MEMORY_LIMIT_EXCEED)) → st = st0) ∧
      (sb.status.ok = true → st.ok = false →
        (sc.update_status st).status = st ∧
        (sb.report_status_cb = true ∧
            (sb.is_report_success = true ∨ sb.is_report_on_cancel = true) →
          (sc.update_status st).trace.getLast? =
            some (Event.report_status_cb st sb.is_report_success true))) := by
  subst hsa
  have hr : (if !st0.ok && !st0.is_cancelled && env.log_has_space sb.trace then
      sb.emit (Event.log_error st0.get_error_msg) else sb).cancel_reason = sb.cancel_reason := by
    split <;> rfl
  have hm : (if !st0.ok && !st0.is_cancelled && env.log_has_space sb.trace then
      sb.emit (Event.log_error st0.get_error_msg) else sb).cancel_msg = sb.cancel_msg := by
    split <;> rfl
  refine ⟨(if !st0.ok && !st0.is_cancelled && env.log_has_space sb.trace then
            sb.emit (Event.log_error st0.get_error_msg) else sb),
    (if st0.is_cancelled then
      if sb.cancel_reason = PPlanFragmentCancelReason.CALL_RPC_ERROR then
        Status.RuntimeError sb.cancel_msg
      else if sb.cancel_reason = PPlanFragmentCancelReason.MEMORY_LIMIT_EXCEED then
        Status.MemoryLimitExceeded sb.cancel_msg
      else st0
    else st0), ?_, ?_, ?_, ?_, ?_, ?_⟩
  · unfold PlanFragmentExecutor.open
    simp only [hint, hr, hm]
  · split
    · exact Or.inr rfl
    · exact Or.inl rfl
  · intro h1 h2
    simp [h1, h2]
  · intro h1 h2
    simp [h1, h2]
  · intro h
    by_cases h1 : st0.is_cancelled = true
    · have h2 : ¬ sb.cancel_reason = PPlanFragmentCancelReason.CALL_RPC_ERROR :=
        fun h2 => h ⟨h1, Or.inl h2⟩
      have h3 : ¬ sb.cancel_reason = PPlanFragmentCancelReason.MEMORY_LIMIT_EXCEED :=
        fun h3 => h ⟨h1, Or.inr h3⟩
      simp [h1, h2, h3]
    · simp [h1]
  · intro hok hst
    generalize (if st0.is_cancelled then
      if sb.cancel_reason = PPlanFragmentCancelReason.CALL_RPC_ERROR then
        Status.RuntimeError sb.cancel_msg
      else if sb.cancel_reason = PPlanFragmentCancelReason.MEMORY_LIMIT_EXCEED then
        Status.MemoryLimitExceeded sb.cancel_msg
      else st0
    else st0) = st at hst ⊢
    have hsc : ∀ sc : PlanFragmentExecutor,
        (sc = sb ∨ sc = sb.emit (Event.log_error st0.get_error_msg)) →
        (sc.update_status st).status = st ∧
        (sb.report_status_cb = true ∧
            (sb.is_report_success = true ∨ sb.is_report_on_cancel = true) →
          (sc.update_status st).trace.getLast? =
            some (Event.report_status_cb st sb.is_report_success true)) := by
      intro sc hsc
      have h1 : sc.status = sb.status := by rcases hsc with rfl | rfl <;> rfl
      have h2 : sc.report_status_cb = sb.report_status_cb := by
        rcases hsc with rfl | rfl <;> rfl
      have h3 : sc.is_report_success = sb.is_report_success := by
        rcases hsc with rfl | rfl <;> rfl
      have h4 : sc.is_report_on_cancel = sb.is_report_on_cancel := by
        rcases hsc with rfl | rfl <;> rfl
      constructor
      · rw [update_status_status, h1]
        simp [hok, hst]
      · rintro ⟨hcb, hr⟩
        rw [update_status_eq sc st hst]
        simp only [h1, h2, h3, h4, hok, hcb, if_true, Bool.true_and]
        have hr2 : (sb.is_report_success || sb.is_report_on_cancel) = true := by
          rcases hr with hr | hr <;> simp [hr]
        simp [hr2, ← List.append_assoc]
    apply hsc
    split
    · exact Or.inr rfl
    · exact Or.inl rfl

/-- C9 at a concrete run: after `cancel(MEMORY_LIMIT_EXCEED, "oom")` a scan that returns
CANCELLED makes `open` return `MemoryLimitExceeded("oom")`. -/
theorem C9_open_cancel_rewrite_witness :
    (oom_cancelled_executor.open Collab.cancelled_scan 5).map Prod.snd =
      some (Status.MemoryLimitExceeded "oom") := by
  have h1 : ((if oom_cancelled_executor.enable_vectorized_exec then
        oom_cancelled_executor.open_vectorized_internal Collab.cancelled_scan 5
      else oom_cancelled_executor.open_internal Collab.cancelled_scan 5).map
      (fun p => (p.2, p.1.cancel_reason, p.1.cancel_msg))) =
      some (Status.Cancelled "cancelled", PPlanFragmentCancelReason.MEMORY_LIMIT_EXCEED,
        "oom") := by decide
  obtain ⟨⟨sb, st0⟩, hint, hval⟩ := Option.map_eq_some'.mp h1
  simp only [Prod.mk.injEq] at hval
  obtain ⟨hst0, hreason, hmsg⟩ := hval
  obtain ⟨sc, st, hopen, -, -, hmem, -, -⟩ :=
    C9_open_cancel_rewrite Collab.cancelled_scan 5 oom_cancelled_executor
      oom_cancelled_executor sb st0 (by decide) hint
  rw [hopen, Option.map_some', hmem (by rw [hst0]; decide) hreason, hmsg]

/-- C3 as stated fails: with a sink present and `_plan->open` returning an error,
`open` returns that error without having called `_sink->close` (zero calls, not one) and
keeps the sink handle. -/
theorem C3_counterexample :
    (prepared_executor true true false).sink = true ∧
    ((prepared_executor true true false).open Collab.failing_plan_open 5).map
      (fun p => (p.2, p.1.trace.countP Event.is_sink_close, p.1.sink)) =
      some (Status.InternalError "open failed", 0, true) := by
  decide

/-- C3 (amended): for every execution of `open()` in sink-present mode that returns, with
`new` the calls it made: if none of the calls `_plan->open`, `_sink->open`,
`_plan->get_next`, `_sink->send` failed (END_OF_FILE from `send` is not a failure),
`_sink->close` has been invoked exactly once, with the value of the status slot as its
argument, and `open` returns OK when `_sink->close` returned OK and otherwise the error
of `_sink->close`, a CANCELLED error rewritten by the recorded cancel reason; if one of
them failed, it is the only failed call, `open` returns the error of that call, a
CANCELLED error rewritten by the recorded cancel reason (`RuntimeError(_cancel_msg)` for
CALL_RPC_ERROR, `MemoryLimitExceeded(_cancel_msg)` for MEMORY_LIMIT_EXCEED), it has not
invoked `_sink->close` at all and the sink handle is kept (for `close()`). -/
theorem C3_open_closes_sink_unless_failed (env : Collab) (fuel : Nat)
    (s s1 : PlanFragmentExecutor) (st : Status) (hsink : s.sink = true)
    (h : s.open env fuel = some (s1, st)) :
    ∃ new : List Event, s1.trace = s.trace ++ new ∧
      ((∀ e ∈ new, e.is_failed_call = false) →
        ∃ ret, new.filter Event.is_sink_close = [Event.sink_close s.status ret] ∧
          (ret.ok = true → st = Status.OK) ∧
          (ret.ok = false → st = s.rewrite_cancelled ret)) ∧
      ((∃ e ∈ new, e.is_failed_call = true) →
        new.filter Event.is_sink_close = [] ∧ s1.sink = true ∧
        ∃ before e after, new = before ++ [e] ++ after ∧
          (∀ x ∈ before, x.is_failed_call = false) ∧ e.is_failed_call = true ∧
          (∀ x ∈ after, x.is_failed_call = false) ∧
          st = s.rewrite_cancelled e.call_status ∧ st.ok = false) := by
  obtain ⟨t0, pre, mid, bk, htr, ht0, hpre, -, hbk, -, hcases⟩ := open_shape env fuel s s1 st h
  obtain ⟨st0, hrw, hret⟩ := open_returns env fuel s s1 st h
  have f0 : t0.filter Event.is_sink_close = [] :=
    filter_nil_of_all_false (fun e he => (bookkeeping_kinds (ht0 e he).1).1)
  have f1 : pre.filter Event.is_sink_close = [] :=
    filter_nil_of_all_false (fun e he => (open_call_kinds (hpre e he)).1)
  have f2 : bk.filter Event.is_sink_close = [] :=
    filter_nil_of_all_false (fun e he => (bookkeeping_kinds (hbk e he)).1)
  refine ⟨t0 ++ pre ++ mid ++ bk, htr, ?_, ?_⟩
  · intro hall
    rcases hcases with ⟨-, ⟨e, he, hf⟩, -⟩ | ⟨-, ⟨hns, -⟩ | ⟨-, ret, -, hmid, hclose⟩⟩
    · rw [hall e (by simp [he])] at hf
      cases hf
    · rw [hsink] at hns
      cases hns
    · have hfil : (t0 ++ pre ++ mid ++ bk).filter Event.is_sink_close =
          [Event.sink_close s.status ret] := by
        simp [List.filter_append, f0, f1, f2, hmid, Event.is_sink_close]
      refine ⟨ret, hfil, ?_, ?_⟩
      · intro hok
        rcases hclose with ⟨hbad, -⟩ | ⟨-, hst, -⟩
        · rw [hok] at hbad
          cases hbad
        · exact hst
      · intro hbad
        rcases hclose with ⟨-, hstbad, -⟩ | ⟨hok, -⟩
        swap
        · rw [hbad] at hok
          cases hok
        rcases hret with rfl | ⟨-, before, e, after, htr2, hbefore, he, hce, hafter⟩
        · rw [hrw] at hstbad
          cases hstbad
        · rw [htr] at htr2
          have hnew := List.append_cancel_left htr2
          rw [hnew] at hfil hall
          have fb : before.filter Event.is_sink_close = [] :=
            filter_nil_of_all_false (fun x hx => (hbefore x hx).2)
          have fa : after.filter Event.is_sink_close = [] :=
            filter_nil_of_all_false (fun x hx => (hafter x hx).2)
          rcases he with he | he
          · rw [hall e (by simp)] at he
            cases he
          · simp only [List.filter_append, fb, fa, List.filter_cons, he, if_true,
              List.filter_nil, List.nil_append, List.append_nil] at hfil
            have he2 : e = Event.sink_close s.status ret := by
              simpa using hfil
            rw [hrw, ← hce, he2]
            rfl
  · rintro ⟨e, he, hf⟩
    rcases hcases with ⟨hstbad, -, -, hmid, hsk⟩ | ⟨hgood, hrest⟩
    · refine ⟨?_, by rw [hsk, hsink], ?_⟩
      · simp [List.filter_append, f0, f1, f2, hmid]
      · rcases hret with rfl | ⟨-, before, e2, after, htr2, hbefore, he2, hce, hafter⟩
        · rw [hrw] at hstbad
          cases hstbad
        · rw [htr] at htr2
          have hnew := List.append_cancel_left htr2
          rcases he2 with he2 | he2
          · exact ⟨before, e2, after, hnew, fun x hx => (hbefore x hx).1, he2,
              fun x hx => (hafter x hx).1, by rw [hrw, hce], hstbad⟩
          · exfalso
            rw [hnew] at he
            simp only [List.mem_append, List.mem_singleton] at he
            rcases he with (he | he) | he
            · rw [(hbefore e he).1] at hf
              cases hf
            · subst he
              rw [sink_close_not_failed he2] at hf
              cases hf
            · rw [(hafter e he).1] at hf
              cases hf
    · exfalso
      simp only [List.mem_append] at he
      rcases he with ((he | he) | he) | he
      · rw [(bookkeeping_kinds (ht0 e he).1).2.1] at hf
        cases hf
      · rw [hgood e he] at hf
        cases hf
      · rcases hrest with ⟨-, -, hmid, -⟩ | ⟨-, ret, -, hmid, -⟩
        · rw [hmid] at he
          cases he
        · rw [hmid] at he
          simp only [List.mem_cons, List.mem_singleton, List.not_mem_nil, or_false] at he
          rcases he with rfl | rfl <;> cases hf
      · rw [(bookkeeping_kinds (hbk e he)).2.1] at hf
        cases hf

/-- C3 (amended) at two concrete runs: the one-batch fragment, which closes its sink once
with the OK status slot, and the scan cancelled for MEMORY_LIMIT_EXCEED, where `open()`
returns `MemoryLimitExceeded("oom")` and leaves the sink open. -/
theorem C3_open_closes_sink_unless_failed_witness :
    ((prepared_executor true true false).sink = true ∧
      (match (prepared_executor true true false).open Collab.one_batch 5 with
       | some (s1, st) =>
         ∃ new : List Event, s1.trace = (prepared_executor true true false).trace ++ new ∧
          ((∀ e ∈ new, e.is_failed_call = false) →
            ∃ ret, new.filter Event.is_sink_close =
                [Event.sink_close (prepared_executor true true false).status ret] ∧
              (ret.ok = true → st = Status.OK) ∧
              (ret.ok = false → st = (prepared_executor true true false).rewrite_cancelled ret)) ∧
          ((∃ e ∈ new, e.is_failed_call = true) →
            new.filter Event.is_sink_close = [] ∧ s1.sink = true ∧
            ∃ before e after, new = before ++ [e] ++ after ∧
              (∀ x ∈ before, x.is_failed_call = false) ∧ e.is_failed_call = true ∧
              (∀ x ∈ after, x.is_failed_call = false) ∧
              st = (prepared_executor true true false).rewrite_cancelled e.call_status ∧
              st.ok = false)
       | none => False)) ∧
    (oom_cancelled_executor.sink = true ∧
      (match oom_cancelled_executor.open Collab.cancelled_scan 5 with
       | some (s1, st) =>
         st = Status.MemoryLimitExceeded "oom" ∧
         ∃ new : List Event, s1.trace = oom_cancelled_executor.trace ++ new ∧
          ((∀ e ∈ new, e.is_failed_call = false) →
            ∃ ret, new.filter Event.is_sink_close =
                [Event.sink_close oom_cancelled_executor.status ret] ∧
              (ret.ok = true → st = Status.OK) ∧
              (ret.ok = false → st = oom_cancelled_executor.rewrite_cancelled ret)) ∧
          ((∃ e ∈ new, e.is_failed_call = true) →
            new.filter Event.is_sink_close = [] ∧ s1.sink = true ∧
            ∃ before e after, new = before ++ [e] ++ after ∧
              (∀ x ∈ before, x.is_failed_call = false) ∧ e.is_failed_call = true ∧
              (∀ x ∈ after, x.is_failed_call = false) ∧
              st = oom_cancelled_executor.rewrite_cancelled e.call_status ∧
              st.ok = false)
       | none => False)) := by
  have hsome : ((prepared_executor true true false).open Collab.one_batch 5).isSome = true := by
    decide!
  obtain ⟨⟨s1, st⟩, h⟩ := Option.isSome_iff_exists.mp hsome
  have hst2 : (oom_cancelled_executor.open Collab.cancelled_scan 5).map (fun p => p.2) =
      some (Status.MemoryLimitExceeded "oom") := by
    decide!
  obtain ⟨⟨s2, st2⟩, h2, hst2⟩ := Option.map_eq_some'.mp hst2
  refine ⟨⟨by decide, ?_⟩, ⟨by decide, ?_⟩⟩
  · rw [h]
    exact C3_open_closes_sink_unless_failed Collab.one_batch 5 _ s1 st (by decide) h
  · rw [h2]
    exact ⟨hst2, C3_open_closes_sink_unless_failed Collab.cancelled_scan 5 _ s2 st2
      (by decide) h2⟩

/-- C2 as stated fails: a pull-mode instance with a report callback whose plan reaches
eos on the second `get_next` receives a second `done = true` callback from the third
`get_next` call. -/
theorem C2_counterexample :
    (prepared_executor true false false).report_status_cb = true ∧
    ((prepared_executor true false false).run Collab.one_batch 5
        [Op.open, Op.get_next, Op.get_next, Op.get_next]).map
      (fun x => (x.done, x.trace.countP Event.is_final_report)) = some (true, 2) := by
  decide!

/-- C2 (amended): on an instance with a report callback and success reporting
enabled, (a) every `open()` with a sink that returns (the plan reached eos, the sink ended
the drive or a call failed) invokes the callback with `done = true` exactly once, and a
`cancel` and the `close()` that follow invoke it no more; (b) every `get_next` call that
returns invokes it once if it returns an error and once if `_done` is set when it
returns, and not otherwise: the call that reaches eos sends the one final report of a
pull-mode instance, and every `get_next` call made after it sends one more. -/
theorem C2_final_report_per_terminal_call (env : Collab) (fuel : Nat)
    (s s1 : PlanFragmentExecutor) (hcb : s.report_status_cb = true)
    (hrs : s.is_report_success = true) :
    (∀ st, s.sink = true → s.open env fuel = some (s1, st) →
      s1.trace.countP Event.is_final_report = s.trace.countP Event.is_final_report + 1 ∧
      (s1.close env).trace.countP Event.is_final_report =
        s.trace.countP Event.is_final_report + 1 ∧
      ∀ reason msg, ((s1.cancel reason msg).close env).trace.countP Event.is_final_report =
        s.trace.countP Event.is_final_report + 1) ∧
    (∀ st b, s.get_next env fuel = some (s1, st, b) →
      s1.trace.countP Event.is_final_report =
        s.trace.countP Event.is_final_report + (if st.ok then 0 else 1) +
          (if s1.done then 1 else 0)) := by
  refine ⟨?_, fun st b h => get_next_final_reports env fuel s s1 st b hcb hrs h⟩
  intro st hsink h
  obtain ⟨t0, pre, mid, bk, htr, ht0, hpre, -, -, hcnt, hcases⟩ := open_shape env fuel s s1 st h
  have c0 : t0.countP Event.is_final_report = 0 := by
    apply countP_zero_of_all_false
    intro e he
    have h1 := (ht0 e he).2
    cases e <;> simp_all [Event.is_report, Event.is_final_report]
  have c1 : pre.countP Event.is_final_report = 0 :=
    countP_zero_of_all_false (fun e he => (open_call_kinds (hpre e he)).2.1)
  have c2 : mid.countP Event.is_final_report = 0 := by
    rcases hcases with ⟨-, -, -, hmid, -⟩ | ⟨-, ⟨-, -, hmid, -⟩ | ⟨-, ret, -, hmid, -⟩⟩ <;>
      simp [hmid, Event.is_final_report]
  have hone : s1.trace.countP Event.is_final_report =
      s.trace.countP Event.is_final_report + 1 := by
    rw [htr]
    simp only [List.countP_append, c0, c1, c2, hcnt hcb hrs (Or.inl hsink)]
  refine ⟨hone, ?_, ?_⟩
  · rw [close_final_reports, hone]
  · intro reason msg
    rw [close_final_reports, cancel_final_reports, hone]

/-- C2 (amended) at concrete runs: the one-batch fragment with a callback reports
`done = true` once over `open(); close()` in sink-driven mode, and in pull mode the
first `get_next` (a batch of 10 rows, plan not at eos) reports nothing. -/
theorem C2_final_report_per_terminal_call_witness :
    (prepared_executor true true false).report_status_cb = true ∧
    (prepared_executor true true false).is_report_success = true ∧
    (prepared_executor true true false).sink = true ∧
    ((prepared_executor true true false).open Collab.one_batch 5).map
      (fun p => ((p.1.close Collab.one_batch).trace.countP Event.is_final_report)) =
      some 1 ∧
    ((prepared_executor true false false).get_next Collab.one_batch 5).map
      (fun p => (p.2.1, p.1.done, p.1.trace.countP Event.is_final_report)) =
      some (Status.OK, false, 0) := by
  have hsome : ((prepared_executor true true false).open Collab.one_batch 5).isSome = true := by
    decide!
  obtain ⟨⟨s1, st⟩, h⟩ := Option.isSome_iff_exists.mp hsome
  have hpull : ((prepared_executor true false false).get_next Collab.one_batch 5).map
      (fun p => (p.2.1, p.1.done)) = some (Status.OK, false) := by decide!
  obtain ⟨⟨s2, st2, b2⟩, h2, hval⟩ := Option.map_eq_some'.mp hpull
  simp only [Prod.mk.injEq] at hval
  obtain ⟨hst2, hdone2⟩ := hval
  refine ⟨by decide, by decide, by decide, ?_, ?_⟩
  · rw [h]
    exact congrArg some
      ((C2_final_report_per_terminal_call Collab.one_batch 5 _ s1 (by decide)
        (by decide)).1 st (by decide) h).2.1
  · rw [h2, Option.map_some']
    have h3 := (C2_final_report_per_terminal_call Collab.one_batch 5
      (prepared_executor true false false) s2 (by decide) (by decide)).2 st2 b2 h2
    rw [hst2, hdone2] at h3
    simp only [hst2, hdone2, h3]
    rfl

/-- C4 at the failing input: when `_sink->close` returns an error inside `open()` the
sink handle is not released, and `close()` calls `_sink->close` a second time. -/
theorem C4_sink_closed_twice_when_close_fails :
    ((prepared_executor true true false).run Collab.failing_sink_close 5
        [Op.open, Op.close]).map (fun x => x.trace.filter Event.is_sink_close) =
      some [Event.sink_close Status.OK (Status.InternalError "close failed"),
        Event.sink_close (Status.InternalError "close failed")
          (Status.InternalError "close failed")] := by
  decide!

/-- C8: END_OF_FILE from the sink is graceful termination.  Let `_plan->open`,
`_sink->open`, every `_plan->get_next` and `_sink->close` return OK, let a sink be present
and the status slot be OK.  (a) In every run of `open()` in which some `_sink->send`
returned END_OF_FILE, that send is the only such one, no `_plan->get_next` and no
`_sink->send` follows it, the sink is closed exactly once after it (with the status slot
as argument) and released, `open()` returns OK and the status slot is still OK.  (b) Such
runs terminate: if the plan keeps yielding non-empty batches and the sink answers OK to
the first `k` sends and END_OF_FILE to the next (`k = 0`: to the first send), `open()`
returns OK, after an END_OF_FILE send, for every fuel above `k`. -/
theorem C8_sink_eof_graceful (env : Collab) (s : PlanFragmentExecutor)
    (hpo : ∀ tr, (env.plan_open tr).ok = true) (hso : ∀ tr, (env.sink_open tr).ok = true)
    (hgn : ∀ tr, (env.plan_get_next tr).status.ok = true)
    (hclose : ∀ tr x, (env.sink_close tr x).ok = true)
    (hsink : s.sink = true) (hslot : s.status.ok = true) :
    (∀ (fuel : Nat) (s1 : PlanFragmentExecutor) (st : Status) (new : List Event),
      s.open env fuel = some (s1, st) → s1.trace = s.trace ++ new →
      (∃ e ∈ new, e.is_eof_send = true) →
      st = Status.OK ∧ s1.status.ok = true ∧ s1.status = s.status ∧ s1.sink = false ∧
      s1.done = true ∧
      ∃ (before : List Event) (rows : Nat) (ret : Status) (after : List Event)
        (ret2 : Status),
        new = before ++ [Event.sink_send rows ret] ++ after ∧ ret.is_end_of_file = true ∧
        (∀ e ∈ before, e.is_eof_send = false ∧ e.is_sink_close = false) ∧
        (∀ e ∈ after, e.is_plan_get_next = false ∧ e.is_sink_send = false) ∧
        after.filter Event.is_sink_close = [Event.sink_close s.status ret2]) ∧
    (∀ k : Nat, s.done = false →
      (∀ tr, 0 < (env.plan_get_next tr).rows ∧ (env.plan_get_next tr).eos = false) →
      (∀ tr rows, tr.countP Event.is_sink_send < s.trace.countP Event.is_sink_send + k →
        (env.sink_send tr rows).ok = true) →
      (∀ tr rows, tr.countP Event.is_sink_send = s.trace.countP Event.is_sink_send + k →
        (env.sink_send tr rows).is_end_of_file = true) →
      ∀ fuel, k < fuel →
        ∃ (s1 : PlanFragmentExecutor) (new : List Event),
          s.open env fuel = some (s1, Status.OK) ∧ s1.trace = s.trace ++ new ∧
          ∃ e ∈ new, e.is_eof_send = true) := by
  constructor
  · intro fuel s1 st new h hnew heof
    obtain ⟨h1, h2, h3, h4, h5⟩ := open_after_eof_send env fuel s s1 st new hclose h hnew heof
    exact ⟨h1, by rw [h2]; exact hslot, h2, h3, h4, h5⟩
  · intro k hdone hrows hok heof fuel hfuel
    exact open_reaches_eof env k s hpo hso hclose
      (fun tr => ⟨hgn tr, (hrows tr).1, (hrows tr).2⟩) hok heof hsink hdone fuel hfuel

/-- C8 at a concrete run: a sink that returns END_OF_FILE on the second send; `open()`
returns OK, the slot stays OK and the sink is released. -/
theorem C8_sink_eof_graceful_witness :
    (prepared_executor true true false).sink = true ∧
    (prepared_executor true true false).status.ok = true ∧
    ∃ (s1 : PlanFragmentExecutor) (new : List Event),
      (prepared_executor true true false).open (Collab.eof_sink 1) 5 =
        some (s1, Status.OK) ∧
      s1.trace = (prepared_executor true true false).trace ++ new ∧
      (∃ e ∈ new, e.is_eof_send = true) ∧
      s1.status = (prepared_executor true true false).status ∧ s1.sink = false := by
  have hC := C8_sink_eof_graceful (Collab.eof_sink 1) (prepared_executor true true false)
    (fun _ => rfl) (fun _ => rfl) (fun _ => rfl) (fun _ _ => rfl) (by decide) (by decide)
  have hok : ∀ (tr : List Event) (rows : Nat),
      tr.countP Event.is_sink_send <
        (prepared_executor true true false).trace.countP Event.is_sink_send + 1 →
      ((Collab.eof_sink 1).sink_send tr rows).ok = true := by
    intro tr rows h
    have h0 : (prepared_executor true true false).trace.countP Event.is_sink_send = 0 := rfl
    have h1 : tr.countP Event.is_sink_send ≠ 1 := by omega
    simp only [Collab.eof_sink, h1, if_false]
    rfl
  have heof : ∀ (tr : List Event) (rows : Nat),
      tr.countP Event.is_sink_send =
        (prepared_executor true true false).trace.countP Event.is_sink_send + 1 →
      ((Collab.eof_sink 1).sink_send tr rows).is_end_of_file = true := by
    intro tr rows h
    have h0 : (prepared_executor true true false).trace.countP Event.is_sink_send = 0 := rfl
    have h1 : tr.countP Event.is_sink_send = 1 := by omega
    simp only [Collab.eof_sink, h1, if_true]
    rfl
  obtain ⟨s1, new, hopen, htr, he⟩ :=
    hC.2 1 (by decide) (fun _ => ⟨Nat.succ_pos 9, rfl⟩) hok heof 5 (by decide)
  obtain ⟨-, -, hst, hsk, -⟩ := hC.1 5 s1 Status.OK new hopen htr he
  exact ⟨by decide, by decide, s1, new, hopen, htr, he, hst, hsk⟩

/-- C14: `cancel(reason, msg)` on a prepared executor (one whose runtime state exists)
records `reason` and `msg`, sets the runtime state's cancelled flag, calls `cancel(id)` on
the vectorized stream manager only when vectorized execution is enabled and on both the
data-stream manager and the result-buffer manager otherwise, and changes neither the
status slot nor the done flag nor the closed flag. -/
theorem C14_cancel_effects (s : PlanFragmentExecutor) (r : RuntimeState)
    (reason : PPlanFragmentCancelReason) (msg : String) (hr : s.runtime_state = some r) :
    (s.cancel reason msg).cancel_reason = reason ∧
    (s.cancel reason msg).cancel_msg = msg ∧
    (s.cancel reason msg).runtime_state = some { r with is_cancelled := true } ∧
    (s.cancel reason msg).trace = s.trace ++
      (if r.enable_vectorized_exec then [Event.vstream_mgr_cancel]
       else [Event.stream_mgr_cancel, Event.result_mgr_cancel]) ∧
    (s.cancel reason msg).status = s.status ∧
    (s.cancel reason msg).done = s.done ∧
    (s.cancel reason msg).closed = s.closed := by
  rw [cancel_eq]
  refine ⟨rfl, rfl, ?_, ?_, rfl, rfl, rfl⟩
  · simp [hr]
  · simp [enable_vectorized_exec, hr]

/-- C14 at concrete states: a row-based prepared executor notifies the data-stream and
result-buffer managers, a vectorized one only the vectorized stream manager. -/
theorem C14_cancel_effects_witness :
    (prepared_executor true true false).runtime_state =
      some ⟨false, TQueryType.SELECT, false, -1⟩ ∧
    ((prepared_executor true true false).cancel
        PPlanFragmentCancelReason.MEMORY_LIMIT_EXCEED "oom").trace =
      [Event.stream_mgr_cancel, Event.result_mgr_cancel] ∧
    ((prepared_executor true true true).cancel
        PPlanFragmentCancelReason.MEMORY_LIMIT_EXCEED "oom").trace =
      [Event.vstream_mgr_cancel] ∧
    ((prepared_executor true true false).cancel
        PPlanFragmentCancelReason.MEMORY_LIMIT_EXCEED "oom").runtime_state =
      some ⟨true, TQueryType.SELECT, false, -1⟩ :=
  ⟨rfl,
   (C14_cancel_effects (prepared_executor true true false) _ _ _ rfl).2.2.2.1,
   (C14_cancel_effects (prepared_executor true true true) _ _ _ rfl).2.2.2.1,
   (C14_cancel_effects (prepared_executor true true false) _ _ _ rfl).2.2.1⟩

/-- C15 as stated fails in both directions: with the status OK at the first call, a
second `cancel` with another reason replaces the recorded reason; with the status not OK
at the first call, the recorded reason is still that of the first call when no other
reason follows. -/
theorem C15_counterexample :
    ((prepared_executor true true false).status.ok = true ∧
      (((prepared_executor true true false).cancel
          PPlanFragmentCancelReason.INTERNAL_ERROR "a").cancel
          PPlanFragmentCancelReason.MEMORY_LIMIT_EXCEED "b").cancel_reason ≠
        PPlanFragmentCancelReason.INTERNAL_ERROR) ∧
    (aborted_executor.status.ok = false ∧
      (aborted_executor.cancel PPlanFragmentCancelReason.CALL_RPC_ERROR "a").cancel_reason =
        PPlanFragmentCancelReason.CALL_RPC_ERROR) := by
  decide

/-- C15 (amended): for all reasons and messages, after `cancel(r1, m1)` followed by any
number of further `cancel` calls the recorded cancel reason and message are those of the
last call made (those of the first call when no further call is made), whatever the
executor status was at the first call; the status slot is not changed. -/
theorem C15_cancel_last_call_wins (s : PlanFragmentExecutor)
    (r1 : PPlanFragmentCancelReason) (m1 : String)
    (calls : List (PPlanFragmentCancelReason × String)) :
    ((s.cancel r1 m1).cancel_calls calls).cancel_reason =
      ((calls.getLast?).map Prod.fst).getD r1 ∧
    ((s.cancel r1 m1).cancel_calls calls).cancel_msg =
      ((calls.getLast?).map Prod.snd).getD m1 ∧
    ((s.cancel r1 m1).cancel_calls calls).status = s.status := by
  have h := cancel_calls_last calls (s.cancel r1 m1)
  obtain ⟨f1, f2, f3⟩ := cancel_fields s r1 m1
  rw [f1, f2, f3] at h
  exact h

/-- C16: `cancel` is idempotent and silent.  For every reason `r` and message `m`,
`cancel(r, m); cancel(r, m)` leaves the same member variables (recorded reason and
message, runtime state with its cancelled flag, status slot and all others) as a single
`cancel(r, m)`, and no `cancel` call invokes the report callback. -/
theorem C16_cancel_idempotent_silent (s : PlanFragmentExecutor)
    (r : PPlanFragmentCancelReason) (m : String) :
    ((s.cancel r m).cancel r m).members = (s.cancel r m).members ∧
    (s.cancel r m).trace.filter Event.is_report = s.trace.filter Event.is_report ∧
    ((s.cancel r m).cancel r m).trace.filter Event.is_report =
      s.trace.filter Event.is_report := by
  have hf : ∀ (x : PlanFragmentExecutor),
      (x.cancel r m).trace.filter Event.is_report = x.trace.filter Event.is_report := by
    intro x
    rw [cancel_eq]
    simp only [List.filter_append]
    split <;> simp [Event.is_report]
  refine ⟨?_, hf s, by rw [hf, hf]⟩
  rw [cancel_eq (s.cancel r m), cancel_eq s]
  cases hr : s.runtime_state <;> simp [members, hr]

/-- C17: `close()` is idempotent.  For every executor state, a second `close()` returns
the state the first one left, trace included: it calls neither `_plan->close` nor
`_sink->close`, sends no report and changes no member. -/
theorem C17_close_idempotent (env env2 : Collab) (s : PlanFragmentExecutor) :
    (s.close env).close env2 = s.close env := by
  have h := close_closed env s
  generalize s.close env = x at h
  simp [close, h]

/-- C18: what `close()` passes to the sink.  On the first `close()` of an executor whose
runtime state exists, `_plan->close` is called iff the plan was built, then, iff a sink
still exists, `_sink->close` is called exactly once, with the value of the status slot
when `_prepared` is true and with `InternalError("prepare failed")` when it is false
(then the profile is printed if success reporting is on); these are all the calls made,
and the executor is closed afterwards. -/
theorem C18_close_sink_argument (env : Collab) (s : PlanFragmentExecutor) (r : RuntimeState)
    (hc : s.closed = false) (hr : s.runtime_state = some r) :
    (s.close env).trace = s.trace ++
      ((if s.plan then [Event.plan_close] else []) ++
       (if s.sink then
          [Event.sink_close
            (if s.prepared then s.status else Status.InternalError "prepare failed")
            (env.sink_close (s.trace ++ (if s.plan then [Event.plan_close] else []))
              (if s.prepared then s.status else Status.InternalError "prepare failed"))]
        else []) ++
       (if s.is_report_success then [Event.pretty_print_profile] else [])) ∧
    (s.close env).closed = true := by
  rw [close_eq env s r hc hr]
  exact ⟨rfl, rfl⟩

/-- C18 at concrete states: after a failed `prepare` the sink is closed with
`InternalError("prepare failed")`; an aborted prepared executor with a sink passes its
`Aborted` status. -/
theorem C18_close_sink_argument_witness :
    unprepared_executor.closed = false ∧
    unprepared_executor.runtime_state = some ⟨false, TQueryType.SELECT, false, -1⟩ ∧
    (unprepared_executor.close Collab.one_batch).trace =
      [Event.plan_close,
       Event.sink_close (Status.InternalError "prepare failed") Status.OK,
       Event.pretty_print_profile] ∧
    (((prepared_executor false true false).set_abort).close Collab.one_batch).trace =
      [Event.plan_close,
       Event.sink_close (Status.Aborted "Execution aborted before start") Status.OK,
       Event.pretty_print_profile] :=
  ⟨rfl, rfl,
   (C18_close_sink_argument Collab.one_batch unprepared_executor _ rfl rfl).1.trans
     (by decide),
   (C18_close_sink_argument Collab.one_batch ((prepared_executor false true false).set_abort)
     ⟨false, TQueryType.SELECT, false, -1⟩ (by decide) (by decide)).1.trans (by decide)⟩

/-- C19 at the failing input: in pull mode with periodic reporting on, `open()` starts
the report thread and a `close()` made before `get_next` reaches eos returns with
`_report_thread_active` still true and the thread not joined. -/
theorem C19_close_leaves_report_thread_running :
    ((prepared_executor true false false).run Collab.reporting 5 [Op.open, Op.close]).map
      (fun x => (x.closed, x.report_thread_active, x.trace)) =
      some (true, true,
        [Event.report_thread_start, Event.plan_open Status.OK, Event.plan_close,
         Event.pretty_print_profile]) := by
  decide

/-- C13 as stated fails: in pull mode a failing `_plan->open` makes `open()` send a
final report (through `update_status`). -/
theorem C13_counterexample :
    (prepared_executor true false false).sink = false ∧
    ((prepared_executor true false false).open Collab.failing_plan_open 5).map
      (fun p => (p.2, p.1.done, p.1.trace.filter Event.is_final_report)) =
      some (Status.InternalError "open failed", false,
        [Event.report_status_cb (Status.InternalError "open failed") true true]) := by
  decide

/-- C13 (amended): for every executor without a sink, `open()` returns (for every fuel),
having called `_plan->open` exactly once, no `_plan->get_next` and no sink operation, and
leaves the done flag as it was (false after `prepare`); whenever `_plan->open` returns OK
it returns OK and invokes no report callback; when `_plan->open` fails it returns that
error, a CANCELLED error rewritten by the recorded cancel reason
(`RuntimeError(_cancel_msg)` for CALL_RPC_ERROR, `MemoryLimitExceeded(_cancel_msg)` for
MEMORY_LIMIT_EXCEED), which is not OK, and, with a callback installed and success
reporting on, sends the final report once. -/
theorem C13_pull_mode_open (env : Collab) (fuel : Nat) (s : PlanFragmentExecutor)
    (hsink : s.sink = false) :
    ∃ (s1 : PlanFragmentExecutor) (st : Status) (new : List Event),
      s.open env fuel = some (s1, st) ∧ s1.trace = s.trace ++ new ∧
      new.countP Event.is_plan_open = 1 ∧
      (∀ e ∈ new, e.is_plan_get_next = false ∧ e.is_sink_call = false) ∧
      s1.done = s.done ∧
      (∀ r, Event.plan_open r ∈ new → r.ok = true →
        st = Status.OK ∧ ∀ e ∈ new, e.is_report = false) ∧
      (∀ r, Event.plan_open r ∈ new → r.ok = false →
        st.ok = false ∧ st = s.rewrite_cancelled r ∧
        (s.report_status_cb = true → s.is_report_success = true →
          new.countP Event.is_final_report = 1)) := by
  obtain ⟨s1, st, t0, bk, hopen, htr, ht0, hbk, hdone, -, hok, hbad⟩ :=
    open_pull env fuel s hsink
  have hmem : ∀ r, Event.plan_open r ∈
      t0 ++ [Event.plan_open (env.plan_open (s.trace ++ t0))] ++ bk →
      r = env.plan_open (s.trace ++ t0) := by
    intro r hr
    simp only [List.mem_append, List.mem_singleton] at hr
    rcases hr with (hr | hr) | hr
    · exact Event.noConfusion (ht0 _ hr)
    · exact Event.plan_open.inj hr
    · have h1 := hbk _ hr
      rw [not_bookkeeping_plan_open] at h1
      cases h1
  have c0 : ∀ (p : Event → Bool), p Event.report_thread_start = false →
      t0.countP p = 0 := by
    intro p hp
    apply countP_zero_of_all_false
    intro e he
    rw [ht0 e he]
    exact hp
  have hpo : Event.is_plan_open Event.report_thread_start = false := rfl
  have hfr : Event.is_final_report Event.report_thread_start = false := rfl
  refine ⟨s1, st, t0 ++ [Event.plan_open (env.plan_open (s.trace ++ t0))] ++ bk, hopen, htr,
    ?_, ?_, hdone, ?_, ?_⟩
  · have c2 : bk.countP Event.is_plan_open = 0 :=
      countP_zero_of_all_false (fun e he => (bookkeeping_not_plan_or_sink (hbk e he)).1)
    rw [List.countP_append, List.countP_append, c0 Event.is_plan_open hpo, c2]
    rfl
  · intro e he
    simp only [List.mem_append, List.mem_singleton] at he
    rcases he with (he | he) | he
    · rw [ht0 e he]
      exact ⟨rfl, rfl⟩
    · rw [he]
      exact ⟨rfl, rfl⟩
    · exact ⟨(bookkeeping_not_plan_or_sink (hbk e he)).2.2,
        (bookkeeping_not_plan_or_sink (hbk e he)).2.1⟩
  · intro r hr hrok
    rw [hmem r hr] at hrok
    obtain ⟨h1, h2⟩ := hok hrok
    refine ⟨h1, ?_⟩
    intro e he
    rw [h2] at he
    simp only [List.mem_append, List.mem_singleton, List.not_mem_nil, or_false] at he
    rcases he with he | he
    · rw [ht0 e he]
      rfl
    · rw [he]
      rfl
  · intro r hr hrbad
    have hr0 := hmem r hr
    rw [hr0] at hrbad
    obtain ⟨h1, h2⟩ := hbad hrbad
    refine ⟨h1, ?_, fun hcb hrs => ?_⟩
    · obtain ⟨st0, hrw, hret⟩ := open_returns env fuel s s1 st hopen
      rcases hret with rfl | ⟨-, before, e, after, htr2, -, he, hce, -⟩
      · rw [hrw] at h1
        cases h1
      · rw [htr] at htr2
        have hnew := List.append_cancel_left htr2
        have hin : e ∈ t0 ++ [Event.plan_open (env.plan_open (s.trace ++ t0))] ++ bk := by
          rw [hnew]
          simp
        simp only [List.mem_append, List.mem_singleton] at hin
        rcases hin with (hin | hin) | hin
        · rw [ht0 e hin] at he
          rcases he with he | he <;> cases he
        · rw [hrw, ← hce, hin, hr0]
          rfl
        · rw [(bookkeeping_kinds (hbk e hin)).1, (bookkeeping_kinds (hbk e hin)).2.1] at he
          rcases he with he | he <;> cases he
    · rw [List.countP_append, List.countP_append, c0 Event.is_final_report hfr, h2 hcb hrs]
      rfl

/-- C13 (amended) at a concrete state: pull-mode `open()` on a prepared executor
returns. -/
theorem C13_pull_mode_open_witness :
    (prepared_executor true false false).sink = false ∧
    ∃ (s1 : PlanFragmentExecutor) (st : Status) (new : List Event),
      (prepared_executor true false false).open Collab.one_batch 5 = some (s1, st) ∧
      s1.trace = (prepared_executor true false false).trace ++ new ∧
      new.countP Event.is_plan_open = 1 ∧
      s1.done = (prepared_executor true false false).done := by
  obtain ⟨s1, st, new, h1, h2, h3, -, h4, -⟩ :=
    C13_pull_mode_open Collab.one_batch 5 (prepared_executor true false false) rfl
  exact ⟨rfl, s1, st, new, h1, h2, h3, h4⟩

/-- C12: `get_next` records its outcome and performs the terminal actions at eos.  For
every call that returns, the status returned is the result of `get_next_internal` and is
the status passed to `update_status`, so an error returned by `get_next` is in the status
slot afterwards whenever the slot was OK; and whenever `_done` is set at the end of the
call, the report thread has been stopped and `send_report(true)` was the last action
(its callback, when the filter lets it through, is the last event of the trace). -/
theorem C12_get_next_records_outcome (env : Collab) (fuel : Nat)
    (s s1 : PlanFragmentExecutor) (st : Status) (b : Option Nat)
    (h : s.get_next env fuel = some (s1, st, b)) :
    (∃ sa : PlanFragmentExecutor, get_next_internal env fuel s none = some (sa, st, b) ∧
      sa.status = s.status ∧
      s1 = (if (sa.update_status st).done then
              ((sa.update_status st).stop_report_thread).send_report true
            else sa.update_status st)) ∧
    (st.ok = false → s.status.ok = true → s1.status = st) ∧
    (st.ok = false → s1.report_thread_active = false) ∧
    (s1.done = true →
      s1.report_thread_active = false ∧
      ∃ mid : PlanFragmentExecutor, s1 = mid.send_report true ∧
        mid.report_thread_active = false ∧
        (s1.report_status_cb = true →
          (s1.is_report_success = true ∨
            (s1.is_report_on_cancel = true ∧ s1.status.ok = false)) →
          s1.trace.getLast? =
            some (Event.report_status_cb s1.status s1.is_report_success true))) := by
  have hstatus := get_next_status env fuel s s1 st b h
  unfold get_next at h
  split at h
  · simp at h
  · rename_i sa sta ba hint
    simp only [Option.some.injEq, Prod.mk.injEq] at h
    obtain ⟨rfl, rfl, rfl⟩ := h
    have hcore := (get_next_internal_spec env _ _ _ _ _ _ hint).1
    refine ⟨⟨sa, hint, status_of_drive_core hcore, rfl⟩, ?_, ?_, ?_⟩
    · intro h1 h2
      rw [hstatus]
      simp [h1, h2]
    · intro h1
      have hact : (sa.update_status sta).report_thread_active = false := by
        rw [update_status_eq sa sta h1]
      split
      · exact (finish_shape _).choose_spec.2.2.2.2.2
      · exact hact
    · intro hdone
      by_cases hx : (sa.update_status sta).done = true
      · rw [if_pos hx]
        have hact := stop_report_thread_active (sa.update_status sta)
        refine ⟨by rw [send_report_report_thread_active]; exact hact,
          (sa.update_status sta).stop_report_thread, rfl, hact, ?_⟩
        intro hcb hr
        have e1 : (((sa.update_status sta).stop_report_thread).send_report true).status =
            ((sa.update_status sta).stop_report_thread).status := send_report_status _ _
        have e2 : (((sa.update_status sta).stop_report_thread).send_report true).is_report_success
            = ((sa.update_status sta).stop_report_thread).is_report_success := by
          rw [send_report_eq]
        have e3 : (((sa.update_status sta).stop_report_thread).send_report true).report_status_cb
            = ((sa.update_status sta).stop_report_thread).report_status_cb := by
          rw [send_report_eq]
        have e4 : (((sa.update_status sta).stop_report_thread).send_report
            true).is_report_on_cancel
            = ((sa.update_status sta).stop_report_thread).is_report_on_cancel := by
          rw [send_report_eq]
        rw [e1, e2]
        rw [e3] at hcb
        rw [e1, e2, e4] at hr
        exact send_report_last _ hcb hr
      · rw [if_neg hx] at hdone
        exact absurd hdone hx

/-- C12 at a concrete run: a scan error returned by `get_next` is stored in the status
slot, which was OK. -/
theorem C12_get_next_records_outcome_witness :
    (prepared_executor true false false).status.ok = true ∧
    ((prepared_executor true false false).get_next Collab.failing_scan 5).map
      (fun p => (p.2.1, p.1.status)) =
      some (Status.InternalError "scan failed", Status.InternalError "scan failed") := by
  have hval : ((prepared_executor true false false).get_next Collab.failing_scan 5).map
      (fun p => p.2.1) = some (Status.InternalError "scan failed") := by decide!
  obtain ⟨⟨s1, st, b⟩, h, hst⟩ := Option.map_eq_some'.mp hval
  simp only at hst
  refine ⟨rfl, ?_⟩
  rw [h, Option.map_some']
  have h1 := (C12_get_next_records_outcome Collab.failing_scan 5 _ s1 st b h).2.1
    (by rw [hst]; rfl) rfl
  rw [h1, hst]

/-- C11: `get_next` returns the next non-empty batch, or null at eos.  Let every
`_plan->get_next` return OK.  (a) Every `get_next` call that returns, returns OK; if
`_done` was set it calls the plan no more and returns a null batch; otherwise the plan
calls it makes are a run of skipped empty batches (OK, 0 rows, no eos) followed by one
last call, which either yields `rows > 0` rows, and then `batch` is that batch, or yields
no row with eos, and then `batch` is null; `_done` is the eos flag of that last call.  So
a non-null batch has at least one row and a null batch is returned only with `_done` set.
(b) Once `_done` is set every later call returns (null, OK) without calling the plan.
(c) A call fails to return within `fuel` plan calls only when `_done` is false and the
plan answers `fuel` calls in a row with an empty batch and no eos. -/
theorem C11_get_next_batches (env : Collab) (s : PlanFragmentExecutor)
    (hok : ∀ tr, (env.plan_get_next tr).status.ok = true) :
    (∀ (fuel : Nat) (s1 : PlanFragmentExecutor) (st : Status) (b : Option Nat),
      s.get_next env fuel = some (s1, st, b) →
      st = Status.OK ∧
      ((s.done = true ∧ b = none ∧ s1.done = true ∧
          s1.trace.filter Event.is_plan_get_next = s.trace.filter Event.is_plan_get_next) ∨
       (s.done = false ∧
        ∃ (skipped : List Event) (r : Status) (rows : Nat) (eos : Bool),
          s1.trace.filter Event.is_plan_get_next =
            s.trace.filter Event.is_plan_get_next ++ skipped ++
              [Event.plan_get_next r rows eos] ∧
          (∀ e ∈ skipped, ∃ r0 : Status, r0.ok = true ∧ e = Event.plan_get_next r0 0 false) ∧
          s1.done = eos ∧
          ((0 < rows ∧ b = some rows) ∨ (rows = 0 ∧ eos = true ∧ b = none))))) ∧
    (s.done = true → ∀ fuel,
      ∃ s1 : PlanFragmentExecutor, s.get_next env fuel = some (s1, Status.OK, none) ∧
        s1.done = true ∧
        s1.trace.filter Event.is_plan_get_next = s.trace.filter Event.is_plan_get_next) ∧
    (∀ fuel, s.get_next env fuel = none ↔
      (s.done = false ∧ consecutive_empty env fuel s.trace = true)) := by
  refine ⟨?_, fun hd fuel => get_next_done env fuel s hd, fun fuel => get_next_none env fuel s⟩
  intro fuel s1 st b h
  obtain ⟨sa, bk, hint, htr, hall, hdn⟩ := get_next_tail env fuel s s1 st b h
  have hbk : bk.filter Event.is_plan_get_next = [] :=
    filter_nil_of_all_false (fun e he => (bookkeeping_kinds (hall e he)).2.2.2.1)
  rcases get_next_internal_detail env fuel s none sa st b hint with
    ⟨hd, rfl, rfl, rfl⟩ | ⟨hd, skipped, r, rows, eos, htr1, henv, hsk, hdone, hcases⟩
  · refine ⟨rfl, Or.inl ⟨hd, rfl, by rw [hdn]; exact hd, ?_⟩⟩
    rw [htr, List.filter_append, hbk, List.append_nil]
  · have hr : r.ok = true := by
      rw [henv.1]
      exact hok _
    have hskf : skipped.filter Event.is_plan_get_next = skipped := by
      rw [List.filter_eq_self]
      intro e he
      obtain ⟨r0, -, rfl⟩ := hsk e he
      rfl
    have hst : st = Status.OK ∧ ((0 < rows ∧ b = some rows) ∨
        (rows = 0 ∧ eos = true ∧ b = none)) := by
      rcases hcases with ⟨h1, -⟩ | ⟨-, h2, h3, h4, -⟩ | ⟨-, h2, h3, h4, h5, -⟩
      · rw [hr] at h1
        cases h1
      · exact ⟨h3, Or.inl ⟨h2, h4⟩⟩
      · exact ⟨h4, Or.inr ⟨h2, h3, h5⟩⟩
    refine ⟨hst.1, Or.inr ⟨hd, skipped, r, rows, eos, ?_, hsk, by rw [hdn]; exact hdone, hst.2⟩⟩
    rw [htr, htr1]
    simp only [List.filter_append, hbk, hskf, List.append_nil]
    rfl

/-- C11 at a concrete run: plan batches of 5 rows, 3 rows, then eos give batch(5),
batch(3) and (null, OK). -/
theorem C11_get_next_batches_witness :
    (∀ tr, (Collab.five_three.plan_get_next tr).status.ok = true) ∧
    (prepared_executor true false false).poll Collab.five_three 5 3 =
      some [(Status.OK, some 5), (Status.OK, some 3), (Status.OK, none)] ∧
    ((prepared_executor true false false).get_next Collab.five_three 5).map
      (fun p => (p.2.1, p.2.2)) = some (Status.OK, some 5) := by
  have hok : ∀ tr, (Collab.five_three.plan_get_next tr).status.ok = true := by
    intro tr
    show ((([⟨Status.OK, 5, false⟩, ⟨Status.OK, 3, false⟩, ⟨Status.OK, 0, true⟩] :
      List PlanResp).get? (tr.countP Event.is_plan_get_next)).getD
        ⟨Status.OK, 0, true⟩).status.ok = true
    generalize tr.countP Event.is_plan_get_next = n
    rcases n with _ | _ | _ | n <;> rfl
  have hval : ((prepared_executor true false false).get_next Collab.five_three 5).map
      (fun p => p.2.2) = some (some 5) := by decide!
  obtain ⟨⟨s1, st, b⟩, h, hb⟩ := Option.map_eq_some'.mp hval
  simp only at hb
  refine ⟨hok, by decide!, ?_⟩
  rw [h, Option.map_some']
  have h1 := ((C11_get_next_batches Collab.five_three (prepared_executor true false false)
    hok).1 5 s1 st b h).1
  rw [h1, hb]

/-- C20: the flag `_prepared`.  (1) A newly constructed executor has it false.  (2) On
an executor where it is false, it is true after `prepare` exactly when `prepare` returned
OK; (3) a `prepare` that returns an error leaves the flag as it was, since every failing
step returns before the assignment.  (4) Nothing resets it: `prepare` on an executor
where it is true leaves it true, and (5) every sequence of the other operations
(`update_status`, `set_abort`, `open`, `get_next`, `cancel`, `send_report`, `close`)
leaves the flag as it found it. -/
theorem C20_prepared_flag (penv : PrepareCollab) (request : TExecPlanFragmentParams)
    (fragments_ctx report_status_cb : Bool) (env : Collab) (fuel : Nat) (ops : List Op)
    (s s1 : PlanFragmentExecutor)
    (hrun : (s.prepare penv request fragments_ctx).1.run env fuel ops = some s1) :
    (construct report_status_cb).prepared = false ∧
    (s.prepared = false →
      ((s.prepare penv request fragments_ctx).1.prepared = true ↔
        (s.prepare penv request fragments_ctx).2.ok = true)) ∧
    ((s.prepare penv request fragments_ctx).2.ok = false →
      (s.prepare penv request fragments_ctx).1.prepared = s.prepared) ∧
    (s.prepared = true → (s.prepare penv request fragments_ctx).1.prepared = true) ∧
    s1.prepared = (s.prepare penv request fragments_ctx).1.prepared := by
  have hp := prepare_prepared penv request fragments_ctx s
  refine ⟨rfl, ?_, ?_, ?_, run_prepared env fuel ops _ s1 hrun⟩
  · intro hs
    rw [hp, hs]
    cases (s.prepare penv request fragments_ctx).2.ok <;> simp
  · intro hk
    rw [hp, hk]
    rfl
  · intro hs
    rw [hp, hs]
    cases (s.prepare penv request fragments_ctx).2.ok <;> rfl

/-- C20 at a concrete run: a successful `prepare` of a new executor sets the flag, and
it is still set after `open()` and `close()`; a `prepare` whose last fallible step fails
leaves it false. -/
theorem C20_prepared_flag_witness :
    ((construct true).prepare PrepareCollab.all_ok TExecPlanFragmentParams.with_sink
      false).2.ok = true ∧
    ((construct true).prepare PrepareCollab.failing_sink_prepare
      TExecPlanFragmentParams.with_sink false).1.prepared = false ∧
    (((construct true).prepare PrepareCollab.all_ok TExecPlanFragmentParams.with_sink
      false).1.run Collab.one_batch 5 [Op.open, Op.close]).map (fun x => x.prepared) =
      some true := by
  have hsome : (((construct true).prepare PrepareCollab.all_ok
      TExecPlanFragmentParams.with_sink false).1.run Collab.one_batch 5
        [Op.open, Op.close]).isSome = true := by decide!
  obtain ⟨s1, h⟩ := Option.isSome_iff_exists.mp hsome
  have hc := C20_prepared_flag PrepareCollab.all_ok TExecPlanFragmentParams.with_sink
    false true Collab.one_batch 5 [Op.open, Op.close] (construct true) s1 h
  refine ⟨by decide, by decide, ?_⟩
  rw [h, Option.map_some']
  exact congrArg some (hc.2.2.2.2.trans ((hc.2.1 rfl).mpr (by decide)))

/-- C24: `DateV2Value` packs a date as `(year << 9) | (month << 5) | day` and unpacks it
back.  For every year that fits `uint16_t`, month in 1..12 and day in 1..31: after
`set_time(year, month, day)` the accessors return the inputs, `hour()`, `minute()` and
`second()` return 0 and `to_date_uint32()` is `(year << 9) | (month << 5) | day`; and
`from_date` of that word gives a value with the same year, month, day and the same
`to_date_uint32()`. -/
theorem C24_date_v2_pack_roundtrip (v w : DateV2Value) (year month day : Nat)
    (hy : year < 2 ^ 16) (hm1 : 1 ≤ month) (hm : month ≤ 12) (hd1 : 1 ≤ day) (hd : day ≤ 31) :
    (v.set_time year month day).year = year ∧
    (v.set_time year month day).month = month ∧
    (v.set_time year month day).day = day ∧
    (v.set_time year month day).hour = 0 ∧
    (v.set_time year month day).minute = 0 ∧
    (v.set_time year month day).second = 0 ∧
    (v.set_time year month day).to_date_uint32 = (year <<< 9) ||| (month <<< 5) ||| day ∧
    (w.from_date ((year <<< 9) ||| (month <<< 5) ||| day)).year = year ∧
    (w.from_date ((year <<< 9) ||| (month <<< 5) ||| day)).month = month ∧
    (w.from_date ((year <<< 9) ||| (month <<< 5) ||| day)).day = day ∧
    (w.from_date ((year <<< 9) ||| (month <<< 5) ||| day)).to_date_uint32 =
      (year <<< 9) ||| (month <<< 5) ||| day ∧
    w.from_date (v.set_time year month day).to_date_uint32 = v.set_time year month day := by
  have hp : (year <<< 9) ||| (month <<< 5) ||| day = year * 512 + month * 32 + day :=
    DateV2Value.packed_eq year month day (by omega) (by omega)
  have hy2 : year < 65536 := by simpa using hy
  have e1 : year % 2 ^ 23 = year := Nat.mod_eq_of_lt (by omega)
  have e2 : month % 2 ^ 4 = month := Nat.mod_eq_of_lt (by omega)
  have e3 : day % 2 ^ 5 = day := Nat.mod_eq_of_lt (by omega)
  have e4 : (year * 512 + month * 32 + day) % 2 ^ 32 = year * 512 + month * 32 + day :=
    Nat.mod_eq_of_lt (by omega)
  have hs : v.set_time year month day = ⟨year * 512 + month * 32 + day⟩ := by
    unfold DateV2Value.set_time
    rw [e1, e2, e3]
    norm_num
  have hf : w.from_date (year * 512 + month * 32 + day) =
      ⟨year * 512 + month * 32 + day⟩ := by
    unfold DateV2Value.from_date
    rw [e4]
  rw [hp, hs, hf]
  simp only [DateV2Value.year, DateV2Value.month, DateV2Value.day, DateV2Value.hour,
    DateV2Value.minute, DateV2Value.second, DateV2Value.to_date_uint32,
    Nat.shiftRight_eq_div_pow]
  norm_num
  exact ⟨by omega, by omega, by omega, by omega, by omega, by omega, hf⟩

/-- C24 at the date of the tests, 2022-05-24. -/
theorem C24_date_v2_pack_roundtrip_witness :
    ((⟨0⟩ : DateV2Value).set_time 2022 5 24).year = 2022 ∧
    ((⟨0⟩ : DateV2Value).set_time 2022 5 24).month = 5 ∧
    ((⟨0⟩ : DateV2Value).set_time 2022 5 24).day = 24 ∧
    ((⟨0⟩ : DateV2Value).set_time 2022 5 24).to_date_uint32 = 1035448 ∧
    ((⟨0⟩ : DateV2Value).from_date 1035448).year = 2022 := by
  have h := C24_date_v2_pack_roundtrip ⟨0⟩ ⟨0⟩ 2022 5 24 (by decide) (by decide) (by decide)
    (by decide) (by decide)
  exact ⟨h.1, h.2.1, h.2.2.1, by decide, by decide⟩

/-- C28: while the predicate is enabled, the vectorized `evaluate` is an order-preserving
in-place filter.  For a selection vector with `size` entries (`size` fits `uint16_t`):
the returned `new_size` is the number of selected rows that are not null and found in
the filter, it is at most `size`, `sel[0..new_size)` is the subsequence of the original
`sel[0..size)` made of exactly those rows in their order, no row in it is null, and the
entries from `size` on are untouched.  After any number `j ≤ size` of iterations of the
loop, `new_size ≤ j` and the entries `sel[j..)` not yet read are as they were: the write
at `sel[new_size]` never hits an entry not yet read. -/
theorem C28_bloom_filter_selection (check_row_num : Nat) (p : BloomFilterColumnPredicate)
    (column : IColumn) (sel : List Nat) (size : Nat)
    (hen : p.enable_pred = true) (hsize : size ≤ sel.length) (h16 : size < 2 ^ 16) :
    (p.evaluate check_row_num column sel size).2.2 =
      ((sel.take size).filter (p.passes column)).length ∧
    (p.evaluate check_row_num column sel size).2.2 ≤ size ∧
    (p.evaluate check_row_num column sel size).2.1.take
        (p.evaluate check_row_num column sel size).2.2 =
      (sel.take size).filter (p.passes column) ∧
    (∀ idx ∈ (p.evaluate check_row_num column sel size).2.1.take
        (p.evaluate check_row_num column sel size).2.2,
      (column.is_nullable && column.null_map idx) = false) ∧
    (p.evaluate check_row_num column sel size).2.1.drop size = sel.drop size ∧
    (p.evaluate check_row_num column sel size).2.1.length = sel.length ∧
    (∀ j, j ≤ size →
      (BloomFilterColumnPredicate.evaluate_loop (p.passes column) j 0 0 sel).2 ≤ j ∧
      (BloomFilterColumnPredicate.evaluate_loop (p.passes column) j 0 0 sel).1.drop j = sel.drop j) := by
  have hloop := BloomFilterColumnPredicate.evaluate_loop_spec (p.passes column)
  obtain ⟨r1, r2, r3, r4⟩ := hloop size 0 0 sel (Nat.le_refl 0) (by omega) (by omega)
  simp only [List.drop_zero, Nat.zero_add, List.take_zero, List.nil_append] at r1 r2 r3
  rw [(BloomFilterColumnPredicate.evaluate_enabled check_row_num p column sel size hen).1]
  have hle : ((sel.take size).filter (p.passes column)).length ≤ size := by
    refine (List.length_filter_le _ _).trans ?_
    rw [List.length_take]
    exact Nat.min_le_left _ _
  refine ⟨r1, by rw [r1]; exact hle, r2, ?_, r3, r4, ?_⟩
  · intro idx hidx
    rw [r2] at hidx
    have hp := (List.mem_filter.mp hidx).2
    unfold BloomFilterColumnPredicate.passes at hp
    simp only [Bool.and_eq_true, Bool.not_eq_true'] at hp
    exact hp.1
  · intro j hj
    obtain ⟨q1, -, q3, -⟩ := hloop j 0 0 sel (Nat.le_refl 0) (by omega) (by omega)
    simp only [List.drop_zero, Nat.zero_add] at q1 q3
    refine ⟨?_, q3⟩
    rw [q1]
    refine (List.length_filter_le _ _).trans ?_
    rw [List.length_take]
    exact Nat.min_le_left _ _

/-- C28 at a concrete call: of the rows 9, 8, 4, 2, 1, 0 of a column whose row 4 is
null, the even rows 8, 2, 0 pass, in this order. -/
theorem C28_bloom_filter_selection_witness :
    ((BloomFilterColumnPredicate.construct SpecificFilter.evens).evaluate 5 IColumn.ten_rows [9, 8, 4, 2, 1, 0, 7] 6).2.2 =
      3 ∧
    ((BloomFilterColumnPredicate.construct SpecificFilter.evens).evaluate 5 IColumn.ten_rows
      [9, 8, 4, 2, 1, 0, 7] 6).2.1.take 3 = [8, 2, 0] ∧
    ((BloomFilterColumnPredicate.construct SpecificFilter.evens).evaluate 5 IColumn.ten_rows
      [9, 8, 4, 2, 1, 0, 7] 6).2.1.drop 6 = [7] := by
  have h := C28_bloom_filter_selection 5 (BloomFilterColumnPredicate.construct SpecificFilter.evens) IColumn.ten_rows
    [9, 8, 4, 2, 1, 0, 7] 6 rfl (by decide) (by decide)
  refine ⟨h.1.trans (by decide), ?_, h.2.2.2.2.1.trans (by decide)⟩
  have h3 := h.2.2.1
  rw [h.1] at h3
  exact h3.trans (by decide)

/-- C29: adaptive disabling.  A new predicate has `_evaluated_rows = 1`,
`_passed_rows = 0` and is enabled.  On an enabled predicate (with counters below `2^53`
and `_passed_rows ≤ _evaluated_rows`, as they are from construction on) a vectorized
`evaluate` adds `size` to `_evaluated_rows` and `new_size` to `_passed_rows`, keeps
`_passed_rows ≤ _evaluated_rows`, and disables the predicate exactly when afterwards
`_evaluated_rows > bloom_filter_predicate_check_row_num` and
`2 * _passed_rows > _evaluated_rows`.  On a disabled predicate every `evaluate` returns
`size` and leaves `sel`, both counters and the flag as they are, so the predicate is never
enabled again, whatever calls follow. -/
theorem C29_bloom_filter_adaptive_disable (check_row_num : Nat)
    (p : BloomFilterColumnPredicate) (filter : SpecificFilter) (column : IColumn)
    (sel : List Nat) (size : Nat) (calls : List (IColumn × List Nat × Nat))
    (hinv : p.passed_rows ≤ p.evaluated_rows) (hbound : p.evaluated_rows + size < 2 ^ 53)
    (hsize : size ≤ sel.length) (h16 : size < 2 ^ 16) :
    ((BloomFilterColumnPredicate.construct filter).evaluated_rows = 1 ∧ (BloomFilterColumnPredicate.construct filter).passed_rows = 0 ∧
      (BloomFilterColumnPredicate.construct filter).enable_pred = true) ∧
    (p.enable_pred = true →
      (p.evaluate check_row_num column sel size).1.evaluated_rows = p.evaluated_rows + size ∧
      (p.evaluate check_row_num column sel size).1.passed_rows =
        p.passed_rows + (p.evaluate check_row_num column sel size).2.2 ∧
      (p.evaluate check_row_num column sel size).1.passed_rows ≤
        (p.evaluate check_row_num column sel size).1.evaluated_rows ∧
      ((p.evaluate check_row_num column sel size).1.enable_pred = false ↔
        (check_row_num < (p.evaluate check_row_num column sel size).1.evaluated_rows ∧
          (p.evaluate check_row_num column sel size).1.evaluated_rows <
            2 * (p.evaluate check_row_num column sel size).1.passed_rows))) ∧
    (p.enable_pred = false →
      p.evaluate check_row_num column sel size = (p, sel, size) ∧
      BloomFilterColumnPredicate.evaluate_calls check_row_num p calls = (p, calls.map (fun c => (c.2.1, c.2.2)))) := by
  refine ⟨⟨rfl, rfl, rfl⟩, ?_, ?_⟩
  · intro hen
    obtain ⟨e1, e2, e3, e4⟩ := BloomFilterColumnPredicate.evaluate_enabled check_row_num p column sel size hen
    obtain ⟨r1, -, -, -⟩ := BloomFilterColumnPredicate.evaluate_loop_spec (p.passes column) size 0 0 sel (Nat.le_refl 0)
      (by omega) (by omega)
    have hle : (BloomFilterColumnPredicate.evaluate_loop (p.passes column) size 0 0 sel).2 ≤ size := by
      rw [r1, Nat.zero_add]
      refine (List.length_filter_le _ _).trans ?_
      rw [List.length_take]
      exact Nat.min_le_left _ _
    have hb53 : p.evaluated_rows + size < 9007199254740992 := by simpa using hbound
    have m1 : (p.evaluated_rows + size) % 2 ^ 64 = p.evaluated_rows + size :=
      Nat.mod_eq_of_lt (by omega)
    have m2 : (p.passed_rows + (BloomFilterColumnPredicate.evaluate_loop (p.passes column) size 0 0 sel).2) % 2 ^ 64 =
        p.passed_rows + (BloomFilterColumnPredicate.evaluate_loop (p.passes column) size 0 0 sel).2 :=
      Nat.mod_eq_of_lt (by omega)
    rw [m1] at e2 e4
    rw [m2] at e3 e4
    rw [e2, e3, e4, e1]
    refine ⟨rfl, rfl, by omega, ?_⟩
    by_cases hc : check_row_num < p.evaluated_rows + size
    · rw [if_pos hc]
      have hq := BloomFilterColumnPredicate.pass_rate_gt_half
        (p.passed_rows + (BloomFilterColumnPredicate.evaluate_loop (p.passes column) size 0 0 sel).2)
        (p.evaluated_rows + size) (by omega)
      by_cases hr : p.evaluated_rows + size <
          2 * (p.passed_rows + (BloomFilterColumnPredicate.evaluate_loop (p.passes column) size 0 0 sel).2)
      · rw [if_pos (hq.mpr hr)]
        exact ⟨fun _ => ⟨hc, hr⟩, fun _ => rfl⟩
      · rw [if_neg (fun h => hr (hq.mp h))]
        exact ⟨fun h => Bool.noConfusion h, fun h => absurd h.2 hr⟩
    · simp [hc]
  · intro hen
    exact ⟨BloomFilterColumnPredicate.evaluate_disabled check_row_num p column sel size hen,
      BloomFilterColumnPredicate.evaluate_calls_disabled check_row_num p hen calls⟩

/-- C29 at a concrete run: with a check threshold of 5 rows, a first call in which 4 of 6
rows pass (7 rows evaluated, 4 passed) disables the predicate, and the next call returns
its selection vector unchanged. -/
theorem C29_bloom_filter_adaptive_disable_witness :
    ((BloomFilterColumnPredicate.construct SpecificFilter.evens).evaluate 5 IColumn.ten_rows [0, 2, 6, 8, 1, 3] 6).2.2 =
      4 ∧
    ((BloomFilterColumnPredicate.construct SpecificFilter.evens).evaluate 5 IColumn.ten_rows
      [0, 2, 6, 8, 1, 3] 6).1.enable_pred = false ∧
    (((BloomFilterColumnPredicate.construct SpecificFilter.evens).evaluate 5 IColumn.ten_rows
      [0, 2, 6, 8, 1, 3] 6).1.evaluate 5 IColumn.ten_rows [1, 3, 5] 3).2 = ([1, 3, 5], 3) := by
  have h := C29_bloom_filter_adaptive_disable 5 (BloomFilterColumnPredicate.construct SpecificFilter.evens)
    SpecificFilter.evens IColumn.ten_rows [0, 2, 6, 8, 1, 3] 6 [] (by decide) (by decide)
    (by decide) (by decide)
  have hn : ((BloomFilterColumnPredicate.construct SpecificFilter.evens).evaluate 5 IColumn.ten_rows
      [0, 2, 6, 8, 1, 3] 6).2.2 = 4 := by decide
  obtain ⟨h1, h2, -, h4⟩ := h.2.1 rfl
  have hoff : ((BloomFilterColumnPredicate.construct SpecificFilter.evens).evaluate 5 IColumn.ten_rows
      [0, 2, 6, 8, 1, 3] 6).1.enable_pred = false := by
    rw [h4, h1, h2, hn]
    decide
  refine ⟨hn, hoff, ?_⟩
  rw [BloomFilterColumnPredicate.evaluate_disabled 5 _ IColumn.ten_rows [1, 3, 5] 3 hoff]

/-- C30: `TABLET_SHUTDOWN` is absorbing in `set_tablet_state`.  (1) When the meta state is
`TABLET_SHUTDOWN` and the requested state is not, the call returns
`OLAP_ERR_META_INVALID_ARGUMENT` and changes neither the meta state nor `_state`.
(2) In every other case it returns OK and sets both to the requested state.  (3) The
constructor makes the two equal, and (4) they stay equal over every sequence of calls;
(5) a meta state `TABLET_SHUTDOWN` survives every sequence of calls. -/
theorem C30_set_tablet_state_shutdown_absorbing (t : BaseTablet) (state : TabletState)
    (m : TabletState) (states : List TabletState) :
    (t.tablet_meta_state = TabletState.TABLET_SHUTDOWN ∧ state ≠ TabletState.TABLET_SHUTDOWN →
      t.set_tablet_state state =
        (t, OLAPStatus.OLAPInternalError OLAPErrorCode.OLAP_ERR_META_INVALID_ARGUMENT)) ∧
    (¬ (t.tablet_meta_state = TabletState.TABLET_SHUTDOWN ∧
          state ≠ TabletState.TABLET_SHUTDOWN) →
      t.set_tablet_state state = (⟨state, state⟩, OLAPStatus.OK)) ∧
    (BaseTablet.construct m).state = (BaseTablet.construct m).tablet_meta_state ∧
    (t.state = t.tablet_meta_state →
      (t.set_tablet_states states).state = (t.set_tablet_states states).tablet_meta_state) ∧
    (t.tablet_meta_state = TabletState.TABLET_SHUTDOWN →
      (t.set_tablet_states states).tablet_meta_state = TabletState.TABLET_SHUTDOWN) := by
  refine ⟨?_, ?_, rfl, BaseTablet.set_tablet_states_agree states t,
    BaseTablet.set_tablet_states_shutdown states t⟩
  · intro h
    unfold BaseTablet.set_tablet_state
    rw [if_pos h]
  · intro h
    unfold BaseTablet.set_tablet_state
    rw [if_neg h]

/-- C30 at concrete tablets: a shut-down tablet refuses to run again and accepts a
repeated shutdown; a running tablet can be shut down. -/
theorem C30_set_tablet_state_shutdown_absorbing_witness :
    (BaseTablet.construct TabletState.TABLET_SHUTDOWN).set_tablet_state (TabletState.OTHER 1) =
      (BaseTablet.construct TabletState.TABLET_SHUTDOWN,
        OLAPStatus.OLAPInternalError OLAPErrorCode.OLAP_ERR_META_INVALID_ARGUMENT) ∧
    (BaseTablet.construct (TabletState.OTHER 1)).set_tablet_state TabletState.TABLET_SHUTDOWN =
      (⟨TabletState.TABLET_SHUTDOWN, TabletState.TABLET_SHUTDOWN⟩, OLAPStatus.OK) ∧
    ((BaseTablet.construct (TabletState.OTHER 1)).set_tablet_states
      [TabletState.TABLET_SHUTDOWN, TabletState.OTHER 2, TabletState.TABLET_SHUTDOWN]) =
      ⟨TabletState.TABLET_SHUTDOWN, TabletState.TABLET_SHUTDOWN⟩ := by
  refine ⟨(C30_set_tablet_state_shutdown_absorbing
      (BaseTablet.construct TabletState.TABLET_SHUTDOWN) (TabletState.OTHER 1)
      TabletState.TABLET_SHUTDOWN []).1 ⟨rfl, by decide⟩,
    (C30_set_tablet_state_shutdown_absorbing
      (BaseTablet.construct (TabletState.OTHER 1)) TabletState.TABLET_SHUTDOWN
      TabletState.TABLET_SHUTDOWN []).2.1 (by decide), by decide⟩

/-- C26 as stated fails when the runtime state has no backend id (`-1`): no node record
is added, so the accumulator is not the one with a record keyed by the backend id. -/
theorem C26_counterexample :
    PlanFragmentExecutor._collect_query_statistics (fun q => q) 2500000 (-1) 5 ⟨1, 2, 3, []⟩ ≠
      PlanFragmentExecutor._collect_node_statistics (-1) 5
        ((QueryStatistics.clear ⟨1, 2, 3, []⟩).add_cpu_ms 2) ∧
    (PlanFragmentExecutor._collect_query_statistics (fun q => q) 2500000 (-1) 5
      ⟨1, 2, 3, []⟩).nodes_statistics_map.lookup (-1) = none := by
  decide

/-- C26, amended: `_collect_query_statistics` rebuilds the accumulator from scratch.
The result is an empty accumulator to which the plan tree's statistics and the fragment
CPU timer in milliseconds (nanoseconds / 1,000,000, integer division) have been added and,
only when the backend id of the runtime state is not `-1`, the peak memory of the instance
tracker under the backend id; it does not depend on the previous contents.  When the
plan tree left no record for that backend, the record holds exactly the peak memory. -/
theorem C26_collect_query_statistics_rebuilds
    (plan_collect : QueryStatistics → QueryStatistics)
    (fragment_cpu_timer backend_id peak_consumption : Int) (q q2 : QueryStatistics) :
    PlanFragmentExecutor._collect_query_statistics plan_collect fragment_cpu_timer backend_id
        peak_consumption q =
      (if backend_id = -1 then
        (plan_collect ⟨0, 0, 0, []⟩).add_cpu_ms (Int.tdiv fragment_cpu_timer 1000000)
      else
        PlanFragmentExecutor._collect_node_statistics backend_id peak_consumption
          ((plan_collect ⟨0, 0, 0, []⟩).add_cpu_ms (Int.tdiv fragment_cpu_timer 1000000))) ∧
    PlanFragmentExecutor._collect_query_statistics plan_collect fragment_cpu_timer backend_id
        peak_consumption q =
      PlanFragmentExecutor._collect_query_statistics plan_collect fragment_cpu_timer backend_id
        peak_consumption q2 ∧
    (backend_id ≠ -1 →
      (plan_collect ⟨0, 0, 0, []⟩).nodes_statistics_map.lookup backend_id = none →
      (PlanFragmentExecutor._collect_query_statistics plan_collect fragment_cpu_timer
        backend_id peak_consumption q).nodes_statistics_map.lookup backend_id =
        some ⟨peak_consumption⟩) := by
  refine ⟨?_, rfl, ?_⟩
  · unfold PlanFragmentExecutor._collect_query_statistics
    by_cases hb : backend_id = -1
    · simp [hb, QueryStatistics.clear, NANOS_PER_MILLIS]
    · simp [hb, QueryStatistics.clear, NANOS_PER_MILLIS]
  · intro hb hnone
    unfold PlanFragmentExecutor._collect_query_statistics
    simp only [hb, ne_eq, not_false_eq_true, if_true, QueryStatistics.clear]
    unfold PlanFragmentExecutor._collect_node_statistics QueryStatistics.add_nodes_statistics
    simp only [QueryStatistics.add_cpu_ms, hnone, QueryStatistics.update_node,
      NodeStatistics.add_peak_memory]
    generalize (plan_collect ⟨0, 0, 0, []⟩).nodes_statistics_map = l at hnone
    induction l with
    | nil => simp [List.lookup_cons]
    | cons e rest ih =>
      obtain ⟨k, v⟩ := e
      rw [List.lookup_cons] at hnone
      by_cases hk : backend_id = k
      · subst hk
        simp at hnone
      · have hk2 : (backend_id == k) = false := by simpa using hk
        rw [hk2] at hnone
        have hk3 : ¬ k = backend_id := fun h => hk h.symm
        simp only [List.cons_append, List.map_cons, hk3, if_false, List.lookup_cons, hk2]
        exact ih hnone

/-- C26 at a concrete call: 2,500,000 ns of CPU time, backend 7 with a peak of 5 bytes,
whatever the accumulator held before. -/
theorem C26_collect_query_statistics_rebuilds_witness :
    PlanFragmentExecutor._collect_query_statistics (fun q => q) 2500000 7 5
      ⟨1, 2, 3, [(7, ⟨9⟩), (8, ⟨1⟩)]⟩ = ⟨0, 0, 2, [(7, ⟨5⟩)]⟩ ∧
    (PlanFragmentExecutor._collect_query_statistics (fun q => q) 2500000 7 5
      ⟨1, 2, 3, [(7, ⟨9⟩), (8, ⟨1⟩)]⟩).nodes_statistics_map.lookup 7 = some ⟨5⟩ := by
  refine ⟨by decide, (C26_collect_query_statistics_rebuilds (fun q => q) 2500000 7 5
    ⟨1, 2, 3, [(7, ⟨9⟩), (8, ⟨1⟩)]⟩ ⟨0, 0, 0, []⟩).2.2 (by decide) rfl⟩

/-- C21 fails on the code.  A request whose plan has an exchange node (id 2) without an
entry in the per-exchange sender-count map: the count defaults to 0, `prepare` passes it
to `set_num_senders`, goes on to prepare the plan and, the other steps succeeding,
returns OK with `_prepared` set. -/
theorem C21_prepare_accepts_missing_sender_count :
    find_with_default TExecPlanFragmentParams.missing_sender_count.per_exch_num_senders 2
      (0 : Int) = 0 ∧
    ((construct true).prepare PrepareCollab.all_ok TExecPlanFragmentParams.missing_sender_count
      false).2 = Status.OK ∧
    ((construct true).prepare PrepareCollab.all_ok TExecPlanFragmentParams.missing_sender_count
      false).1.prepared = true ∧
    ((construct true).prepare PrepareCollab.all_ok TExecPlanFragmentParams.missing_sender_count
      false).1.trace =
      [Event.init_mem_trackers Status.OK, Event.create_block_mgr Status.OK,
        Event.create_desc_tbl Status.OK, Event.create_tree Status.OK,
        Event.set_num_senders 2 0, Event.plan_prepare Status.OK,
        Event.try_do_aggregate_serde_improve, Event.set_scan_ranges 0 4,
        Event.create_data_sink Status.OK, Event.sink_prepare Status.OK,
        Event.set_query_statistics] := by
  decide

/-- C23: `RowsProduced` counts exactly the rows handed out.  Over every sequence of
operations (with `open()` driving the sink and `get_next` handing batches to the caller)
the `RowsProduced` counter grows by the sum of the rows of the batches the plan produced
in that sequence, and this sum is the rows of the batches sent to the sink plus the rows
of the batches `get_next` returned.  So the counter, which is the sum of the rows the plan
produced so far at the start (0 on a new executor), is that sum at the end. -/
theorem C23_rows_produced_counts_rows_handed_out (env : Collab) (fuel : Nat)
    (s s1 : PlanFragmentExecutor) (ops : List Op) (k : Nat)
    (h : s.run_handed env fuel ops = some (s1, k)) :
    s.run env fuel ops = some s1 ∧
    (∃ new, s1.trace = s.trace ++ new ∧
      s1.rows_produced = s.rows_produced + rows_pulled new ∧
      rows_pulled new = rows_sent new + k) ∧
    (s.rows_produced = rows_pulled s.trace → s1.rows_produced = rows_pulled s1.trace) := by
  obtain ⟨new, htr, hrp, hp, -⟩ := account_run_handed env fuel ops s s1 k h
  refine ⟨?_, ⟨new, htr, hrp, hp⟩, ?_⟩
  · rw [← run_handed_fst, h]
    rfl
  · intro h0
    rw [hrp, htr, rows_pulled_append, h0]

/-- C23 at concrete runs: a plan that produces one batch of 10 rows gives
`RowsProduced = 10`, with the 10 rows sent to the sink in sink-driven mode and handed to
the caller in pull mode. -/
theorem C23_rows_produced_counts_rows_handed_out_witness :
    ((prepared_executor true true false).run_handed Collab.one_batch 5 [Op.open]).map
      (fun r => (r.1.rows_produced, rows_sent r.1.trace, r.2)) = some (10, 10, 0) ∧
    ((prepared_executor true false false).run_handed Collab.one_batch 5
      [Op.open, Op.get_next, Op.get_next]).map
      (fun r => (r.1.rows_produced, rows_sent r.1.trace, r.2)) = some (10, 0, 10) := by
  have hval : ((prepared_executor true true false).run_handed Collab.one_batch 5 [Op.open]).map
      (fun r => (rows_sent r.1.trace, r.2)) = some (10, 0) := by decide!
  obtain ⟨⟨s1, k⟩, h, hk⟩ := Option.map_eq_some'.mp hval
  simp only [Prod.mk.injEq] at hk
  obtain ⟨-, ⟨new, htr, hrp, hp⟩, -⟩ :=
    C23_rows_produced_counts_rows_handed_out Collab.one_batch 5 _ s1 [Op.open] k h
  have htr2 : s1.trace = new := by
    rw [htr]
    rfl
  refine ⟨?_, by decide!⟩
  rw [h, Option.map_some']
  refine congrArg some ?_
  show (s1.rows_produced, rows_sent s1.trace, k) = (10, 10, 0)
  rw [hrp, hp, ← htr2, hk.1, hk.2]
  rfl

/-- C27: the row-based and the vectorized drive path are equivalent.  The two pull
functions are the same function.  When the result of closing the sink does not depend on
the `end_send_span` calls made before (the one call only the vectorized path makes),
`open_vectorized_internal` and `open_internal` run out of fuel together or return the same
status and leave the same member variables (the done flag, the sink pointer and the
`RowsProduced` counter among them), the same sequence of plan and sink calls
(`_plan->open`, `_sink->open`, `_plan->get_next`, statistics refresh, `_sink->send`,
`_sink->close`) and the same reports; their traces differ in the `end_send_span` call
only. -/
theorem C27_row_and_vectorized_paths_agree (env : Collab) (fuel : Nat)
    (s : PlanFragmentExecutor)
    (henv : ∀ tr st, env.sink_close tr st = env.sink_close (without_end_send_span tr) st) :
    (∀ b, get_vectorized_internal env fuel s b = get_next_internal env fuel s b) ∧
    ((s.open_vectorized_internal env fuel = none ∧ s.open_internal env fuel = none) ∨
      ∃ (sv sr : PlanFragmentExecutor) (st : Status),
        s.open_vectorized_internal env fuel = some (sv, st) ∧
        s.open_internal env fuel = some (sr, st) ∧
        sv.members = sr.members ∧
        sv.done = sr.done ∧ sv.sink = sr.sink ∧ sv.rows_produced = sr.rows_produced ∧
        without_end_send_span sv.trace = without_end_send_span sr.trace ∧
        sv.trace.filter Event.is_data_call = sr.trace.filter Event.is_data_call ∧
        sv.trace.filter Event.is_report = sr.trace.filter Event.is_report) := by
  refine ⟨fun b => get_vectorized_internal_eq env fuel s b, ?_⟩
  rcases open_vectorized_internal_agrees env fuel s henv with hnone |
    ⟨sv, sr, st, hv, hr, hm, htr⟩
  · exact Or.inl hnone
  · refine Or.inr ⟨sv, sr, st, hv, hr, hm, ?_, ?_, ?_, htr, ?_, ?_⟩
    · have h1 := congrArg PlanFragmentExecutor.done hm
      exact h1
    · have h1 := congrArg PlanFragmentExecutor.sink hm
      exact h1
    · have h1 := congrArg PlanFragmentExecutor.rows_produced hm
      exact h1
    · have h1 := filter_without_end_send_span Event.is_data_call
        (fun e he => by cases e <;> simp_all [Event.is_data_call, Event.is_end_send_span])
      rw [← h1 sv.trace, ← h1 sr.trace, htr]
    · have h1 := filter_without_end_send_span Event.is_report
        (fun e he => by cases e <;> simp_all [Event.is_report, Event.is_end_send_span])
      rw [← h1 sv.trace, ← h1 sr.trace, htr]

/-- C27 at a concrete run: on the one-batch fragment both internal open functions return
OK with 10 rows produced, the sink released and `_done` set. -/
theorem C27_row_and_vectorized_paths_agree_witness :
    (∀ tr st, Collab.one_batch.sink_close tr st =
      Collab.one_batch.sink_close (without_end_send_span tr) st) ∧
    ((prepared_executor true true true).open_vectorized_internal Collab.one_batch 5).map
      (fun r => (r.2, r.1.members)) =
      ((prepared_executor true true true).open_internal Collab.one_batch 5).map
        (fun r => (r.2, r.1.members)) ∧
    ((prepared_executor true true true).open_vectorized_internal Collab.one_batch 5).map
      (fun r => (r.2, r.1.rows_produced, r.1.done, r.1.sink)) =
      some (Status.OK, 10, true, false) := by
  have henv : ∀ tr st, Collab.one_batch.sink_close tr st =
      Collab.one_batch.sink_close (without_end_send_span tr) st := fun _ _ => rfl
  refine ⟨henv, ?_, by decide!⟩
  rcases (C27_row_and_vectorized_paths_agree Collab.one_batch 5
    (prepared_executor true true true) henv).2 with ⟨h1, h2⟩ | ⟨sv, sr, st, hv, hr, hm, -⟩
  · rw [h1, h2]
  · rw [hv, hr, Option.map_some', Option.map_some', hm]

end doris
